import Mathlib

/-!
# components/pthread/pthread.c and components/driver/ledc.c

A shallow embedding of `pthread.c` (thread registry, join/detach protocol,
keys, one-time execution, mutexes) and of the timer part of `ledc.c`.

* Pointers and FreeRTOS task handles are natural numbers, `0` is `NULL`.
* `s_threads_list` is the list of the registered `esp_pthread_t` objects in list
  order.  The list item is the first member of the object, so the item owner
  (`pvOwner`) is the address of the object and the item value (`xItemValue`)
  is the native task handle.
* Every function threads a `Mem` through its body.  Besides the registry and
  the notification flags of the scheduler, `Mem` carries the sequence of
  effects the code has performed (`trace`): lock operations, list scans,
  loads and stores through an `esp_pthread_t *`, notifications, waits.
* A load through a pointer to an object that is not registered (it has been
  removed from the list and released with `free`) yields whatever the
  allocator left at that address.  That content is not determined by the
  program; it is an explicit argument (`stale`) of the function doing the load.
* The stores to `errno`, the log statements and the members `func` and `arg` of
  the argument box have no influence on the registry and are left out.
* `xSemaphoreTake(s_threads_mux, portMAX_DELAY)` is taken to succeed; the
  branch that asserts on its failure is not part of the model.
* The functions of `ledc.c` operate on the timer registers of the peripheral
  (`ledc_dev`).  The constants of the headers are a parameter (`ledc_hw`), and
  a division by zero is an explicit outcome (`none`).
-/

namespace EspPthread

abbrev TaskHandle_t := Nat
abbrev pthread_t := Nat

/-! ## Constants (newlib `errno.h`, FreeRTOS `projdefs.h`) -/

def ESRCH : Int := 3
def EAGAIN : Int := 11
def ENOMEM : Int := 12
def EBUSY : Int := 16
def EINVAL : Int := 22
def EDEADLK : Int := 45

def pdPASS : Int := 1
def errCOULD_NOT_ALLOCATE_REQUIRED_MEMORY : Int := -1

def PTHREAD_TASK_STATE_RUN : Int := 0
def PTHREAD_TASK_STATE_EXIT : Int := 1

/-! ## Data model -/

/-- The object `esp_pthread_t`, together with the two members of its embedded
`list_item` that the code uses: `owner` (the address of the object itself,
which is also the `pthread_t` handed to the caller) and `value` (the native
task handle). -/
structure esp_pthread_t where
  owner : pthread_t
  value : TaskHandle_t
  join_task : TaskHandle_t
  state : Int
  detached : Bool
deriving DecidableEq, Repr

/-- Members of `esp_pthread_t` that are accessed through a pointer. -/
inductive Field where
  | join_task
  | state
  | detached
deriving DecidableEq, Repr

/-- Effects performed by the code, in program order. -/
inductive Event where
  /-- Lock taken: `xSemaphoreTake(s_threads_mux, portMAX_DELAY)` returned `pdTRUE`. -/
  | take
  /-- Lock released: `xSemaphoreGive(s_threads_mux)`. -/
  | give
  /-- A traversal of `s_threads_list` (`pthread_find_handle`, `pthread_find`). -/
  | scan
  /-- A load of member `f` through pointer `p`; `live` tells whether an object
  with that address is registered at the time of the load. -/
  | load (p : pthread_t) (f : Field) (live : Bool)
  /-- A store to member `f` through pointer `p`. -/
  | store (p : pthread_t) (f : Field) (live : Bool)
  /-- The call `vListInsertEnd` of the object at `p`. -/
  | insert (p : pthread_t)
  /-- The call `pthread_delete(p)`: `uxListRemove` and `free`. -/
  | delete (p : pthread_t) (live : Bool)
  /-- A call of `malloc` returned `p` (`0` on failure). -/
  | alloc (p : Nat)
  /-- The call `free(p)` of a block that was never registered. -/
  | dealloc (p : Nat)
  /-- The call of `xTaskCreate` returned `pdPASS` and produced task `h`. -/
  | spawn (h : TaskHandle_t)
  /-- The call `xTaskNotify(h, 0, eNoAction)`. -/
  | notify (h : TaskHandle_t)
  /-- The call `xTaskNotifyWait(0, 0, NULL, portMAX_DELAY)`. -/
  | wait
  /-- The call `task_arg->func(task_arg->arg)` of the entry function in
  `pthread_task_func`, with the argument box at `arg`. -/
  | entry (arg : Nat)
  /-- The store `*thread = p` in `pthread_create`. -/
  | set_thread (p : pthread_t)
  /-- The store `*retval = 0` in `pthread_join`. -/
  | set_retval
  /-- The call `vTaskDelete(NULL)`. -/
  | task_delete
  /-- A failed `assert`. -/
  | abort
  /-- The function returned `v` to its caller. -/
  | ret (v : Int)
deriving DecidableEq, Repr

/-- The state the thread functions operate on. -/
structure Mem where
  /-- The registry `s_threads_list`, in list order. -/
  s_threads_list : List esp_pthread_t
  /-- Tasks whose notification state is received and not yet consumed. -/
  notified : List TaskHandle_t
  /-- Effects so far, oldest first. -/
  trace : List Event
deriving DecidableEq, Repr

def Mem.emit (s : Mem) (e : Event) : Mem :=
  { s with trace := s.trace ++ [e] }

/-- The object at address `p`, when one is registered. -/
def lookup : List esp_pthread_t → pthread_t → Option esp_pthread_t
  | [], _ => none
  | t :: rest, p => if t.owner = p then some t else lookup rest p

/-- A store through pointer `p`: the object at that address is replaced by `f`
applied to it. -/
def update : List esp_pthread_t → pthread_t → (esp_pthread_t → esp_pthread_t) →
    List esp_pthread_t
  | [], _, _ => []
  | t :: rest, p, f => if t.owner = p then f t :: rest else t :: update rest p f

/-- The call `uxListRemove(&pthread->list_item)`. -/
def uxListRemove : List esp_pthread_t → pthread_t → List esp_pthread_t
  | [], _ => []
  | t :: rest, p => if t.owner = p then rest else t :: uxListRemove rest p

/-- Whether an object with address `p` is registered. -/
def registered (l : List esp_pthread_t) (p : pthread_t) : Bool :=
  (lookup l p).isSome

/-- The load of `pthread->join_task` through `pthread`.  When no object is registered
at that address the block has been freed and the load yields `stale`. -/
def load_join_task (s : Mem) (p : pthread_t) (stale : TaskHandle_t) : Mem × TaskHandle_t :=
  match lookup s.s_threads_list p with
  | some t => (s.emit (.load p .join_task true), t.join_task)
  | none => (s.emit (.load p .join_task false), stale)

/-- The load of `pthread->state` through `pthread`. -/
def load_state (s : Mem) (p : pthread_t) (stale : Int) : Mem × Int :=
  match lookup s.s_threads_list p with
  | some t => (s.emit (.load p .state true), t.state)
  | none => (s.emit (.load p .state false), stale)

/-- The store `pthread->join_task = v`. -/
def store_join_task (s : Mem) (p : pthread_t) (v : TaskHandle_t) : Mem :=
  { s with
    s_threads_list := update s.s_threads_list p (fun t => { t with join_task := v })
    trace := s.trace ++ [.store p .join_task (registered s.s_threads_list p)] }

/-- The store `pthread->state = v`. -/
def store_state (s : Mem) (p : pthread_t) (v : Int) : Mem :=
  { s with
    s_threads_list := update s.s_threads_list p (fun t => { t with state := v })
    trace := s.trace ++ [.store p .state (registered s.s_threads_list p)] }

/-- The store `pthread->detached = v`. -/
def store_detached (s : Mem) (p : pthread_t) (v : Bool) : Mem :=
  { s with
    s_threads_list := update s.s_threads_list p (fun t => { t with detached := v })
    trace := s.trace ++ [.store p .detached (registered s.s_threads_list p)] }

/-- The call `xTaskNotify(h, 0, eNoAction)`: the notification state of `h` becomes
"received". -/
def xTaskNotify (s : Mem) (h : TaskHandle_t) : Mem :=
  { s with
    notified := if h ∈ s.notified then s.notified else s.notified ++ [h]
    trace := s.trace ++ [.notify h] }

/-! ## The functions of `pthread.c` -/

/-- Function `pthread_find_handle` (lines 65-77): the item value of the first item whose
owner is `thread`, `NULL` when there is none. -/
def pthread_find_handle : List esp_pthread_t → pthread_t → TaskHandle_t
  | [], _ => 0
  | t :: rest, thread => if t.owner = thread then t.value else pthread_find_handle rest thread

/-- Function `pthread_find` (lines 79-91): the owner of the first item whose value is
`task_handle`, `NULL` (`none`) when there is none. -/
def pthread_find : List esp_pthread_t → TaskHandle_t → Option esp_pthread_t
  | [], _ => none
  | t :: rest, task_handle =>
    if task_handle = t.value then some t else pthread_find rest task_handle

/-- Function `pthread_delete` (lines 93-97). -/
def pthread_delete (s : Mem) (p : pthread_t) : Mem :=
  { s with
    s_threads_list := uxListRemove s.s_threads_list p
    trace := s.trace ++ [.delete p (registered s.s_threads_list p)] }

/-- How a call of `pthread_join` leaves lines 200-237. -/
inductive JoinResult where
  /-- The function returned `ret`. -/
  | returned (ret : Int)
  /-- The caller is suspended in `xTaskNotifyWait` at line 237. -/
  | waiting
deriving DecidableEq, Repr

/-- Lines 245-250 of `pthread_join`. -/
def pthread_join_epilogue (s : Mem) (retval : Bool) (ret : Int) : Mem :=
  let s := if retval then s.emit .set_retval else s
  s.emit (.ret ret)

/-- The locked section of `pthread_join`, lines 208-234: the state after
`xSemaphoreGive` and the value of `ret`. -/
def pthread_join_locked (s : Mem) (cur : TaskHandle_t) (thread : pthread_t)
    (stale : esp_pthread_t) : Mem × Int :=
  let s := s.emit .take
  let s := s.emit .scan
  let handle := pthread_find_handle s.s_threads_list thread
  let r : Mem × Int :=
    if handle = 0 then (s, ESRCH)
    else
      let r := load_join_task s thread stale.join_task
      if r.2 ≠ 0 then (r.1, EINVAL)
      else if handle = cur then (r.1, EDEADLK)
      else
        let s := r.1.emit .scan
        let m : Mem × Bool :=
          match pthread_find s.s_threads_list cur with
          | some c => (s.emit (.load c.owner .join_task true), decide (c.join_task = handle))
          | none => (s, false)
        if m.2 then (m.1, EDEADLK)
        else
          let q := load_state m.1 thread stale.state
          if q.2 = PTHREAD_TASK_STATE_RUN then (store_join_task q.1 thread cur, 0)
          else (pthread_delete q.1 thread, 0)
  (r.1.emit .give, r.2)

/-- Function `pthread_join` from entry up to its return or up to the suspension in
`xTaskNotifyWait` (lines 200-237 and 245-250).  `cur` is
`xTaskGetCurrentTaskHandle()`, `retval` tells whether the `retval` pointer is
non-null, and `stale` is the content found at `thread` when no registered
object lives there. -/
def pthread_join (s : Mem) (cur : TaskHandle_t) (thread : pthread_t) (retval : Bool)
    (stale : esp_pthread_t) : Mem × JoinResult :=
  let r := pthread_join_locked s cur thread stale
  if r.2 = 0 then
    let j := load_join_task r.1 thread stale.join_task
    if j.2 ≠ 0 then (j.1.emit .wait, .waiting)
    else (pthread_join_epilogue j.1 retval r.2, .returned r.2)
  else (pthread_join_epilogue r.1 retval r.2, .returned r.2)

/-- Function `pthread_join` after `xTaskNotifyWait` has returned (lines 238-250). -/
def pthread_join_wake (s : Mem) (thread : pthread_t) (retval : Bool) : Mem × Int :=
  let s := s.emit .take
  let s := pthread_delete s thread
  let s := s.emit .give
  (pthread_join_epilogue s retval 0, 0)

/-- Function `pthread_detach` (lines 253-271). -/
def pthread_detach (s : Mem) (thread : pthread_t) : Mem × Int :=
  let s := s.emit .take
  let s := s.emit .scan
  let handle := pthread_find_handle s.s_threads_list thread
  let r : Mem × Int :=
    if handle = 0 then (s, ESRCH)
    else (store_detached s thread true, 0)
  let s := r.1.emit .give
  (s.emit (.ret r.2), r.2)

/-- The exit section of `pthread_task_func`, from the lock taken after the entry
function has returned to `vTaskDelete` (lines 113-134); `cur` is the handle of
the task running it. -/
def pthread_task_func_exit (s : Mem) (cur : TaskHandle_t) : Mem :=
  let s := s.emit .take
  let s := s.emit .scan
  match pthread_find s.s_threads_list cur with
  | none => s.emit .abort
  | some t =>
    let s := s.emit (.load t.owner .detached true)
    let s :=
      if t.detached then pthread_delete s t.owner
      else
        let s := s.emit (.load t.owner .join_task true)
        if t.join_task ≠ 0 then xTaskNotify s t.join_task
        else store_state s t.owner PTHREAD_TASK_STATE_EXIT
    let s := s.emit .give
    s.emit .task_delete

/-- The object `pthread_create` has built at `pthread` when it inserts it
(lines 163 and 180-182): zeroed by `memset`, then the list item gets the object
as owner and the native handle as value. -/
def new_pthread (pthread : pthread_t) (xHandle : TaskHandle_t) : esp_pthread_t :=
  { owner := pthread, value := xHandle, join_task := 0, state := 0, detached := false }

/-- What `pthread_create` hands back: the return value and the handle stored
through `thread`, if any. -/
structure CreateResult where
  ret : Int
  thread : Option pthread_t
deriving DecidableEq, Repr

/-- Function `pthread_create` (lines 139-198).  `attr` tells whether the attribute
pointer is non-null; `task_arg` and `pthread` are the results of the two
`malloc` calls (`0` for failure), `res` and `xHandle` the result of
`xTaskCreate`. -/
def pthread_create (s : Mem) (attr : Bool) (task_arg : Nat) (pthread : pthread_t)
    (res : Int) (xHandle : TaskHandle_t) : Mem × CreateResult :=
  if attr then (s.emit (.ret EINVAL), ⟨EINVAL, none⟩)
  else
    let s := s.emit (.alloc task_arg)
    if task_arg = 0 then (s.emit (.ret ENOMEM), ⟨ENOMEM, none⟩)
    else
      let s := s.emit (.alloc pthread)
      if pthread = 0 then ((s.emit (.dealloc task_arg)).emit (.ret ENOMEM), ⟨ENOMEM, none⟩)
      else if res ≠ pdPASS then
        let s := (s.emit (.dealloc pthread)).emit (.dealloc task_arg)
        if res = errCOULD_NOT_ALLOCATE_REQUIRED_MEMORY then (s.emit (.ret ENOMEM), ⟨ENOMEM, none⟩)
        else (s.emit (.ret EAGAIN), ⟨EAGAIN, none⟩)
      else
        let s := s.emit (.spawn xHandle)
        let s := s.emit .take
        let s : Mem :=
          { s with
            s_threads_list := s.s_threads_list ++ [new_pthread pthread xHandle]
            trace := s.trace ++ [.insert pthread] }
        let s := s.emit .give
        let s := xTaskNotify s xHandle
        let s := s.emit (.set_thread pthread)
        (s.emit (.ret 0), ⟨0, some pthread⟩)

/-- The return of `xTaskNotifyWait` in task `h`: the notification is consumed. -/
def xTaskNotifyWait_return (s : Mem) (h : TaskHandle_t) : Mem :=
  { s with notified := s.notified.filter (fun x => decide (x ≠ h)) }

/-! ## Interleaved executions

The tasks of the system take turns; one turn is one of the sections of code
above, executed without interruption:

* a call of `pthread_create`, including the consumption of the start
  notification by the spawned task;
* the exit section of `pthread_task_func` in a spawned task;
* a call of `pthread_join` up to its return or its suspension;
* the resumption of a suspended `pthread_join` once its task has been notified;
* a call of `pthread_detach`.
-/

/-- The local variables of a call of `pthread_join` suspended at line 237. -/
structure Suspended where
  task : TaskHandle_t
  pthread : pthread_t
  retval : Bool
deriving DecidableEq, Repr

/-- A configuration of the system. -/
structure Sys where
  mem : Mem
  /-- The calls of `pthread_join` that are suspended in `xTaskNotifyWait`. -/
  blocked : List Suspended
  /-- The tasks spawned by `pthread_create` that have not yet run the exit
  section of `pthread_task_func`. -/
  running : List TaskHandle_t
deriving DecidableEq, Repr

/-- The configuration after `esp_pthread_init`. -/
def Sys.init : Sys :=
  { mem := { s_threads_list := [], notified := [], trace := [] }, blocked := [], running := [] }

/-- The turns.  `cur` is the task taking the turn; the other arguments of
`create` and `join` are those of `pthread_create` and `pthread_join`. -/
inductive Step where
  | create (cur : TaskHandle_t) (attr : Bool) (task_arg : Nat) (pthread : pthread_t)
      (res : Int) (xHandle : TaskHandle_t)
  | exit (h : TaskHandle_t)
  | join (cur : TaskHandle_t) (thread : pthread_t) (retval : Bool) (stale : esp_pthread_t)
  | wake (cur : TaskHandle_t)
  | detach (cur : TaskHandle_t) (thread : pthread_t)
deriving DecidableEq, Repr

/-- Task `h` can execute code: it is a task, it is not suspended in a join, and
it is not a spawned task that has already run its exit section while its object
is still registered. -/
def Sys.canRun (c : Sys) (h : TaskHandle_t) : Bool :=
  decide (h ≠ 0) && decide (h ∉ c.blocked.map Suspended.task) &&
    (decide (h ∉ c.mem.s_threads_list.map esp_pthread_t.value) || decide (h ∈ c.running))

/-- What the allocator and the scheduler may answer to `pthread_create`:
`malloc` returns `NULL` or a block that is not live, and a successful
`xTaskCreate` returns a non-null handle that is not the handle of a task that
exists (the caller, a spawned task that has not finished, a suspended task).
The handle of a task that has finished may be handed out again. -/
def Sys.createEnv (c : Sys) (cur : TaskHandle_t) (pthread : pthread_t) (res : Int)
    (xHandle : TaskHandle_t) : Bool :=
  decide (pthread ∉ c.mem.s_threads_list.map esp_pthread_t.owner) &&
    (decide (res ≠ pdPASS) ||
      (decide (xHandle ≠ 0) && decide (xHandle ≠ cur) &&
        decide (xHandle ∉ c.running) &&
        decide (xHandle ∉ c.blocked.map Suspended.task)))

/-- The turn does not spawn a task whose handle is still the item value of a
registered object.  The registry is searched by native handle and
`pthread_find` returns the first object with a given item value, so the code
relies on the native handles of the registered objects being distinct. -/
def Sys.fresh (c : Sys) : Step → Bool
  | .create _ _ _ _ res xHandle =>
    decide (res ≠ pdPASS) || decide (xHandle ∉ c.mem.s_threads_list.map esp_pthread_t.value)
  | .exit _ => true
  | .join _ _ _ _ => true
  | .wake _ => true
  | .detach _ _ => true

/-- The suspended call of task `h`, if it has one. -/
def Sys.suspended (c : Sys) (h : TaskHandle_t) : Option Suspended :=
  c.blocked.find? (fun b => decide (b.task = h))

/-- One turn; `none` when the turn cannot be taken in `c`. -/
def Sys.step (c : Sys) : Step → Option Sys
  | .create cur attr task_arg pthread res xHandle =>
    if c.canRun cur && c.createEnv cur pthread res xHandle then
      let r := pthread_create c.mem attr task_arg pthread res xHandle
      if r.2.ret = 0 then
        some { c with mem := xTaskNotifyWait_return r.1 xHandle
                      running := c.running ++ [xHandle] }
      else some { c with mem := r.1 }
    else none
  | .exit h =>
    if decide (h ∈ c.running) && decide (h ∉ c.blocked.map Suspended.task) then
      some { c with mem := pthread_task_func_exit c.mem h
                    running := c.running.filter (fun x => decide (x ≠ h)) }
    else none
  | .join cur thread retval stale =>
    if c.canRun cur then
      let r := pthread_join c.mem cur thread retval stale
      match r.2 with
      | .waiting => some { c with mem := r.1, blocked := c.blocked ++ [⟨cur, thread, retval⟩] }
      | .returned _ => some { c with mem := r.1 }
    else none
  | .wake cur =>
    match c.suspended cur with
    | some b =>
      if cur ∈ c.mem.notified then
        some { c with mem := (pthread_join_wake (xTaskNotifyWait_return c.mem cur)
                                b.pthread b.retval).1
                      blocked := c.blocked.filter (fun x => decide (x.task ≠ cur)) }
      else none
    | none => none
  | .detach cur thread =>
    if c.canRun cur then some { c with mem := (pthread_detach c.mem thread).1 }
    else none

/-- A sequence of turns. -/
def Sys.exec (c : Sys) : List Step → Option Sys
  | [] => some c
  | st :: rest =>
    match c.step st with
    | some c1 => c1.exec rest
    | none => none

/-- A sequence of turns in which no spawned task reuses the native handle of a
registered object. -/
def Sys.execFresh (c : Sys) : List Step → Option Sys
  | [] => some c
  | st :: rest =>
    if c.fresh st then
      match c.step st with
      | some c1 => c1.execFresh rest
      | none => none
    else none

/-- The values returned so far, in order. -/
def returns : List Event → List Int
  | [] => []
  | .ret v :: rest => v :: returns rest
  | _ :: rest => returns rest

/-- The events of lines 222-223 of `pthread_join`: the scan of `pthread_find`
and, when the caller has an object, the load of its `join_task`. -/
def mutual_check_events (l : List esp_pthread_t) (cur : TaskHandle_t) : List Event :=
  match pthread_find l cur with
  | some c => [.scan, .load c.owner .join_task true]
  | none => [.scan]

/-- The events a call has appended to the trace of `s`. -/
def Mem.since (s1 s : Mem) : List Event :=
  s1.trace.drop s.trace.length

/-- The owners (addresses) of the registered objects, in list order. -/
def owners (l : List esp_pthread_t) : List pthread_t :=
  l.map esp_pthread_t.owner

/-- The item values (native task handles) of the registered objects. -/
def values (l : List esp_pthread_t) : List TaskHandle_t :=
  l.map esp_pthread_t.value

/-- The invariant of the configurations reachable from `Sys.init` by turns that
spawn tasks with fresh handles (`Sys.execFresh`). -/
structure Sys.Inv (c : Sys) : Prop where
  /-- Live objects have distinct addresses. -/
  owners_nodup : (owners c.mem.s_threads_list).Nodup
  /-- Registered objects carry distinct native handles. -/
  values_nodup : (values c.mem.s_threads_list).Nodup
  /-- Native handles are not `NULL`. -/
  values_ne : ∀ t ∈ c.mem.s_threads_list, t.value ≠ 0
  /-- The member `state` is one of the two state constants. -/
  state_range : ∀ t ∈ c.mem.s_threads_list,
    t.state = PTHREAD_TASK_STATE_RUN ∨ t.state = PTHREAD_TASK_STATE_EXIT
  /-- An object marked as exited has no join-waiter and its task is gone. -/
  exited : ∀ t ∈ c.mem.s_threads_list, t.state = PTHREAD_TASK_STATE_EXIT →
    t.join_task = 0 ∧ t.value ∉ c.running
  /-- A task is suspended in at most one join. -/
  blocked_nodup : (c.blocked.map Suspended.task).Nodup
  /-- A suspended task that is a registered thread has not run its exit section. -/
  blocked_alive : ∀ b ∈ c.blocked, b.task ∈ values c.mem.s_threads_list → b.task ∈ c.running
  /-- A recorded join-waiter is suspended in a join on that very object. -/
  waiter : ∀ t ∈ c.mem.s_threads_list, t.join_task ≠ 0 →
    ∃ b ∈ c.blocked, b.task = t.join_task ∧ b.pthread = t.owner
  /-- A pending notification was sent by the exit section of a thread whose
  object still records the notified task as join-waiter. -/
  notified : ∀ h ∈ c.mem.notified, h ≠ 0 ∧
    ∃ t ∈ c.mem.s_threads_list, t.join_task = h ∧ t.value ∉ c.running
  /-- Every `pthread_delete` so far was applied to a registered object. -/
  deletes_live : ∀ p, Event.delete p false ∉ c.mem.trace

/-- Replays the insertions and deletions recorded in a trace, starting from the
addresses `live` of the registered objects.  The result is `none` as soon as
`pthread_delete` is applied to an address that is not registered at that
moment (an object that was never inserted, or one already removed and freed). -/
def replay : List Event → List pthread_t → Option (List pthread_t)
  | [], live => some live
  | .insert p :: rest, live => replay rest (live ++ [p])
  | .delete p _ :: rest, live => if p ∈ live then replay rest (live.erase p) else none
  | .take :: rest, live => replay rest live
  | .give :: rest, live => replay rest live
  | .scan :: rest, live => replay rest live
  | .load _ _ _ :: rest, live => replay rest live
  | .store _ _ _ :: rest, live => replay rest live
  | .alloc _ :: rest, live => replay rest live
  | .dealloc _ :: rest, live => replay rest live
  | .spawn _ :: rest, live => replay rest live
  | .notify _ :: rest, live => replay rest live
  | .wait :: rest, live => replay rest live
  | .entry _ :: rest, live => replay rest live
  | .set_thread _ :: rest, live => replay rest live
  | .set_retval :: rest, live => replay rest live
  | .task_delete :: rest, live => replay rest live
  | .abort :: rest, live => replay rest live
  | .ret _ :: rest, live => replay rest live

/-- The insertions and deletions of the trace account for the registry. -/
def Sys.Ledger (c : Sys) : Prop :=
  replay c.mem.trace [] = some (owners c.mem.s_threads_list)

/-- The circumstances in which the turn `st`, taken in configuration `c`, may
free the registered object `t`: the exit section of the detached thread itself,
a join on the object that finds it exited and without join-waiter, or the
resumption of the recorded join-waiter after it has been notified. -/
def Sys.mayFree (c : Sys) (st : Step) (t : esp_pthread_t) : Prop :=
  match st with
  | .exit h => t.value = h ∧ t.detached = true
  | .join _ thread _ _ =>
    thread = t.owner ∧ t.state = PTHREAD_TASK_STATE_EXIT ∧ t.join_task = 0
  | .wake cur =>
    t.join_task = cur ∧ cur ∈ c.mem.notified ∧
      ∃ b, c.suspended cur = some b ∧ b.pthread = t.owner
  | .create _ _ _ _ _ _ => False
  | .detach _ _ => False

/-! ## `pthread_cancel` -/

/-- Function `pthread_cancel` (lines 273-277): `assert(false && ...)` followed
by `return -1`.  The macro `assert` comes from `assert.h`; `asserts` tells
whether it is compiled in (`NDEBUG` not defined).  A failed assertion aborts
the program, and the function does not return (`none`). -/
def pthread_cancel (s : Mem) (asserts : Bool) (_thread : pthread_t) : Mem × Option Int :=
  if asserts then (s.emit .abort, none) else (s.emit (.ret (-1)), some (-1))

/-! ## Keys -/

/-- What a call of `pthread_key_create` hands back: the return value and the
value stored through `key`, if any. -/
structure KeyResult where
  ret : Int
  key : Option Nat
deriving DecidableEq, Repr

/-- Function `pthread_key_create` (lines 304-316).  The first component is the
static variable `s_created`, before and after the call. -/
def pthread_key_create (s_created : Int) (_destructor : Nat) : Int × KeyResult :=
  if s_created ≠ 0 then (s_created, ⟨ENOMEM, none⟩)
  else (1, ⟨0, some 1⟩)

/-- A sequence of calls of `pthread_key_create`, one per destructor argument,
starting with `s_created`. -/
def pthread_key_create_calls : Int → List Nat → List KeyResult
  | _, [] => []
  | s_created, d :: rest =>
    (pthread_key_create s_created d).2 ::
      pthread_key_create_calls (pthread_key_create s_created d).1 rest

/-! ## One-time execution -/

/-- The type `pthread_once_t` of newlib. -/
structure pthread_once_t where
  is_initialized : Int
  init_executed : Int
deriving DecidableEq, Repr

/-- The static value `PTHREAD_ONCE_INIT` of newlib, `{ 1, 0 }`. -/
def PTHREAD_ONCE_INIT : pthread_once_t :=
  { is_initialized := 1, init_executed := 0 }

/-- Effects of `pthread_once`, in program order. -/
inductive OnceEvent where
  /-- The call `xSemaphoreTake(s_once_mux, portMAX_DELAY)` returned `pdTRUE`. -/
  | take
  /-- The call `xSemaphoreTake(s_once_mux, portMAX_DELAY)` did not return `pdTRUE`. -/
  | take_failed
  /-- The call `xSemaphoreGive(s_once_mux)`. -/
  | give
  /-- The call `init_routine()`. -/
  | init
  /-- The function returned `v`. -/
  | ret (v : Int)
deriving DecidableEq, Repr

/-- What a call of `pthread_once` leaves: the gate (when the pointer is not
null), the effects and the return value. -/
structure OnceResult where
  gate : Option pthread_once_t
  trace : List OnceEvent
  ret : Int
deriving DecidableEq, Repr

/-- Function `pthread_once` (lines 337-364).  `once_control` is the gate the
pointer refers to (`none` for a null pointer), `init_routine` tells whether the
function pointer is non-null, `cur_task` is `xTaskGetCurrentTaskHandle()` and
`taken` is the outcome of `xSemaphoreTake(s_once_mux, portMAX_DELAY) == pdTRUE`,
which is evaluated only when there is a current task. -/
def pthread_once (once_control : Option pthread_once_t) (init_routine : Bool)
    (cur_task : TaskHandle_t) (taken : Bool) : OnceResult :=
  match once_control with
  | none => ⟨none, [.ret EINVAL], EINVAL⟩
  | some g =>
    if init_routine = false ∨ g.is_initialized = 0 then ⟨some g, [.ret EINVAL], EINVAL⟩
    else if cur_task = 0 ∨ taken = true then
      ⟨some (if g.init_executed = 0 then { g with init_executed := 1 } else g),
        (if cur_task = 0 then [] else [.take]) ++
          (if g.init_executed = 0 then [.init] else []) ++
          (if cur_task = 0 then [] else [.give]) ++ [.ret 0],
        0⟩
    else ⟨some g, [.take_failed, .ret EBUSY], EBUSY⟩

/-- A sequence of calls of `pthread_once` on the gate `g`, one after the other,
with non-null initializers; each call is made by the task given (`0` when
there is no current task) and gets the lock when it asks for it. -/
def pthread_once_calls : pthread_once_t → List TaskHandle_t → List OnceResult
  | _, [] => []
  | g, cur_task :: rest =>
    pthread_once (some g) true cur_task true ::
      pthread_once_calls ((pthread_once (some g) true cur_task true).gate.getD g) rest

/-- The number of calls of the initializer in a list of results. -/
def init_count (rs : List OnceResult) : Nat :=
  (rs.map (fun r => r.trace.count .init)).sum

/-! ## Mutexes -/

def PTHREAD_MUTEX_NORMAL : Int := 0
def PTHREAD_MUTEX_RECURSIVE : Int := 1

def portMAX_DELAY : Nat := 0xffffffff

/-- Modelled from the spec: the state of a mutex semaphore of the scheduler
(section 4.3: `Unlocked`, `LockedBy(owner)` for the binary kind,
`LockedBy(owner, depth)` for the recursive kind).  `holder = 0` means that the
semaphore is not held. -/
structure Semaphore where
  holder : TaskHandle_t
  depth : Nat
deriving DecidableEq, Repr

/-- Modelled from the spec: a semaphore that is not held, as created by
`xSemaphoreCreateMutex` and `xSemaphoreCreateRecursiveMutex`. -/
def Semaphore.unlocked : Semaphore :=
  { holder := 0, depth := 0 }

/-- Modelled from the spec: the acquisition of a binary mutex by task `cur`
(section 4.3): it succeeds when the semaphore is not held; a held semaphore is
unavailable, also to its holder (`none`). -/
def xSemaphoreTake (sem : Semaphore) (cur : TaskHandle_t) : Option Semaphore :=
  if sem.holder = 0 then some { holder := cur, depth := 1 } else none

/-- Modelled from the spec: the acquisition of a recursive mutex by task `cur`
(section 4.3): it succeeds when the semaphore is not held, and when `cur` holds
it, in which case the depth is incremented. -/
def xSemaphoreTakeRecursive (sem : Semaphore) (cur : TaskHandle_t) : Option Semaphore :=
  if sem.holder = 0 then some { holder := cur, depth := 1 }
  else if sem.holder = cur then some { holder := cur, depth := sem.depth + 1 }
  else none

/-- Modelled from the spec: the release of a binary mutex. -/
def xSemaphoreGive (_sem : Semaphore) : Semaphore :=
  Semaphore.unlocked

/-- Modelled from the spec: the release of one level of a recursive mutex by
its holder (section 4.3); a release by another task has no effect. -/
def xSemaphoreGiveRecursive (sem : Semaphore) (cur : TaskHandle_t) : Semaphore :=
  if sem.holder = cur then
    if sem.depth ≤ 1 then Semaphore.unlocked else { holder := cur, depth := sem.depth - 1 }
  else sem

/-- The object `esp_pthread_mutex_t`; `sem` is the state of the semaphore its
member `sem` refers to. -/
structure esp_pthread_mutex_t where
  sem : Semaphore
  type : Int
deriving DecidableEq, Repr

/-- The outcome of `pthread_mutex_lock_internal`: the object afterwards and the
return value, `none` when the caller is suspended in the semaphore. -/
structure LockResult where
  mux : esp_pthread_mutex_t
  ret : Option Int
deriving DecidableEq, Repr

/-- Function `pthread_mutex_lock_internal` (lines 445-460), called by task
`cur`.  With `tmo = 0` an unavailable semaphore makes the take return at once
without `pdTRUE`; with `tmo = portMAX_DELAY` the caller is suspended. -/
def pthread_mutex_lock_internal (mux : esp_pthread_mutex_t) (cur : TaskHandle_t)
    (tmo : Nat) : LockResult :=
  if mux.type = PTHREAD_MUTEX_RECURSIVE then
    match xSemaphoreTakeRecursive mux.sem cur with
    | some sem => ⟨{ mux with sem := sem }, some 0⟩
    | none => if tmo = portMAX_DELAY then ⟨mux, none⟩ else ⟨mux, some EBUSY⟩
  else
    match xSemaphoreTake mux.sem cur with
    | some sem => ⟨{ mux with sem := sem }, some 0⟩
    | none => if tmo = portMAX_DELAY then ⟨mux, none⟩ else ⟨mux, some EBUSY⟩

/-- What a mutex operation leaves: the object the variable refers to (`none`
when there is none: null pointer, or object freed) and the return value,
`none` when the caller is suspended. -/
structure MutexResult where
  mutex : Option esp_pthread_mutex_t
  ret : Option Int
deriving DecidableEq, Repr

/-- Function `pthread_mutex_lock` (lines 462-469). -/
def pthread_mutex_lock (mutex : Option esp_pthread_mutex_t) (cur : TaskHandle_t) :
    MutexResult :=
  match mutex with
  | none => ⟨none, some EINVAL⟩
  | some mux =>
    ⟨some (pthread_mutex_lock_internal mux cur portMAX_DELAY).mux,
      (pthread_mutex_lock_internal mux cur portMAX_DELAY).ret⟩

/-- Function `pthread_mutex_trylock` (lines 471-478). -/
def pthread_mutex_trylock (mutex : Option esp_pthread_mutex_t) (cur : TaskHandle_t) :
    MutexResult :=
  match mutex with
  | none => ⟨none, some EINVAL⟩
  | some mux =>
    ⟨some (pthread_mutex_lock_internal mux cur 0).mux,
      (pthread_mutex_lock_internal mux cur 0).ret⟩

/-- Function `pthread_mutex_unlock` (lines 480-496). -/
def pthread_mutex_unlock (mutex : Option esp_pthread_mutex_t) (cur : TaskHandle_t) :
    MutexResult :=
  match mutex with
  | none => ⟨none, some EINVAL⟩
  | some mux =>
    if mux.type = PTHREAD_MUTEX_RECURSIVE then
      ⟨some { mux with sem := xSemaphoreGiveRecursive mux.sem cur }, some 0⟩
    else ⟨some { mux with sem := xSemaphoreGive mux.sem }, some 0⟩

/-- Function `pthread_mutex_destroy` (lines 420-443).  After
`vSemaphoreDelete(mux->sem)` and `free(mux)` there is no object any more. -/
def pthread_mutex_destroy (mutex : Option esp_pthread_mutex_t) (cur : TaskHandle_t) :
    MutexResult :=
  match mutex with
  | none => ⟨none, some EINVAL⟩
  | some mux =>
    if (pthread_mutex_lock_internal mux cur 0).ret = some EBUSY then
      ⟨some (pthread_mutex_lock_internal mux cur 0).mux, some EBUSY⟩
    else ⟨none, some 0⟩

/-- The type `pthread_mutexattr_t` of newlib, as far as the code uses it. -/
structure pthread_mutexattr_t where
  is_initialized : Int
  type : Int
deriving DecidableEq, Repr

/-- Function `mutexattr_check` (lines 367-373). -/
def mutexattr_check (attr : pthread_mutexattr_t) : Int :=
  if attr.type < PTHREAD_MUTEX_NORMAL ∨ attr.type > PTHREAD_MUTEX_RECURSIVE then EINVAL
  else 0

/-- Effects of `pthread_mutex_init`, in program order. -/
inductive MutexEvent where
  /-- The call of `malloc` returned `p` (`0` on failure). -/
  | alloc (p : Nat)
  /-- The call of `xSemaphoreCreateRecursiveMutex` (`recursive`) or of
  `xSemaphoreCreateMutex` returned `h` (`0` on failure). -/
  | create (recursive : Bool) (h : Nat)
  /-- The call `free(p)`. -/
  | dealloc (p : Nat)
  /-- The store `*mutex = p`. -/
  | set_mutex (p : Nat)
  /-- The function returned `v`. -/
  | ret (v : Int)
deriving DecidableEq, Repr

/-- What a call of `pthread_mutex_init` leaves: the return value, the pointer
stored through `mutex` (if any), the object built (if any) and the effects. -/
structure MutexInit where
  ret : Int
  mutex : Option Nat
  object : Option esp_pthread_mutex_t
  trace : List MutexEvent
deriving DecidableEq, Repr

/-- Lines 397-417 of `pthread_mutex_init`, once `type` is known. -/
def pthread_mutex_init_alloc (type : Int) (mux : Nat) (sem : Nat) : MutexInit :=
  if mux = 0 then ⟨ENOMEM, none, none, [.alloc mux, .ret ENOMEM]⟩
  else if sem = 0 then
    ⟨EAGAIN, none, none,
      [.alloc mux, .create (decide (type = PTHREAD_MUTEX_RECURSIVE)) sem, .dealloc mux,
        .ret EAGAIN]⟩
  else
    ⟨0, some mux, some { sem := Semaphore.unlocked, type := type },
      [.alloc mux, .create (decide (type = PTHREAD_MUTEX_RECURSIVE)) sem, .set_mutex mux,
        .ret 0]⟩

/-- Function `pthread_mutex_init` (lines 375-418).  `mutex` tells whether the
pointer is non-null, `attr` is the attribute object (`none` for a null
pointer), `mux` is the result of `malloc` and `sem` the handle returned by the
semaphore constructor (`0` for failure). -/
def pthread_mutex_init (mutex : Bool) (attr : Option pthread_mutexattr_t) (mux : Nat)
    (sem : Nat) : MutexInit :=
  if mutex = false then ⟨EINVAL, none, none, [.ret EINVAL]⟩
  else
    match attr with
    | none => pthread_mutex_init_alloc PTHREAD_MUTEX_NORMAL mux sem
    | some a =>
      if a.is_initialized = 0 then ⟨EINVAL, none, none, [.ret EINVAL]⟩
      else if mutexattr_check a ≠ 0 then
        ⟨mutexattr_check a, none, none, [.ret (mutexattr_check a)]⟩
      else pthread_mutex_init_alloc a.type mux sem

/-- The blocks and semaphores a trace has obtained and not given back. -/
def leaked (tr : List MutexEvent) : List Nat :=
  (tr.filterMap (fun e =>
    match e with
    | .alloc p => if p = 0 then none else some p
    | .create _ h => if h = 0 then none else some h
    | _ => none)).filter
    (fun p => decide (MutexEvent.dealloc p ∉ tr))

/-- Repeated `pthread_mutex_lock` by task `cur`: the return values and the
object afterwards. -/
def lock_times (mutex : Option esp_pthread_mutex_t) (cur : TaskHandle_t) :
    Nat → List (Option Int) × Option esp_pthread_mutex_t
  | 0 => ([], mutex)
  | n + 1 =>
    ((pthread_mutex_lock mutex cur).ret ::
        (lock_times (pthread_mutex_lock mutex cur).mutex cur n).1,
      (lock_times (pthread_mutex_lock mutex cur).mutex cur n).2)

/-- Repeated `pthread_mutex_unlock` by task `cur`: the object afterwards. -/
def unlock_times (mutex : Option esp_pthread_mutex_t) (cur : TaskHandle_t) :
    Nat → Option esp_pthread_mutex_t
  | 0 => mutex
  | n + 1 => unlock_times (pthread_mutex_unlock mutex cur).mutex cur n

/-! ## The start of a thread, `pthread_self`, and the use of the lock -/

/-- The first section of `pthread_task_func` (lines 99-111), run by the spawned
task `cur` with the argument box `task_arg`: the wait for the start
notification and, once the notification has been received, the call of the
entry function and the release of the argument box.  The flag tells whether
the task got past `xTaskNotifyWait`; when it is `false` the task is suspended
there. -/
def pthread_task_func_start (s : Mem) (cur : TaskHandle_t) (task_arg : Nat) : Mem × Bool :=
  let s := s.emit .wait
  if cur ∈ s.notified then
    let s := xTaskNotifyWait_return s cur
    let s := s.emit (.entry task_arg)
    (s.emit (.dealloc task_arg), true)
  else (s, false)

/-- Function `pthread_self` (lines 285-296), called by task `cur`; `none` when
the assertion fails. -/
def pthread_self (s : Mem) (cur : TaskHandle_t) : Mem × Option pthread_t :=
  let s := s.emit .take
  let s := s.emit .scan
  match pthread_find s.s_threads_list cur with
  | none => (s.emit .abort, none)
  | some t =>
    let s := s.emit .give
    (s.emit (.ret t.owner), some t.owner)

/-- The use of the lock `s_threads_mux` in a sequence of effects.  `held` tells
whether the lock is held before the first effect.  The result is `none` when
the lock is taken while it is held or released while it is not, when the list
or a member of an object is read or written while the lock is not held, or
when `xTaskNotifyWait` is called while the lock is held; otherwise it tells
whether the lock is held after the last effect. -/
def lock_discipline : Bool → List Event → Option Bool
  | held, [] => some held
  | held, .take :: rest => if held then none else lock_discipline true rest
  | held, .give :: rest => if held then lock_discipline false rest else none
  | held, .scan :: rest => if held then lock_discipline held rest else none
  | held, .load _ _ _ :: rest => if held then lock_discipline held rest else none
  | held, .store _ _ _ :: rest => if held then lock_discipline held rest else none
  | held, .insert _ :: rest => if held then lock_discipline held rest else none
  | held, .delete _ _ :: rest => if held then lock_discipline held rest else none
  | held, .wait :: rest => if held then none else lock_discipline held rest
  | held, .alloc _ :: rest => lock_discipline held rest
  | held, .dealloc _ :: rest => lock_discipline held rest
  | held, .spawn _ :: rest => lock_discipline held rest
  | held, .notify _ :: rest => lock_discipline held rest
  | held, .entry _ :: rest => lock_discipline held rest
  | held, .set_thread _ :: rest => lock_discipline held rest
  | held, .set_retval :: rest => lock_discipline held rest
  | held, .task_delete :: rest => lock_discipline held rest
  | held, .abort :: rest => lock_discipline held rest
  | held, .ret _ :: rest => lock_discipline held rest

/-- The turn does not apply `pthread_join` to a detached thread and does not
apply `pthread_detach` to a thread that has a join-waiter.  The code tests
neither. -/
def Sys.exclusive (c : Sys) : Step → Bool
  | .create _ _ _ _ _ _ => true
  | .exit _ => true
  | .join _ thread _ _ =>
    match lookup c.mem.s_threads_list thread with
    | some t => !t.detached
    | none => true
  | .wake _ => true
  | .detach _ thread =>
    match lookup c.mem.s_threads_list thread with
    | some t => decide (t.join_task = 0)
    | none => true

/-- A sequence of turns in which no detached thread is joined and no thread
with a join-waiter is detached. -/
def Sys.execExclusive (c : Sys) : List Step → Option Sys
  | [] => some c
  | st :: rest =>
    if c.exclusive st then
      match c.step st with
      | some c1 => c1.execExclusive rest
      | none => none
    else none

/-! ## The LED PWM driver (`ledc.c`) -/

/-- The values of type `esp_err_t` that `ledc.c` returns. -/
inductive esp_err_t where
  | ESP_OK
  | ESP_FAIL
  | ESP_ERR_INVALID_ARG
deriving DecidableEq, Repr

/-- The constants and macros of the headers `driver/ledc.h`, `soc/ledc_reg.h`
and `driver/gpio.h` that `ledc.c` uses.  The headers are not among the
sources, so the functions of `ledc.c` take their content as a parameter.
`is_valid_output_gpio` stands for the macro `GPIO_IS_VALID_OUTPUT_GPIO`. -/
structure ledc_hw where
  LEDC_APB_CLK_HZ : Nat
  LEDC_REF_CLK_HZ : Nat
  LEDC_DIV_NUM_HSTIMER0_V : Nat
  LEDC_DIV_NUM_HSTIMER0 : Nat
  LEDC_TIMER_15_BIT : Nat
  LEDC_TIMER3 : Nat
  LEDC_CHANNEL_7 : Nat
  LEDC_SPEED_MODE_MAX : Nat
  LEDC_HIGH_SPEED_MODE : Nat
  LEDC_APB_CLK : Nat
  LEDC_REF_TICK : Nat
  is_valid_output_gpio : Nat → Bool

/-- The members of `LEDC.timer_group[speed_mode].timer[timer_sel].conf` that
`ledc.c` accesses.  A member holds the value last assigned to it; the widths of
the bit-fields are declared in a header that is not among the sources. -/
structure ledc_timer_conf where
  div_num : Nat
  tick_sel : Nat
  bit_num : Nat
  low_speed_update : Nat
  rst : Nat
  pause : Nat
deriving DecidableEq, Repr

/-- The timer registers of the peripheral `LEDC`, by speed mode and timer. -/
def ledc_dev : Type := Nat → Nat → ledc_timer_conf

/-- A store to the registers of one timer. -/
def ledc_dev.set (LEDC : ledc_dev) (speed_mode timer_sel : Nat) (v : ledc_timer_conf) :
    ledc_dev :=
  fun m t => if m = speed_mode ∧ t = timer_sel then v else LEDC m t

/-- The type `ledc_config_t`; the members are read into `uint32_t` variables. -/
structure ledc_config_t where
  gpio_num : Nat
  speed_mode : Nat
  channel : Nat
  intr_type : Nat
  timer_sel : Nat
  freq_hz : Nat
  duty : Nat
  bit_num : Nat
deriving DecidableEq, Repr

/-- The conversion of a `uint32_t` value to `int`. -/
def to_int (n : Nat) : Int :=
  if n % 2 ^ 32 < 2 ^ 31 then ((n % 2 ^ 32 : Nat) : Int) else ((n % 2 ^ 32 : Nat) : Int) - 2 ^ 32

/-- Function `ledc_is_valid_channel` (lines 66-73). -/
def ledc_is_valid_channel (K : ledc_hw) (channel : Nat) : Bool :=
  if channel > K.LEDC_CHANNEL_7 then false else true

/-- Function `ledc_is_valid_mode` (lines 75-82). -/
def ledc_is_valid_mode (K : ledc_hw) (mode : Nat) : Bool :=
  if mode ≥ K.LEDC_SPEED_MODE_MAX then false else true

/-- Function `ledc_is_valid_timer` (lines 84-91); the parameter has type `int`. -/
def ledc_is_valid_timer (K : ledc_hw) (timer : Int) : Bool :=
  if timer > (K.LEDC_TIMER3 : Int) then false else true

/-- Function `ledc_timer_config` (lines 94-111). -/
def ledc_timer_config (K : ledc_hw) (LEDC : ledc_dev) (speed_mode timer_sel div_num bit_num
    clk_src : Nat) : ledc_dev × esp_err_t :=
  if ledc_is_valid_mode K speed_mode = false then (LEDC, .ESP_ERR_INVALID_ARG)
  else if ledc_is_valid_timer K (to_int timer_sel) = false then (LEDC, .ESP_ERR_INVALID_ARG)
  else
    (LEDC.set speed_mode timer_sel
      { LEDC speed_mode timer_sel with
        div_num := div_num
        tick_sel := clk_src
        bit_num := bit_num
        low_speed_update :=
          if speed_mode = K.LEDC_HIGH_SPEED_MODE then 1
          else (LEDC speed_mode timer_sel).low_speed_update },
      .ESP_OK)

/-- Function `ledc_timer_rst` (lines 141-154): `rst` is set and cleared. -/
def ledc_timer_rst (K : ledc_hw) (LEDC : ledc_dev) (speed_mode timer_sel : Nat) :
    ledc_dev × esp_err_t :=
  if ledc_is_valid_mode K speed_mode = false then (LEDC, .ESP_ERR_INVALID_ARG)
  else if ledc_is_valid_timer K (to_int timer_sel) = false then (LEDC, .ESP_ERR_INVALID_ARG)
  else (LEDC.set speed_mode timer_sel { LEDC speed_mode timer_sel with rst := 0 }, .ESP_OK)

/-- An unsigned 64-bit division; `none` is a division by zero. -/
def udiv (a b : Nat) : Option Nat :=
  if b = 0 then none else some (a / b)

/-- The expression `(0x1 << bit_num)` assigned to the `uint32_t` variable
`precision`.  For `bit_num` above 31, where C leaves the shift undefined, the
value here is 0. -/
def ledc_precision (bit_num : Nat) : Nat :=
  (1 <<< bit_num) % 2 ^ 32

/-- The expression `((uint64_t) clk << 8) / x / y` assigned to a `uint32_t`
variable: two 64-bit divisions, the result truncated to 32 bits; `none` when
one of the divisors is zero. -/
def ledc_div (clk x y : Nat) : Option Nat :=
  match udiv ((clk <<< 8) % 2 ^ 64) x with
  | none => none
  | some q =>
    match udiv q y with
    | none => none
    | some d => some (d % 2 ^ 32)

/-- Lines 243-259 of `ledc_config`: the values of `div_param`, `timer_clk_src`
and `ret`; `none` when a division by zero is executed. -/
def ledc_config_divider (K : ledc_hw) (freq_hz bit_num : Nat) : Option (Nat × Nat × esp_err_t) :=
  match ledc_div K.LEDC_APB_CLK_HZ freq_hz (ledc_precision bit_num) with
  | none => none
  | some div_param =>
    if div_param ≤ 256 ∨ div_param > K.LEDC_DIV_NUM_HSTIMER0_V then
      match ledc_div K.LEDC_REF_CLK_HZ freq_hz (ledc_precision bit_num) with
      | none => none
      | some div_param =>
        if div_param ≤ 256 ∨ div_param > K.LEDC_DIV_NUM_HSTIMER0_V then
          some (div_param, K.LEDC_REF_TICK, .ESP_FAIL)
        else some (div_param, K.LEDC_REF_TICK, .ESP_OK)
    else some (div_param, K.LEDC_APB_CLK, .ESP_OK)

/-- Function `ledc_config` (lines 214-283): the timer registers afterwards and
the return value; `none` when a division by zero is executed.  The steps 2 to 5
of the function write registers of the channel, of the interrupts and of the
GPIO matrix only, which are not part of `ledc_dev`. -/
def ledc_config (K : ledc_hw) (LEDC : ledc_dev) (ledc_conf : ledc_config_t) :
    Option (ledc_dev × esp_err_t) :=
  if ledc_is_valid_channel K ledc_conf.channel = false then some (LEDC, .ESP_ERR_INVALID_ARG)
  else if ledc_is_valid_mode K ledc_conf.speed_mode = false then
    some (LEDC, .ESP_ERR_INVALID_ARG)
  else if K.is_valid_output_gpio ledc_conf.gpio_num = false then
    some (LEDC, .ESP_ERR_INVALID_ARG)
  else if ledc_conf.freq_hz = 0 ∨ ledc_conf.bit_num = 0 ∨
      ledc_conf.bit_num > K.LEDC_TIMER_15_BIT then
    some (LEDC, .ESP_ERR_INVALID_ARG)
  else if ledc_conf.timer_sel > K.LEDC_TIMER3 then some (LEDC, .ESP_ERR_INVALID_ARG)
  else
    match ledc_config_divider K ledc_conf.freq_hz ledc_conf.bit_num with
    | none => none
    | some (div_param, timer_clk_src, ret) =>
      let LEDC := (ledc_timer_config K LEDC ledc_conf.speed_mode ledc_conf.timer_sel div_param
        ledc_conf.bit_num timer_clk_src).1
      let LEDC := (ledc_timer_rst K LEDC ledc_conf.speed_mode ledc_conf.timer_sel).1
      some (LEDC, ret)

/-- Function `ledc_set_freq` (lines 381-404): the timer registers afterwards
and the return value; `none` when a division by zero is executed. -/
def ledc_set_freq (K : ledc_hw) (LEDC : ledc_dev) (speed_mode timer_num freq_hz : Nat) :
    Option (ledc_dev × esp_err_t) :=
  if ledc_is_valid_mode K speed_mode = false then some (LEDC, .ESP_ERR_INVALID_ARG)
  else
    let bit_num := (LEDC speed_mode timer_num).bit_num
    let timer_source_clk := (LEDC speed_mode timer_num).tick_sel
    let precision := ledc_precision bit_num
    match (if timer_source_clk = K.LEDC_APB_CLK then
        ledc_div K.LEDC_APB_CLK_HZ freq_hz precision
      else ledc_div K.LEDC_REF_CLK_HZ freq_hz precision) with
    | none => none
    | some div_num =>
      some (LEDC.set speed_mode timer_num { LEDC speed_mode timer_num with div_num := div_num },
        if div_num ≤ 256 ∨ div_num > K.LEDC_DIV_NUM_HSTIMER0 then .ESP_FAIL else .ESP_OK)

/-- Function `ledc_get_freq` (lines 406-424): the return value; `none` when a
division by zero is executed. -/
def ledc_get_freq (K : ledc_hw) (LEDC : ledc_dev) (speed_mode timer_num : Nat) : Option Nat :=
  if ledc_is_valid_mode K speed_mode = false then some 0
  else
    let timer_source_clk := (LEDC speed_mode timer_num).tick_sel
    let bit_num := (LEDC speed_mode timer_num).bit_num
    let div_num := (LEDC speed_mode timer_num).div_num
    let precision := ledc_precision bit_num
    if timer_source_clk = K.LEDC_APB_CLK then ledc_div K.LEDC_APB_CLK_HZ precision div_num
    else ledc_div K.LEDC_REF_CLK_HZ precision div_num

/-- The quantity `d(clk)` of the divider claim: `((clk · 2^8) / freq_hz) /
2^bit_num` in integer division, stored in 32 bits. -/
def ledc_divider_spec (clk freq_hz bit_num : Nat) : Nat :=
  ((clk * 2 ^ 8) / freq_hz / 2 ^ bit_num) % 2 ^ 32

/-! ## Example states -/

/-- A freed block that reads as zeroes. -/
def zeroed : esp_pthread_t :=
  { owner := 0, value := 0, join_task := 0, state := 0, detached := false }

/-- A freed block that the allocator has filled with the pattern `0xFE`, as a
heap that poisons freed memory does. -/
def poisoned : esp_pthread_t :=
  { owner := 0xFEFEFEFE, value := 0xFEFEFEFE, join_task := 0xFEFEFEFE, state := -16843010,
    detached := true }

/-- Thread A: object at address 200, native task 7, running, joinable. -/
def tcbA : esp_pthread_t :=
  { owner := 200, value := 7, join_task := 0, state := PTHREAD_TASK_STATE_RUN, detached := false }

/-- Thread B: object at address 300, native task 8, running, joinable. -/
def tcbB : esp_pthread_t :=
  { owner := 300, value := 8, join_task := 0, state := PTHREAD_TASK_STATE_RUN, detached := false }

/-- A memory holding the given registry, nothing notified, empty trace. -/
def memOf (l : List esp_pthread_t) : Mem :=
  { s_threads_list := l, notified := [], trace := [] }

/-- Thread A after its exit section has run without join-waiter. -/
def tcbA_exited : esp_pthread_t :=
  { tcbA with state := PTHREAD_TASK_STATE_EXIT }

/-- Task 9 creates A, B (300, task 8) and C (400, task 6) and detaches B; B and
A exit; task 9 joins A, then joins C, C exits and task 9 resumes. -/
def run_all : List Step :=
  [.create 9 false 100 200 pdPASS 7, .create 9 false 101 300 pdPASS 8,
   .create 9 false 102 400 pdPASS 6, .detach 9 300, .exit 8, .exit 7,
   .join 9 200 false zeroed, .join 9 400 true zeroed, .exit 6, .wake 9]

/-- The configuration at the end of `run_all`. -/
def cfg_all : Sys :=
  { mem :=
      { s_threads_list := []
        notified := []
        trace :=
          [.alloc 100, .alloc 200, .spawn 7, .take, .insert 200, .give, .notify 7,
           .set_thread 200, .ret 0,
           .alloc 101, .alloc 300, .spawn 8, .take, .insert 300, .give, .notify 8,
           .set_thread 300, .ret 0,
           .alloc 102, .alloc 400, .spawn 6, .take, .insert 400, .give, .notify 6,
           .set_thread 400, .ret 0,
           .take, .scan, .store 300 .detached true, .give, .ret 0,
           .take, .scan, .load 300 .detached true, .delete 300 true, .give, .task_delete,
           .take, .scan, .load 200 .detached true, .load 200 .join_task true,
           .store 200 .state true, .give, .task_delete,
           .take, .scan, .load 200 .join_task true, .scan, .load 200 .state true,
           .delete 200 true, .give, .load 200 .join_task false, .ret 0,
           .take, .scan, .load 400 .join_task true, .scan, .load 400 .state true,
           .store 400 .join_task true, .give, .load 400 .join_task true, .wait,
           .take, .scan, .load 400 .detached true, .load 400 .join_task true, .notify 9,
           .give, .task_delete,
           .take, .delete 400 true, .give, .set_retval, .ret 0] }
    blocked := []
    running := [] }

/-- Task 9 creates A and joins it; A exits and notifies task 9; task 5 detaches
A and creates B, and the task of B gets the handle 7 that the finished task of
A had; B exits; task 9 resumes. -/
def run_reuse : List Step :=
  [.create 9 false 100 200 pdPASS 7, .join 9 200 false zeroed, .exit 7, .detach 5 200,
   .create 5 false 101 300 pdPASS 7, .exit 7, .wake 9]

/-- Task 9 creates A, A exits, task 9 joins A; the freed block reads as `stale`. -/
def run_exit_then_join (stale : esp_pthread_t) : List Step :=
  [.create 9 false 100 200 pdPASS 7, .exit 7, .join 9 200 false stale]

/-- Task 9 creates A and joins it, A exits, task 9 resumes. -/
def run_join_then_exit (stale : esp_pthread_t) : List Step :=
  [.create 9 false 100 200 pdPASS 7, .join 9 200 false stale, .exit 7, .wake 9]

/-- One round of create, exit of the new thread, detach of its handle. -/
def detach_round (pthread : pthread_t) (xHandle : TaskHandle_t) : List Step :=
  [.create 9 false 100 pthread pdPASS xHandle, .exit xHandle, .detach 9 pthread]

/-- A recursive mutex object held by task `t` at depth `d`. -/
def recursive_held (t : TaskHandle_t) (d : Nat) : esp_pthread_mutex_t :=
  { sem := { holder := t, depth := d }, type := PTHREAD_MUTEX_RECURSIVE }

/-- A mutex object of the given type that is not held. -/
def mutex_unlocked (type : Int) : esp_pthread_mutex_t :=
  { sem := Semaphore.unlocked, type := type }

/-- An initialized attribute object of the given type. -/
def mutexattr (type : Int) : pthread_mutexattr_t :=
  { is_initialized := 1, type := type }

/-- The content of the headers for the ESP32: the APB clock of 80 MHz, the
reference tick of 1 MHz, dividers of 18 bits, timers 0 to 3, channels 0 to 7,
one speed mode, and the output-capable pads 0 to 33. -/
def esp32_hw : ledc_hw :=
  { LEDC_APB_CLK_HZ := 80000000
    LEDC_REF_CLK_HZ := 1000000
    LEDC_DIV_NUM_HSTIMER0_V := 0x3FFFF
    LEDC_DIV_NUM_HSTIMER0 := 0x3FFFF
    LEDC_TIMER_15_BIT := 15
    LEDC_TIMER3 := 3
    LEDC_CHANNEL_7 := 7
    LEDC_SPEED_MODE_MAX := 1
    LEDC_HIGH_SPEED_MODE := 0
    LEDC_APB_CLK := 1
    LEDC_REF_TICK := 0
    is_valid_output_gpio := fun n => decide (n < 34) }

/-- The timer registers after reset: all members zero. -/
def ledc_reset : ledc_dev :=
  fun _ _ => { div_num := 0, tick_sel := 0, bit_num := 0, low_speed_update := 0, rst := 0,
               pause := 0 }

/-- A configuration of channel 0 on pad 18 and timer 0: 5 kHz with 13 bits. -/
def ledc_conf_5k : ledc_config_t :=
  { gpio_num := 18, speed_mode := 0, channel := 0, intr_type := 0, timer_sel := 0,
    freq_hz := 5000, duty := 0, bit_num := 13 }

/-! ## Lookup lemmas -/

theorem lookup_eq_none_iff (l : List esp_pthread_t) (p : pthread_t) :
    lookup l p = none ↔ ∀ t ∈ l, t.owner ≠ p := by
  induction l with
  | nil => simp [lookup]
  | cons a l ih =>
    by_cases h : a.owner = p
    · simp [lookup, h]
    · simp [lookup, h, ih]

theorem lookup_some_mem {l : List esp_pthread_t} {p : pthread_t} {t : esp_pthread_t}
    (h : lookup l p = some t) : t ∈ l ∧ t.owner = p := by
  induction l with
  | nil => simp [lookup] at h
  | cons a l ih =>
    by_cases ha : a.owner = p
    · simp [lookup, ha] at h
      subst h
      simp [ha]
    · simp [lookup, ha] at h
      have := ih h
      simp [this]

theorem find_handle_of_lookup_some {l : List esp_pthread_t} {p : pthread_t} {t : esp_pthread_t}
    (h : lookup l p = some t) : pthread_find_handle l p = t.value := by
  induction l with
  | nil => simp [lookup] at h
  | cons a l ih =>
    by_cases ha : a.owner = p
    · simp [lookup, ha] at h
      subst h
      simp [pthread_find_handle, ha]
    · simp [lookup, ha] at h
      simp [pthread_find_handle, ha, ih h]

theorem find_handle_of_lookup_none {l : List esp_pthread_t} {p : pthread_t}
    (h : lookup l p = none) : pthread_find_handle l p = 0 := by
  induction l with
  | nil => rfl
  | cons a l ih =>
    by_cases ha : a.owner = p
    · simp [lookup, ha] at h
    · simp [lookup, ha] at h
      simp [pthread_find_handle, ha, ih h]

/-- The join epilogue only appends events. -/
theorem pthread_join_epilogue_eq (s : Mem) (retval : Bool) (ret : Int) :
    pthread_join_epilogue s retval ret =
      { s with trace := s.trace ++ ((if retval then [Event.set_retval] else []) ++ [.ret ret]) } := by
  cases retval <;> simp [pthread_join_epilogue, Mem.emit]

/-- Full description of `pthread_join` on a handle that is not registered. -/
theorem pthread_join_absent (s : Mem) (cur : TaskHandle_t) (thread : pthread_t)
    (retval : Bool) (stale : esp_pthread_t) (h : lookup s.s_threads_list thread = none) :
    pthread_join s cur thread retval stale =
      ({ s with trace := s.trace ++ ([.take, .scan, .give] ++
          ((if retval then [Event.set_retval] else []) ++ [.ret ESRCH])) }, .returned ESRCH) := by
  have hf := find_handle_of_lookup_none h
  simp [pthread_join, pthread_join_locked, pthread_join_epilogue_eq, Mem.emit, hf, ESRCH]

/-- Full description of `pthread_join` on a registered object that has a
join-waiter. -/
theorem pthread_join_already_joined (s : Mem) (cur : TaskHandle_t) (thread : pthread_t)
    (retval : Bool) (stale t : esp_pthread_t)
    (hreg : lookup s.s_threads_list thread = some t) (hv : t.value ≠ 0)
    (hW : t.join_task ≠ 0) :
    pthread_join s cur thread retval stale =
      ({ s with trace := s.trace ++ ([.take, .scan, .load thread .join_task true, .give] ++
          ((if retval then [Event.set_retval] else []) ++ [.ret EINVAL])) }, .returned EINVAL) := by
  have hf := find_handle_of_lookup_some hreg
  simp [pthread_join, pthread_join_locked, pthread_join_epilogue_eq, load_join_task, Mem.emit,
    hreg, hf, hv, hW, EINVAL]

/-- Full description of `pthread_join` by a task on its own object when that
object has no join-waiter. -/
theorem pthread_join_self_free (s : Mem) (cur : TaskHandle_t) (thread : pthread_t)
    (retval : Bool) (stale t : esp_pthread_t) (hcur : cur ≠ 0)
    (hreg : lookup s.s_threads_list thread = some t) (hself : t.value = cur)
    (hW : t.join_task = 0) :
    pthread_join s cur thread retval stale =
      ({ s with trace := s.trace ++ ([.take, .scan, .load thread .join_task true, .give] ++
          ((if retval then [Event.set_retval] else []) ++ [.ret EDEADLK])) }, .returned EDEADLK) := by
  have hf := find_handle_of_lookup_some hreg
  simp [pthread_join, pthread_join_locked, pthread_join_epilogue_eq, load_join_task, Mem.emit,
    hreg, hf, hcur, hW, hself, EDEADLK]

/-- Full description of `pthread_join` when the target is joining the caller. -/
theorem pthread_join_mutual (s : Mem) (cur : TaskHandle_t) (thread : pthread_t)
    (retval : Bool) (stale a b : esp_pthread_t)
    (hb : lookup s.s_threads_list thread = some b) (hbv : b.value ≠ 0) (hbj : b.join_task = 0)
    (hne : b.value ≠ cur)
    (ha : pthread_find s.s_threads_list cur = some a) (haj : a.join_task = b.value) :
    pthread_join s cur thread retval stale =
      ({ s with trace := s.trace ++ ([.take, .scan, .load thread .join_task true, .scan,
            .load a.owner .join_task true, .give] ++
          ((if retval then [Event.set_retval] else []) ++ [.ret EDEADLK])) }, .returned EDEADLK) := by
  have hf := find_handle_of_lookup_some hb
  simp [pthread_join, pthread_join_locked, pthread_join_epilogue_eq, load_join_task, Mem.emit,
    hb, hf, hbv, hbj, hne, ha, haj, EDEADLK]

theorem lookup_update_self {l : List esp_pthread_t} {p : pthread_t} {t : esp_pthread_t}
    (f : esp_pthread_t → esp_pthread_t) (hf : ∀ x, (f x).owner = x.owner)
    (h : lookup l p = some t) : lookup (update l p f) p = some (f t) := by
  induction l with
  | nil => simp [lookup] at h
  | cons a l ih =>
    by_cases ha : a.owner = p
    · simp [lookup, ha] at h
      subst h
      simp [update, lookup, ha, hf]
    · simp [lookup, ha] at h
      simp [update, lookup, ha, ih h]

theorem lookup_update_other {l : List esp_pthread_t} {p q : pthread_t}
    (f : esp_pthread_t → esp_pthread_t) (hf : ∀ x, (f x).owner = x.owner)
    (hpq : q ≠ p) : lookup (update l p f) q = lookup l q := by
  induction l with
  | nil => simp [update]
  | cons a l ih =>
    by_cases ha : a.owner = p
    · subst ha
      have : ¬ a.owner = q := fun h => hpq h.symm
      simp [update, lookup, hf, this]
    · by_cases hq : a.owner = q
      · subst hq
        simp [update, lookup, ha]
      · simp [update, lookup, ha, hq, ih]

theorem update_of_lookup_none {l : List esp_pthread_t} {p : pthread_t}
    (f : esp_pthread_t → esp_pthread_t) (h : lookup l p = none) : update l p f = l := by
  induction l with
  | nil => rfl
  | cons a l ih =>
    by_cases ha : a.owner = p
    · simp [lookup, ha] at h
    · simp [lookup, ha] at h
      simp [update, ha, ih h]

theorem owners_update (l : List esp_pthread_t) (p : pthread_t)
    (f : esp_pthread_t → esp_pthread_t) (hf : ∀ x, (f x).owner = x.owner) :
    owners (update l p f) = owners l := by
  induction l with
  | nil => rfl
  | cons a l ih =>
    by_cases ha : a.owner = p
    · simp [update, owners, ha, hf]
    · simp only [owners] at ih
      simp [update, owners, ha, ih]

theorem values_update (l : List esp_pthread_t) (p : pthread_t)
    (f : esp_pthread_t → esp_pthread_t) (hf : ∀ x, (f x).value = x.value) :
    values (update l p f) = values l := by
  induction l with
  | nil => rfl
  | cons a l ih =>
    by_cases ha : a.owner = p
    · simp [update, values, ha, hf]
    · simp only [values] at ih
      simp [update, values, ha, ih]

theorem uxListRemove_of_lookup_none {l : List esp_pthread_t} {p : pthread_t}
    (h : lookup l p = none) : uxListRemove l p = l := by
  induction l with
  | nil => rfl
  | cons a l ih =>
    by_cases ha : a.owner = p
    · simp [lookup, ha] at h
    · simp [lookup, ha] at h
      simp [uxListRemove, ha, ih h]

theorem mem_uxListRemove {l : List esp_pthread_t} {p : pthread_t} {x : esp_pthread_t}
    (h : x ∈ uxListRemove l p) : x ∈ l := by
  induction l with
  | nil => simp [uxListRemove] at h
  | cons a l ih =>
    by_cases ha : a.owner = p
    · simp [uxListRemove, ha] at h
      simp [h]
    · simp [uxListRemove, ha] at h
      rcases h with h | h
      · simp [h]
      · simp [ih h]

theorem mem_uxListRemove_of_ne {l : List esp_pthread_t} {p : pthread_t} {x : esp_pthread_t}
    (h : x ∈ l) (hx : x.owner ≠ p) : x ∈ uxListRemove l p := by
  induction l with
  | nil => simp at h
  | cons a l ih =>
    by_cases ha : a.owner = p
    · simp [uxListRemove, ha]
      rcases List.mem_cons.1 h with h | h
      · subst h; exact absurd ha hx
      · exact h
    · simp [uxListRemove, ha]
      rcases List.mem_cons.1 h with h | h
      · simp [h]
      · simp [ih h]

theorem lookup_uxListRemove_self {l : List esp_pthread_t} {p : pthread_t}
    (hnd : (owners l).Nodup) : lookup (uxListRemove l p) p = none := by
  induction l with
  | nil => rfl
  | cons a l ih =>
    simp only [owners, List.map_cons, List.nodup_cons] at hnd
    by_cases ha : a.owner = p
    · simp only [uxListRemove, ha, if_true]
      rw [lookup_eq_none_iff]
      intro t ht hto
      apply hnd.1
      rw [ha, ← hto]
      exact List.mem_map_of_mem _ ht
    · simp [uxListRemove, lookup, ha]
      exact ih hnd.2

theorem lookup_uxListRemove_other {l : List esp_pthread_t} {p q : pthread_t}
    (hpq : q ≠ p) : lookup (uxListRemove l p) q = lookup l q := by
  induction l with
  | nil => rfl
  | cons a l ih =>
    by_cases ha : a.owner = p
    · subst ha
      have : ¬ a.owner = q := fun h => hpq h.symm
      simp [uxListRemove, lookup, this]
    · by_cases hq : a.owner = q
      · subst hq
        simp [uxListRemove, lookup, ha]
      · simp [uxListRemove, lookup, ha, hq, ih]

theorem pthread_find_some_mem {l : List esp_pthread_t} {h : TaskHandle_t} {t : esp_pthread_t}
    (hf : pthread_find l h = some t) : t ∈ l ∧ t.value = h := by
  induction l with
  | nil => simp [pthread_find] at hf
  | cons a l ih =>
    by_cases ha : h = a.value
    · simp [pthread_find, ha] at hf
      subst hf
      simp [ha]
    · simp [pthread_find, ha] at hf
      have := ih hf
      simp [this]

theorem pthread_find_eq_none_iff (l : List esp_pthread_t) (h : TaskHandle_t) :
    pthread_find l h = none ↔ ∀ t ∈ l, t.value ≠ h := by
  induction l with
  | nil => simp [pthread_find]
  | cons a l ih =>
    by_cases ha : h = a.value
    · simp [pthread_find, ha]
    · have : ¬ a.value = h := fun e => ha e.symm
      simp [pthread_find, ha, ih, this]

theorem lookup_of_mem_nodup {l : List esp_pthread_t} {t : esp_pthread_t}
    (hnd : (owners l).Nodup) (ht : t ∈ l) : lookup l t.owner = some t := by
  induction l with
  | nil => simp at ht
  | cons a l ih =>
    simp only [owners, List.map_cons, List.nodup_cons] at hnd
    rcases List.mem_cons.1 ht with h | h
    · subst h; simp [lookup]
    · have : ¬ a.owner = t.owner := by
        intro e
        apply hnd.1
        rw [e]
        exact List.mem_map_of_mem _ h
      simp [lookup, this]
      exact ih hnd.2 h

theorem pthread_find_of_mem_nodup {l : List esp_pthread_t} {t : esp_pthread_t}
    (hnd : (values l).Nodup) (ht : t ∈ l) : pthread_find l t.value = some t := by
  induction l with
  | nil => simp at ht
  | cons a l ih =>
    simp only [values, List.map_cons, List.nodup_cons] at hnd
    rcases List.mem_cons.1 ht with h | h
    · subst h; simp [pthread_find]
    · have : ¬ t.value = a.value := by
        intro e
        apply hnd.1
        rw [← e]
        exact List.mem_map_of_mem _ h
      simp [pthread_find, this]
      exact ih hnd.2 h

/-! ## The branches of `pthread_join`, `pthread_detach`, `pthread_create` and of the exit section -/

/-- Full description of `pthread_join` on a running object without join-waiter:
the caller is registered and suspends. -/
theorem pthread_join_register (s : Mem) (cur : TaskHandle_t) (thread : pthread_t)
    (retval : Bool) (stale t : esp_pthread_t) (hcur : cur ≠ 0)
    (hreg : lookup s.s_threads_list thread = some t) (hv : t.value ≠ 0)
    (hj : t.join_task = 0) (hne : t.value ≠ cur)
    (hm : ∀ a, pthread_find s.s_threads_list cur = some a → a.join_task ≠ t.value)
    (hst : t.state = PTHREAD_TASK_STATE_RUN) :
    pthread_join s cur thread retval stale =
      ({ s with
          s_threads_list := update s.s_threads_list thread (fun x => { x with join_task := cur })
          trace := s.trace ++ ([.take, .scan, .load thread .join_task true] ++
            (mutual_check_events s.s_threads_list cur ++
            [.load thread .state true, .store thread .join_task true, .give,
             .load thread .join_task true, .wait])) }, .waiting) := by
  have hf := find_handle_of_lookup_some hreg
  have hu := lookup_update_self (fun x => { x with join_task := cur }) (fun _ => rfl) hreg
  cases hc : pthread_find s.s_threads_list cur with
  | none =>
    simp [pthread_join, pthread_join_locked, load_join_task, load_state, store_join_task,
      mutual_check_events, registered, Mem.emit, hreg, hf, hv, hj, hne, hc, hst, hu, hcur]
  | some a =>
    have := hm a hc
    simp [pthread_join, pthread_join_locked, load_join_task, load_state, store_join_task,
      mutual_check_events, registered, Mem.emit, hreg, hf, hv, hj, hne, hc, hst, hu, hcur, this]

/-- Full description of `pthread_join` on an object without join-waiter whose
state is not `PTHREAD_TASK_STATE_RUN`: the object is deleted, and the test of
line 236 then loads `join_task` from the freed block. -/
theorem pthread_join_reclaim (s : Mem) (cur : TaskHandle_t) (thread : pthread_t)
    (retval : Bool) (stale t : esp_pthread_t)
    (hnd : (owners s.s_threads_list).Nodup)
    (hreg : lookup s.s_threads_list thread = some t) (hv : t.value ≠ 0)
    (hj : t.join_task = 0) (hne : t.value ≠ cur)
    (hm : ∀ a, pthread_find s.s_threads_list cur = some a → a.join_task ≠ t.value)
    (hst : t.state ≠ PTHREAD_TASK_STATE_RUN) :
    pthread_join s cur thread retval stale =
      if stale.join_task ≠ 0 then
        ({ s with
            s_threads_list := uxListRemove s.s_threads_list thread
            trace := s.trace ++ ([.take, .scan, .load thread .join_task true] ++
              (mutual_check_events s.s_threads_list cur ++
              [.load thread .state true, .delete thread true, .give,
               .load thread .join_task false, .wait])) }, .waiting)
      else
        ({ s with
            s_threads_list := uxListRemove s.s_threads_list thread
            trace := s.trace ++ ([.take, .scan, .load thread .join_task true] ++
              (mutual_check_events s.s_threads_list cur ++
              ([.load thread .state true, .delete thread true, .give,
               .load thread .join_task false] ++
              ((if retval then [Event.set_retval] else []) ++ [.ret 0])))) }, .returned 0) := by
  have hf := find_handle_of_lookup_some hreg
  have hu : lookup (uxListRemove s.s_threads_list thread) thread = none :=
    lookup_uxListRemove_self hnd
  by_cases hs : stale.join_task = 0
  · cases hc : pthread_find s.s_threads_list cur with
    | none =>
      simp [pthread_join, pthread_join_locked, pthread_join_epilogue_eq, pthread_delete,
        load_join_task, load_state, mutual_check_events, registered, Mem.emit, hreg, hf, hv, hj,
        hne, hc, hst, hu, hs]
    | some a =>
      have := hm a hc
      simp [pthread_join, pthread_join_locked, pthread_join_epilogue_eq, pthread_delete,
        load_join_task, load_state, mutual_check_events, registered, Mem.emit, hreg, hf, hv, hj,
        hne, hc, hst, hu, hs, this]
  · cases hc : pthread_find s.s_threads_list cur with
    | none =>
      simp [pthread_join, pthread_join_locked, pthread_join_epilogue_eq, pthread_delete,
        load_join_task, load_state, mutual_check_events, registered, Mem.emit, hreg, hf, hv, hj,
        hne, hc, hst, hu, hs]
    | some a =>
      have := hm a hc
      simp [pthread_join, pthread_join_locked, pthread_join_epilogue_eq, pthread_delete,
        load_join_task, load_state, mutual_check_events, registered, Mem.emit, hreg, hf, hv, hj,
        hne, hc, hst, hu, hs, this]

/-- Full description of `pthread_join_wake`. -/
theorem pthread_join_wake_eq (s : Mem) (thread : pthread_t) (retval : Bool) :
    pthread_join_wake s thread retval =
      ({ s with
          s_threads_list := uxListRemove s.s_threads_list thread
          trace := s.trace ++ ([.take, .delete thread (registered s.s_threads_list thread),
            .give] ++ ((if retval then [Event.set_retval] else []) ++ [.ret 0])) }, 0) := by
  simp [pthread_join_wake, pthread_join_epilogue_eq, pthread_delete, Mem.emit]

/-- Full description of `pthread_detach` on a handle that is not registered. -/
theorem pthread_detach_absent (s : Mem) (thread : pthread_t)
    (h : lookup s.s_threads_list thread = none) :
    pthread_detach s thread =
      ({ s with trace := s.trace ++ [.take, .scan, .give, .ret ESRCH] }, ESRCH) := by
  have hf := find_handle_of_lookup_none h
  simp [pthread_detach, Mem.emit, hf]

/-- Full description of `pthread_detach` on a registered object. -/
theorem pthread_detach_present (s : Mem) (thread : pthread_t) (t : esp_pthread_t)
    (hreg : lookup s.s_threads_list thread = some t) (hv : t.value ≠ 0) :
    pthread_detach s thread =
      ({ s with
          s_threads_list := update s.s_threads_list thread (fun x => { x with detached := true })
          trace := s.trace ++ [.take, .scan, .store thread .detached true, .give, .ret 0] },
        0) := by
  have hf := find_handle_of_lookup_some hreg
  simp [pthread_detach, store_detached, registered, Mem.emit, hf, hv, hreg]

/-- Full description of a successful `pthread_create`. -/
theorem pthread_create_ok (s : Mem) (task_arg : Nat) (pthread : pthread_t)
    (xHandle : TaskHandle_t) (ha : task_arg ≠ 0) (hp : pthread ≠ 0) :
    pthread_create s false task_arg pthread pdPASS xHandle =
      ({ s_threads_list := s.s_threads_list ++ [new_pthread pthread xHandle]
         notified := if xHandle ∈ s.notified then s.notified else s.notified ++ [xHandle]
         trace := s.trace ++ [.alloc task_arg, .alloc pthread, .spawn xHandle, .take,
            .insert pthread, .give, .notify xHandle, .set_thread pthread, .ret 0] },
        ⟨0, some pthread⟩) := by
  simp [pthread_create, xTaskNotify, Mem.emit, ha, hp]

/-- The exit section when the current task has no object: the assertion fails. -/
theorem pthread_task_func_exit_absent (s : Mem) (cur : TaskHandle_t)
    (h : pthread_find s.s_threads_list cur = none) :
    pthread_task_func_exit s cur = { s with trace := s.trace ++ [.take, .scan, .abort] } := by
  simp [pthread_task_func_exit, Mem.emit, h]

/-- The exit section of a detached thread: the object is deleted. -/
theorem pthread_task_func_exit_detached (s : Mem) (cur : TaskHandle_t) (t : esp_pthread_t)
    (h : pthread_find s.s_threads_list cur = some t) (hd : t.detached = true) :
    pthread_task_func_exit s cur =
      { s with
        s_threads_list := uxListRemove s.s_threads_list t.owner
        trace := s.trace ++ [.take, .scan, .load t.owner .detached true,
          .delete t.owner (registered s.s_threads_list t.owner), .give, .task_delete] } := by
  simp [pthread_task_func_exit, pthread_delete, Mem.emit, h, hd]

/-- The exit section of a joinable thread that has a join-waiter: the waiter
is notified. -/
theorem pthread_task_func_exit_notify (s : Mem) (cur : TaskHandle_t) (t : esp_pthread_t)
    (h : pthread_find s.s_threads_list cur = some t) (hd : t.detached = false)
    (hj : t.join_task ≠ 0) :
    pthread_task_func_exit s cur =
      { s with
        notified := if t.join_task ∈ s.notified then s.notified else s.notified ++ [t.join_task]
        trace := s.trace ++ [.take, .scan, .load t.owner .detached true,
          .load t.owner .join_task true, .notify t.join_task, .give, .task_delete] } := by
  simp [pthread_task_func_exit, xTaskNotify, Mem.emit, h, hd, hj]

/-- The exit section of a joinable thread without join-waiter: the state
becomes `PTHREAD_TASK_STATE_EXIT`. -/
theorem pthread_task_func_exit_mark (s : Mem) (cur : TaskHandle_t) (t : esp_pthread_t)
    (h : pthread_find s.s_threads_list cur = some t) (hd : t.detached = false)
    (hj : t.join_task = 0) :
    pthread_task_func_exit s cur =
      { s with
        s_threads_list := update s.s_threads_list t.owner
          (fun x => { x with state := PTHREAD_TASK_STATE_EXIT })
        trace := s.trace ++ [.take, .scan, .load t.owner .detached true,
          .load t.owner .join_task true,
          .store t.owner .state (registered s.s_threads_list t.owner), .give, .task_delete] } := by
  simp [pthread_task_func_exit, store_state, Mem.emit, h, hd, hj]

/-! ## Single calls -/

theorem lookup_split {l : List esp_pthread_t} {p : pthread_t} {t : esp_pthread_t}
    (h : lookup l p = some t) :
    ∃ pre post, l = pre ++ t :: post ∧ (∀ x ∈ pre, x.owner ≠ p) ∧
      ∀ f, update l p f = pre ++ f t :: post := by
  induction l with
  | nil => simp [lookup] at h
  | cons a l ih =>
    by_cases ha : a.owner = p
    · simp [lookup, ha] at h
      subst h
      exact ⟨[], l, by simp, by simp, by intro f; simp [update, ha]⟩
    · simp [lookup, ha] at h
      obtain ⟨pre, post, h1, h2, h3⟩ := ih h
      refine ⟨a :: pre, post, by simp [h1], ?_, ?_⟩
      · intro x hx
        rcases List.mem_cons.1 hx with e | e
        · subst e; exact ha
        · exact h2 x e
      · intro f
        simp [update, ha, h3]

theorem lookup_append_fresh {l : List esp_pthread_t} {t : esp_pthread_t}
    (h : t.owner ∉ owners l) : lookup (l ++ [t]) t.owner = some t := by
  induction l with
  | nil => simp [lookup]
  | cons a l ih =>
    simp only [owners, List.map_cons, List.mem_cons, not_or] at h
    have : ¬ a.owner = t.owner := fun e => h.1 e.symm
    simp [lookup, this]
    exact ih h.2

theorem pthread_find_append_fresh {l : List esp_pthread_t} {t : esp_pthread_t}
    (h : t.value ∉ values l) : pthread_find (l ++ [t]) t.value = some t := by
  induction l with
  | nil => simp [pthread_find]
  | cons a l ih =>
    simp only [values, List.map_cons, List.mem_cons, not_or] at h
    simp [pthread_find, h.1]
    exact ih h.2

theorem pthread_find_append_of_some {l : List esp_pthread_t} {h : TaskHandle_t}
    {t : esp_pthread_t} (l2 : List esp_pthread_t) (hf : pthread_find l h = some t) :
    pthread_find (l ++ l2) h = some t := by
  induction l with
  | nil => simp [pthread_find] at hf
  | cons a l ih =>
    by_cases ha : h = a.value
    · simp only [pthread_find, ha, if_true, List.cons_append] at hf ⊢
      exact hf
    · simp only [pthread_find, ha, if_false, List.cons_append] at hf ⊢
      exact ih hf

theorem lookup_none_iff_not_mem_owners (l : List esp_pthread_t) (p : pthread_t) :
    lookup l p = none ↔ p ∉ owners l := by
  rw [lookup_eq_none_iff]
  simp only [owners, List.mem_map, not_exists, not_and]

/-- When the handle is registered with a non-null native handle, `pthread_join`
does not answer `ESRCH`. -/
theorem pthread_join_present_ne_esrch (s : Mem) (cur : TaskHandle_t) (thread : pthread_t)
    (retval : Bool) (stale t : esp_pthread_t)
    (hreg : lookup s.s_threads_list thread = some t) (hv : t.value ≠ 0) :
    (pthread_join s cur thread retval stale).2 ≠ .returned ESRCH := by
  have hf := find_handle_of_lookup_some hreg
  unfold pthread_join pthread_join_locked
  simp only [Mem.emit, hf, hv, if_false]
  split_ifs <;> simp_all [ESRCH, EINVAL, EDEADLK]

/-- C2 (as amended): when the calling task has its own object registered and
joins its own handle, `pthread_join` returns `EDEADLK` if the object has no
join-waiter and `EINVAL` if it has one; in both cases the wait of line 237 is
not reached and the registry and the notification flags are unchanged. -/
theorem pthread_join_self (s : Mem) (cur : TaskHandle_t) (thread : pthread_t)
    (retval : Bool) (stale t : esp_pthread_t) (hcur : cur ≠ 0)
    (hreg : lookup s.s_threads_list thread = some t) (hself : t.value = cur) :
    (pthread_join s cur thread retval stale).2 =
        .returned (if t.join_task = 0 then EDEADLK else EINVAL) ∧
      Event.wait ∉ (pthread_join s cur thread retval stale).1.since s ∧
      (pthread_join s cur thread retval stale).1.s_threads_list = s.s_threads_list ∧
      (pthread_join s cur thread retval stale).1.notified = s.notified := by
  by_cases hj : t.join_task = 0
  · rw [pthread_join_self_free s cur thread retval stale t hcur hreg hself hj]
    cases retval <;> simp [hj, Mem.since]
  · have hv : t.value ≠ 0 := by rw [hself]; exact hcur
    rw [pthread_join_already_joined s cur thread retval stale t hreg hv hj]
    cases retval <;> simp [hj, Mem.since]

/-- Witness for `pthread_join_self`: thread A joins itself. -/
theorem pthread_join_self_witness :
    (7 : TaskHandle_t) ≠ 0 ∧ lookup (memOf [tcbA]).s_threads_list 200 = some tcbA ∧
      tcbA.value = 7 ∧
      ((pthread_join (memOf [tcbA]) 7 200 false zeroed).2 = .returned EDEADLK ∧
        Event.wait ∉ (pthread_join (memOf [tcbA]) 7 200 false zeroed).1.since (memOf [tcbA]) ∧
        (pthread_join (memOf [tcbA]) 7 200 false zeroed).1.s_threads_list = [tcbA] ∧
        (pthread_join (memOf [tcbA]) 7 200 false zeroed).1.notified = []) :=
  ⟨by decide, rfl, rfl,
    pthread_join_self (memOf [tcbA]) 7 200 false zeroed tcbA (by decide) rfl rfl⟩

/-- C2 (counterexample): after task 9 has registered as join-waiter of thread A
(a reachable configuration), A joining its own handle gets `EINVAL`, not
`EDEADLK`. -/
theorem pthread_join_self_not_always_edeadlk :
    (Sys.init.execFresh [.create 9 false 100 200 pdPASS 7, .join 9 200 false zeroed]).map
        (fun c => c.mem.s_threads_list) = some [{ tcbA with join_task := 9 }] ∧
      lookup [{ tcbA with join_task := 9 }] 200 = some { tcbA with join_task := 9 } ∧
      ({ tcbA with join_task := 9 } : esp_pthread_t).value = 7 ∧
      (pthread_join (memOf [{ tcbA with join_task := 9 }]) 7 200 false zeroed).2 =
        .returned EINVAL ∧
      EINVAL ≠ EDEADLK := by
  decide

/-- C3: thread A (the caller, native handle `cur`) and thread B (the target)
are registered, B is registered as the join-waiter of A and B has no
join-waiter: `pthread_join` on B called by A returns `EDEADLK`, does not reach
the wait of line 237 and leaves the registry unchanged, so A is not recorded as
join-waiter of B. -/
theorem pthread_join_mutual_deadlock (s : Mem) (cur : TaskHandle_t) (thread : pthread_t)
    (retval : Bool) (stale a b : esp_pthread_t)
    (hb : lookup s.s_threads_list thread = some b) (hbv : b.value ≠ 0)
    (hbj : b.join_task = 0) (hne : b.value ≠ cur)
    (ha : pthread_find s.s_threads_list cur = some a) (haj : a.join_task = b.value) :
    (pthread_join s cur thread retval stale).2 = .returned EDEADLK ∧
      Event.wait ∉ (pthread_join s cur thread retval stale).1.since s ∧
      (pthread_join s cur thread retval stale).1.s_threads_list = s.s_threads_list ∧
      (lookup (pthread_join s cur thread retval stale).1.s_threads_list thread).map
        esp_pthread_t.join_task = some 0 := by
  rw [pthread_join_mutual s cur thread retval stale a b hb hbv hbj hne ha haj]
  cases retval <;> simp [Mem.since, hb, hbj]

/-- Witness for `pthread_join_mutual_deadlock`: B (task 8) is joining A (task 7)
and A joins B. -/
theorem pthread_join_mutual_deadlock_witness :
    lookup (memOf [{ tcbA with join_task := 8 }, tcbB]).s_threads_list 300 = some tcbB ∧
      tcbB.value ≠ 0 ∧ tcbB.join_task = 0 ∧ tcbB.value ≠ 7 ∧
      pthread_find (memOf [{ tcbA with join_task := 8 }, tcbB]).s_threads_list 7 =
        some { tcbA with join_task := 8 } ∧
      ({ tcbA with join_task := 8 } : esp_pthread_t).join_task = tcbB.value ∧
      ((pthread_join (memOf [{ tcbA with join_task := 8 }, tcbB]) 7 300 false zeroed).2 =
          .returned EDEADLK ∧
        Event.wait ∉ (pthread_join (memOf [{ tcbA with join_task := 8 }, tcbB]) 7 300 false
          zeroed).1.since (memOf [{ tcbA with join_task := 8 }, tcbB]) ∧
        (pthread_join (memOf [{ tcbA with join_task := 8 }, tcbB]) 7 300 false
          zeroed).1.s_threads_list = [{ tcbA with join_task := 8 }, tcbB] ∧
        (lookup (pthread_join (memOf [{ tcbA with join_task := 8 }, tcbB]) 7 300 false
          zeroed).1.s_threads_list 300).map esp_pthread_t.join_task = some 0) :=
  ⟨rfl, by decide, rfl, by decide, rfl, rfl,
    pthread_join_mutual_deadlock (memOf [{ tcbA with join_task := 8 }, tcbB]) 7 300 false zeroed
      { tcbA with join_task := 8 } tcbB rfl (by decide) rfl (by decide) rfl rfl⟩

/-- C7: when the target is registered (with its non-null native handle) and
already has a join-waiter `W`, `pthread_join` by any caller returns `EINVAL`,
does not reach the wait of line 237, and leaves the registry unchanged; the
join-waiter of the target is still `W`. -/
theorem pthread_join_no_two_joiners (s : Mem) (cur : TaskHandle_t) (thread : pthread_t)
    (retval : Bool) (stale t : esp_pthread_t) (W : TaskHandle_t)
    (hreg : lookup s.s_threads_list thread = some t) (hv : t.value ≠ 0)
    (hW : t.join_task = W) (hW0 : W ≠ 0) :
    (pthread_join s cur thread retval stale).2 = .returned EINVAL ∧
      Event.wait ∉ (pthread_join s cur thread retval stale).1.since s ∧
      (pthread_join s cur thread retval stale).1.s_threads_list = s.s_threads_list ∧
      (lookup (pthread_join s cur thread retval stale).1.s_threads_list thread).map
        esp_pthread_t.join_task = some W := by
  have hj : t.join_task ≠ 0 := by rw [hW]; exact hW0
  rw [pthread_join_already_joined s cur thread retval stale t hreg hv hj]
  cases retval <;> simp [Mem.since, hreg, hW]

/-- Witness for `pthread_join_no_two_joiners`: task 9 is joining A, task 5 tries too. -/
theorem pthread_join_no_two_joiners_witness :
    lookup (memOf [{ tcbA with join_task := 9 }]).s_threads_list 200 =
        some { tcbA with join_task := 9 } ∧
      ({ tcbA with join_task := 9 } : esp_pthread_t).value ≠ 0 ∧
      ({ tcbA with join_task := 9 } : esp_pthread_t).join_task = 9 ∧ (9 : TaskHandle_t) ≠ 0 ∧
      ((pthread_join (memOf [{ tcbA with join_task := 9 }]) 5 200 true zeroed).2 =
          .returned EINVAL ∧
        Event.wait ∉ (pthread_join (memOf [{ tcbA with join_task := 9 }]) 5 200 true
          zeroed).1.since (memOf [{ tcbA with join_task := 9 }]) ∧
        (pthread_join (memOf [{ tcbA with join_task := 9 }]) 5 200 true
          zeroed).1.s_threads_list = [{ tcbA with join_task := 9 }] ∧
        (lookup (pthread_join (memOf [{ tcbA with join_task := 9 }]) 5 200 true
          zeroed).1.s_threads_list 200).map esp_pthread_t.join_task = some 9) :=
  ⟨rfl, by decide, rfl, by decide,
    pthread_join_no_two_joiners (memOf [{ tcbA with join_task := 9 }]) 5 200 true zeroed
      { tcbA with join_task := 9 } 9 rfl (by decide) rfl (by decide)⟩

/-- C8: in a registry whose native handles are non-null, `pthread_join` returns
`ESRCH` exactly when no registered object has the given handle as its address;
in that case it performs only the lock, the scan of `pthread_find_handle`, the
unlock and the return (no wait, no load or store through the handle), and the
registry and the notification flags are unchanged. -/
theorem pthread_join_esrch_iff (s : Mem) (cur : TaskHandle_t) (thread : pthread_t)
    (retval : Bool) (stale : esp_pthread_t)
    (hnn : ∀ t ∈ s.s_threads_list, t.value ≠ 0) :
    ((pthread_join s cur thread retval stale).2 = .returned ESRCH ↔
        thread ∉ owners s.s_threads_list) ∧
      (thread ∉ owners s.s_threads_list →
        (pthread_join s cur thread retval stale).1.since s =
            [.take, .scan, .give] ++ ((if retval then [Event.set_retval] else []) ++
              [.ret ESRCH]) ∧
          Event.wait ∉ (pthread_join s cur thread retval stale).1.since s ∧
          (∀ p f b, Event.load p f b ∉ (pthread_join s cur thread retval stale).1.since s ∧
            Event.store p f b ∉ (pthread_join s cur thread retval stale).1.since s) ∧
          (pthread_join s cur thread retval stale).1.s_threads_list = s.s_threads_list ∧
          (pthread_join s cur thread retval stale).1.notified = s.notified) := by
  constructor
  · constructor
    · intro h
      rw [← lookup_none_iff_not_mem_owners]
      cases hl : lookup s.s_threads_list thread with
      | none => rfl
      | some t =>
        exact absurd h (pthread_join_present_ne_esrch s cur thread retval stale t hl
          (hnn t (lookup_some_mem hl).1))
    · intro h
      rw [pthread_join_absent s cur thread retval stale
        ((lookup_none_iff_not_mem_owners _ _).2 h)]
  · intro h
    rw [pthread_join_absent s cur thread retval stale ((lookup_none_iff_not_mem_owners _ _).2 h)]
    cases retval <;> simp [Mem.since]

/-- Witness for `pthread_join_esrch_iff`: the registry holds thread A only. -/
theorem pthread_join_esrch_iff_witness :
    (∀ t ∈ (memOf [tcbA]).s_threads_list, t.value ≠ 0) ∧
      ((pthread_join (memOf [tcbA]) 9 300 false zeroed).2 = .returned ESRCH ↔
        300 ∉ owners (memOf [tcbA]).s_threads_list) ∧
      ((pthread_join (memOf [tcbA]) 9 200 false zeroed).2 = .returned ESRCH ↔
        200 ∉ owners (memOf [tcbA]).s_threads_list) :=
  ⟨by decide,
    (pthread_join_esrch_iff (memOf [tcbA]) 9 300 false zeroed (by decide)).1,
    (pthread_join_esrch_iff (memOf [tcbA]) 9 200 false zeroed (by decide)).1⟩

/-- C9: `pthread_detach` on a handle that is not registered returns `ESRCH` and
changes neither the registry nor the notification flags.  On the handle of a
registered running object `t` (with its non-null native handle) it returns `0`
and the registry afterwards is the registry before with `t` replaced, at its
place, by `t` with `detached = true`: native handle, join-waiter and state of
`t`, every other object, and membership and order are unchanged. -/
theorem pthread_detach_spec (s : Mem) (thread : pthread_t) :
    (thread ∉ owners s.s_threads_list →
        (pthread_detach s thread).2 = ESRCH ∧
          (pthread_detach s thread).1.s_threads_list = s.s_threads_list ∧
          (pthread_detach s thread).1.notified = s.notified) ∧
      (∀ t, lookup s.s_threads_list thread = some t → t.value ≠ 0 →
        t.state = PTHREAD_TASK_STATE_RUN →
        (pthread_detach s thread).2 = 0 ∧
          (pthread_detach s thread).1.notified = s.notified ∧
          ∃ pre post, s.s_threads_list = pre ++ t :: post ∧
            (∀ x ∈ pre, x.owner ≠ thread) ∧
            (pthread_detach s thread).1.s_threads_list =
              pre ++ { t with detached := true } :: post) := by
  constructor
  · intro h
    rw [pthread_detach_absent s thread ((lookup_none_iff_not_mem_owners _ _).2 h)]
    simp
  · intro t ht hv _
    rw [pthread_detach_present s thread t ht hv]
    obtain ⟨pre, post, h1, h2, h3⟩ := lookup_split ht
    exact ⟨rfl, rfl, pre, post, h1, h2, h3 _⟩

/-- Witness for `pthread_detach_spec`: detaching the running thread B behind A. -/
theorem pthread_detach_spec_witness :
    lookup (memOf [tcbA, tcbB]).s_threads_list 300 = some tcbB ∧ tcbB.value ≠ 0 ∧
      tcbB.state = PTHREAD_TASK_STATE_RUN ∧
      ((pthread_detach (memOf [tcbA, tcbB]) 300).2 = 0 ∧
        (pthread_detach (memOf [tcbA, tcbB]) 300).1.notified = [] ∧
        ∃ pre post, [tcbA, tcbB] = pre ++ tcbB :: post ∧
          (∀ x ∈ pre, x.owner ≠ 300) ∧
          (pthread_detach (memOf [tcbA, tcbB]) 300).1.s_threads_list =
            pre ++ { tcbB with detached := true } :: post) :=
  ⟨rfl, by decide, rfl,
    (pthread_detach_spec (memOf [tcbA, tcbB]) 300).2 tcbB rfl (by decide) rfl⟩

/-- C10 (as amended): a call of `pthread_create` without attributes in which
both allocations and the task spawn succeed (the allocator returns a block that
is not live) returns `0` and stores the address of the new object through
`thread`; the registry afterwards is the registry before followed by the new
object, which is running, not detached and has no join-waiter;
`pthread_find_handle` maps the stored handle to the native handle of the
spawned task.  `pthread_find` maps that native handle back to the new object
provided no object registered before carries it as item value; otherwise it
yields the first registered object that does. -/
theorem pthread_create_spec (s : Mem) (task_arg : Nat) (pthread : pthread_t)
    (xHandle : TaskHandle_t) (ha : task_arg ≠ 0) (hp : pthread ≠ 0)
    (hfresh : pthread ∉ owners s.s_threads_list) :
    (pthread_create s false task_arg pthread pdPASS xHandle).2.ret = 0 ∧
      (pthread_create s false task_arg pthread pdPASS xHandle).2.thread = some pthread ∧
      (pthread_create s false task_arg pthread pdPASS xHandle).1.s_threads_list =
        s.s_threads_list ++ [new_pthread pthread xHandle] ∧
      (new_pthread pthread xHandle).state = PTHREAD_TASK_STATE_RUN ∧
      (new_pthread pthread xHandle).detached = false ∧
      (new_pthread pthread xHandle).join_task = 0 ∧
      pthread_find_handle
        (pthread_create s false task_arg pthread pdPASS xHandle).1.s_threads_list pthread =
          xHandle ∧
      (xHandle ∉ values s.s_threads_list →
        pthread_find
          (pthread_create s false task_arg pthread pdPASS xHandle).1.s_threads_list xHandle =
            some (new_pthread pthread xHandle)) ∧
      (∀ t, pthread_find s.s_threads_list xHandle = some t →
        pthread_find
          (pthread_create s false task_arg pthread pdPASS xHandle).1.s_threads_list xHandle =
            some t) := by
  rw [pthread_create_ok s task_arg pthread xHandle ha hp]
  refine ⟨rfl, rfl, rfl, rfl, rfl, rfl, ?_, ?_, ?_⟩
  · exact find_handle_of_lookup_some
      (lookup_append_fresh (t := new_pthread pthread xHandle) hfresh)
  · intro hh
    exact pthread_find_append_fresh (t := new_pthread pthread xHandle) hh
  · intro t ht
    exact pthread_find_append_of_some _ ht

/-- Witness for `pthread_create_spec`: thread B is created while A is registered. -/
theorem pthread_create_spec_witness :
    (100 : Nat) ≠ 0 ∧ (300 : pthread_t) ≠ 0 ∧ 300 ∉ owners (memOf [tcbA]).s_threads_list ∧
      ((pthread_create (memOf [tcbA]) false 100 300 pdPASS 8).2.ret = 0 ∧
        (pthread_create (memOf [tcbA]) false 100 300 pdPASS 8).2.thread = some 300 ∧
        (pthread_create (memOf [tcbA]) false 100 300 pdPASS 8).1.s_threads_list =
          [tcbA] ++ [tcbB] ∧
        tcbB.state = PTHREAD_TASK_STATE_RUN ∧ tcbB.detached = false ∧ tcbB.join_task = 0 ∧
        pthread_find_handle
          (pthread_create (memOf [tcbA]) false 100 300 pdPASS 8).1.s_threads_list 300 = 8 ∧
        (8 ∉ values (memOf [tcbA]).s_threads_list →
          pthread_find
            (pthread_create (memOf [tcbA]) false 100 300 pdPASS 8).1.s_threads_list 8 =
              some tcbB) ∧
        (∀ t, pthread_find (memOf [tcbA]).s_threads_list 8 = some t →
          pthread_find
            (pthread_create (memOf [tcbA]) false 100 300 pdPASS 8).1.s_threads_list 8 =
              some t)) :=
  ⟨by decide, by decide, by decide,
    pthread_create_spec (memOf [tcbA]) 100 300 8 (by decide) (by decide) (by decide)⟩

/-- C10 (counterexample): thread A has exited and waits to be joined (a
configuration reached by `create` and the exit section of A); the task of A is
gone and `xTaskCreate` hands out its handle 7 again for thread B.  Creation
succeeds, the registry is `[A, B]`, but `pthread_find` of the native handle of
B yields the object of A, not the one of B. -/
theorem pthread_create_find_shadowed :
    (Sys.init.execFresh [.create 9 false 100 200 pdPASS 7, .exit 7]).map
        (fun c => (c.mem.s_threads_list, c.running)) = some ([tcbA_exited], []) ∧
      ((Sys.init.exec [.create 9 false 100 200 pdPASS 7, .exit 7,
          .create 9 false 101 300 pdPASS 7]).map (fun c => c.mem.s_threads_list) =
        some [tcbA_exited, new_pthread 300 7]) ∧
      (pthread_create (memOf [tcbA_exited]) false 101 300 pdPASS 7).2 = ⟨0, some 300⟩ ∧
      (pthread_create (memOf [tcbA_exited]) false 101 300 pdPASS 7).1.s_threads_list =
        [tcbA_exited, new_pthread 300 7] ∧
      pthread_find
        (pthread_create (memOf [tcbA_exited]) false 101 300 pdPASS 7).1.s_threads_list 7 =
          some tcbA_exited ∧
      tcbA_exited ≠ new_pthread 300 7 := by
  decide

/-! ## More list lemmas -/

theorem uxListRemove_sublist (l : List esp_pthread_t) (p : pthread_t) :
    (uxListRemove l p).Sublist l := by
  induction l with
  | nil => exact List.Sublist.refl _
  | cons a l ih =>
    by_cases ha : a.owner = p
    · simp only [uxListRemove, ha, if_true]
      exact List.sublist_cons_self a l
    · simp only [uxListRemove, ha, if_false]
      exact ih.cons₂ a

theorem owners_uxListRemove_nodup {l : List esp_pthread_t} (p : pthread_t)
    (h : (owners l).Nodup) : (owners (uxListRemove l p)).Nodup :=
  h.sublist ((uxListRemove_sublist l p).map _)

theorem values_uxListRemove_nodup {l : List esp_pthread_t} (p : pthread_t)
    (h : (values l).Nodup) : (values (uxListRemove l p)).Nodup :=
  h.sublist ((uxListRemove_sublist l p).map _)

theorem mem_uxListRemove_iff {l : List esp_pthread_t} {p : pthread_t} {x : esp_pthread_t}
    (hnd : (owners l).Nodup) : x ∈ uxListRemove l p ↔ x ∈ l ∧ x.owner ≠ p := by
  constructor
  · intro h
    refine ⟨mem_uxListRemove h, ?_⟩
    have := (lookup_eq_none_iff _ _).1 (lookup_uxListRemove_self (p := p) hnd)
    exact this x h
  · rintro ⟨h1, h2⟩
    exact mem_uxListRemove_of_ne h1 h2

theorem mem_update_iff {l : List esp_pthread_t} {p : pthread_t} {x : esp_pthread_t}
    (f : esp_pthread_t → esp_pthread_t) (hnd : (owners l).Nodup) :
    x ∈ update l p f ↔ (x ∈ l ∧ x.owner ≠ p) ∨ ∃ t, lookup l p = some t ∧ x = f t := by
  induction l with
  | nil => simp [update, lookup]
  | cons a l ih =>
    simp only [owners, List.map_cons, List.nodup_cons] at hnd
    have ih := ih hnd.2
    by_cases ha : a.owner = p
    · have hl : ∀ y ∈ l, y.owner ≠ p := by
        intro y hy e
        apply hnd.1
        rw [ha, ← e]
        exact List.mem_map_of_mem _ hy
      simp only [update, lookup, ha, if_true, List.mem_cons]
      constructor
      · rintro (h | h)
        · exact Or.inr ⟨a, rfl, h⟩
        · exact Or.inl ⟨Or.inr h, hl x h⟩
      · rintro (⟨h | h, hne⟩ | ⟨t, ht, hx⟩)
        · subst h; exact absurd ha hne
        · exact Or.inr h
        · simp only [Option.some.injEq] at ht
          subst ht
          exact Or.inl hx
    · simp only [update, lookup, ha, if_false, List.mem_cons, ih]
      constructor
      · rintro (h | ⟨h, hne⟩ | h)
        · subst h; exact Or.inl ⟨Or.inl rfl, ha⟩
        · exact Or.inl ⟨Or.inr h, hne⟩
        · exact Or.inr h
      · rintro (⟨h | h, hne⟩ | h)
        · exact Or.inl h
        · exact Or.inr (Or.inl ⟨h, hne⟩)
        · exact Or.inr (Or.inr h)

/-! ## Case analysis of the sections of code -/

theorem owners_uxListRemove (l : List esp_pthread_t) (p : pthread_t) :
    owners (uxListRemove l p) = (owners l).erase p := by
  induction l with
  | nil => rfl
  | cons a l ih =>
    by_cases ha : a.owner = p
    · simp [uxListRemove, owners, ha]
    · simp only [owners] at ih
      simp [uxListRemove, owners, ha, ih, List.erase_cons_tail]

theorem replay_append (a b : List Event) (live : List pthread_t) :
    replay (a ++ b) live = (replay a live).bind (replay b) := by
  induction a generalizing live with
  | nil => simp [replay]
  | cons e a ih =>
    cases e
    case delete p b =>
      simp only [List.cons_append, replay]
      split_ifs
      · exact ih _
      · rfl
    all_goals (simp only [List.cons_append, replay]; exact ih _)

/-- The possible outcomes of `pthread_join` up to its return or suspension. -/
theorem pthread_join_cases (s : Mem) (cur : TaskHandle_t) (thread : pthread_t)
    (retval : Bool) (stale : esp_pthread_t)
    (hnd : (owners s.s_threads_list).Nodup)
    (hnn : ∀ t ∈ s.s_threads_list, t.value ≠ 0) (hcur : cur ≠ 0) :
    ∃ evs, (∀ p, Event.delete p false ∉ evs) ∧
      replay evs (owners s.s_threads_list) =
        some (owners (pthread_join s cur thread retval stale).1.s_threads_list) ∧
      ((∃ v, v ≠ 0 ∧ pthread_join s cur thread retval stale =
          ({ s with trace := s.trace ++ evs }, .returned v)) ∨
        (∃ t, lookup s.s_threads_list thread = some t ∧ t.join_task = 0 ∧
          t.state = PTHREAD_TASK_STATE_RUN ∧
          pthread_join s cur thread retval stale =
            ({ s with
                s_threads_list :=
                  update s.s_threads_list thread (fun x => { x with join_task := cur })
                trace := s.trace ++ evs }, .waiting)) ∨
        (∃ t, lookup s.s_threads_list thread = some t ∧ t.join_task = 0 ∧
          t.state ≠ PTHREAD_TASK_STATE_RUN ∧
          (pthread_join s cur thread retval stale =
              ({ s with
                  s_threads_list := uxListRemove s.s_threads_list thread
                  trace := s.trace ++ evs }, .waiting) ∨
            pthread_join s cur thread retval stale =
              ({ s with
                  s_threads_list := uxListRemove s.s_threads_list thread
                  trace := s.trace ++ evs }, .returned 0)))) := by
  cases hl : lookup s.s_threads_list thread with
  | none =>
    rw [pthread_join_absent s cur thread retval stale hl]
    refine ⟨_, ?_, ?_, Or.inl ⟨ESRCH, by decide, rfl⟩⟩
    · cases retval <;> simp
    · cases retval <;> simp [replay]
  | some t =>
    have hv : t.value ≠ 0 := hnn t (lookup_some_mem hl).1
    have hmem : thread ∈ owners s.s_threads_list := by
      obtain ⟨h1, h2⟩ := lookup_some_mem hl
      exact h2 ▸ List.mem_map_of_mem _ h1
    by_cases hj : t.join_task = 0
    · by_cases hs : t.value = cur
      · rw [pthread_join_self_free s cur thread retval stale t hcur hl hs hj]
        refine ⟨_, ?_, ?_, Or.inl ⟨EDEADLK, by decide, rfl⟩⟩
        · cases retval <;> simp
        · cases retval <;> simp [replay]
      · by_cases hm : ∀ a, pthread_find s.s_threads_list cur = some a → a.join_task ≠ t.value
        · by_cases hst : t.state = PTHREAD_TASK_STATE_RUN
          · rw [pthread_join_register s cur thread retval stale t hcur hl hv hj hs hm hst]
            refine ⟨_, ?_, ?_, Or.inr (Or.inl ⟨t, rfl, hj, hst, rfl⟩)⟩
            · unfold mutual_check_events
              cases pthread_find s.s_threads_list cur <;> simp
            · unfold mutual_check_events
              have ho := owners_update s.s_threads_list thread
                (fun x => { x with join_task := cur }) (fun _ => rfl)
              cases pthread_find s.s_threads_list cur <;> simp [replay, ho]
          · rw [pthread_join_reclaim s cur thread retval stale t hnd hl hv hj hs hm hst]
            by_cases hz : stale.join_task = 0
            · rw [if_neg (not_not.mpr hz)]
              refine ⟨_, ?_, ?_, Or.inr (Or.inr ⟨t, rfl, hj, hst, Or.inr rfl⟩)⟩
              · unfold mutual_check_events
                cases pthread_find s.s_threads_list cur <;> cases retval <;> simp
              · unfold mutual_check_events
                cases pthread_find s.s_threads_list cur <;> cases retval <;>
                  simp [replay, hmem, owners_uxListRemove]
            · rw [if_pos hz]
              refine ⟨_, ?_, ?_, Or.inr (Or.inr ⟨t, rfl, hj, hst, Or.inl rfl⟩)⟩
              · unfold mutual_check_events
                cases pthread_find s.s_threads_list cur <;> simp
              · unfold mutual_check_events
                cases pthread_find s.s_threads_list cur <;>
                  simp [replay, hmem, owners_uxListRemove]
        · push_neg at hm
          obtain ⟨a, ha, haj⟩ := hm
          rw [pthread_join_mutual s cur thread retval stale a t hl hv hj hs ha haj]
          refine ⟨_, ?_, ?_, Or.inl ⟨EDEADLK, by decide, rfl⟩⟩
          · cases retval <;> simp
          · cases retval <;> simp [replay]
    · rw [pthread_join_already_joined s cur thread retval stale t hl hv hj]
      refine ⟨_, ?_, ?_, Or.inl ⟨EINVAL, by decide, rfl⟩⟩
      · cases retval <;> simp
      · cases retval <;> simp [replay]

/-! ## The invariant is preserved by every turn -/

theorem Sys.Inv.inv_init : Sys.init.Inv := by
  constructor <;> simp [Sys.init, owners, values]

theorem pthread_create_ret_zero {s : Mem} {attr : Bool} {task_arg : Nat} {pthread : pthread_t}
    {res : Int} {xHandle : TaskHandle_t}
    (h : (pthread_create s attr task_arg pthread res xHandle).2.ret = 0) :
    attr = false ∧ task_arg ≠ 0 ∧ pthread ≠ 0 ∧ res = pdPASS := by
  unfold pthread_create at h
  split_ifs at h <;> simp_all [EINVAL, ENOMEM, EAGAIN]

theorem pthread_create_fail_trace (s : Mem) (attr : Bool) (task_arg : Nat) (pthread : pthread_t)
    (res : Int) (xHandle : TaskHandle_t)
    (h : (pthread_create s attr task_arg pthread res xHandle).2.ret ≠ 0) :
    ∃ evs, pthread_create s attr task_arg pthread res xHandle =
        ({ s with trace := s.trace ++ evs },
          (pthread_create s attr task_arg pthread res xHandle).2) ∧
      (∀ p b, Event.delete p b ∉ evs) ∧ ∀ live, replay evs live = some live := by
  unfold pthread_create at h ⊢
  split_ifs at h ⊢
  · exact ⟨[.ret EINVAL], by simp [Mem.emit], by simp, by simp [replay]⟩
  · exact ⟨[.alloc task_arg, .ret ENOMEM], by simp [Mem.emit], by simp, by simp [replay]⟩
  · exact ⟨[.alloc task_arg, .alloc pthread, .dealloc task_arg, .ret ENOMEM],
      by simp [Mem.emit], by simp, by simp [replay]⟩
  · exact ⟨[.alloc task_arg, .alloc pthread, .dealloc pthread, .dealloc task_arg, .ret ENOMEM],
      by simp [Mem.emit], by simp, by simp [replay]⟩
  · exact ⟨[.alloc task_arg, .alloc pthread, .dealloc pthread, .dealloc task_arg, .ret EAGAIN],
      by simp [Mem.emit], by simp, by simp [replay]⟩
  · simp at h

/-- A turn that only appends events other than a delete of a dead object. -/
theorem Sys.Inv.trace_only {c : Sys} (hi : c.Inv) (evs : List Event)
    (hev : ∀ p, Event.delete p false ∉ evs) :
    Sys.Inv { c with mem := { c.mem with trace := c.mem.trace ++ evs } } := by
  refine ⟨hi.owners_nodup, hi.values_nodup, hi.values_ne, hi.state_range, hi.exited,
    hi.blocked_nodup, hi.blocked_alive, hi.waiter, hi.notified, ?_⟩
  intro p
  simp only [List.mem_append, not_or]
  exact ⟨hi.deletes_live p, hev p⟩

theorem Sys.Inv.create_ok {c : Sys} (hi : c.Inv) (task_arg : Nat) (pthread : pthread_t)
    (xHandle : TaskHandle_t) (ha : task_arg ≠ 0) (hp : pthread ≠ 0)
    (hfresh : pthread ∉ owners c.mem.s_threads_list)
    (hx0 : xHandle ≠ 0) (hxb : xHandle ∉ c.blocked.map Suspended.task)
    (hxv : xHandle ∉ values c.mem.s_threads_list) :
    Sys.Inv { c with
      mem := xTaskNotifyWait_return
        (pthread_create c.mem false task_arg pthread pdPASS xHandle).1 xHandle
      running := c.running ++ [xHandle] } := by
  rw [pthread_create_ok c.mem task_arg pthread xHandle ha hp]
  have hmem : ∀ t, t ∈ c.mem.s_threads_list ++ [new_pthread pthread xHandle] ↔
      t ∈ c.mem.s_threads_list ∨ t = new_pthread pthread xHandle := by
    intro t; simp
  have hval : ∀ t ∈ c.mem.s_threads_list, t.value ≠ xHandle := by
    intro t ht e
    exact hxv (e ▸ List.mem_map_of_mem _ ht)
  constructor <;> dsimp only [xTaskNotifyWait_return]
  · show (owners (c.mem.s_threads_list ++ [new_pthread pthread xHandle])).Nodup
    simp only [owners, List.map_append, List.map_cons, List.map_nil]
    rw [List.nodup_append]
    refine ⟨hi.owners_nodup, by simp, ?_⟩
    intro a ha1 ha2
    simp only [List.mem_singleton] at ha2
    subst ha2
    exact hfresh ha1
  · show (values (c.mem.s_threads_list ++ [new_pthread pthread xHandle])).Nodup
    simp only [values, List.map_append, List.map_cons, List.map_nil]
    rw [List.nodup_append]
    refine ⟨hi.values_nodup, by simp, ?_⟩
    intro a ha1 ha2
    simp only [List.mem_singleton] at ha2
    subst ha2
    exact hxv ha1
  · intro t ht
    rcases (hmem t).1 ht with h | h
    · exact hi.values_ne t h
    · subst h; exact hx0
  · intro t ht
    rcases (hmem t).1 ht with h | h
    · exact hi.state_range t h
    · subst h; exact Or.inl rfl
  · intro t ht hs
    rcases (hmem t).1 ht with h | h
    · refine ⟨(hi.exited t h hs).1, ?_⟩
      simp only [List.mem_append, List.mem_singleton, not_or]
      exact ⟨(hi.exited t h hs).2, hval t h⟩
    · subst h
      simp [new_pthread, PTHREAD_TASK_STATE_EXIT] at hs
  · exact hi.blocked_nodup
  · intro b hb hbv
    simp only [List.mem_append, List.mem_singleton]
    simp only [values, List.map_append, List.map_cons, List.map_nil, List.mem_append,
      List.mem_singleton] at hbv
    rcases hbv with h | h
    · exact Or.inl (hi.blocked_alive b hb h)
    · exact Or.inr h
  · intro t ht hj
    rcases (hmem t).1 ht with h | h
    · exact hi.waiter t h hj
    · subst h
      simp [new_pthread] at hj
  · intro h hh
    have hh' : h ∈ c.mem.notified := by
      simp only [List.mem_filter, decide_eq_true_eq] at hh
      obtain ⟨h1, h2⟩ := hh
      split_ifs at h1
      · exact h1
      · rcases List.mem_append.1 h1 with h3 | h3
        · exact h3
        · simp only [List.mem_singleton] at h3
          exact absurd h3 h2
    obtain ⟨h0, t, ht, htj, htr⟩ := hi.notified h hh'
    refine ⟨h0, t, (hmem t).2 (Or.inl ht), htj, ?_⟩
    simp only [List.mem_append, List.mem_singleton, not_or]
    exact ⟨htr, hval t ht⟩
  · intro p
    simp only [List.mem_append, not_or]
    exact ⟨hi.deletes_live p, by simp⟩

theorem eq_of_owner_eq {l : List esp_pthread_t} (hnd : (owners l).Nodup) {x y : esp_pthread_t}
    (hx : x ∈ l) (hy : y ∈ l) (e : x.owner = y.owner) : x = y :=
  List.inj_on_of_nodup_map hnd hx hy e

theorem eq_of_task_eq {l : List Suspended} (hnd : (l.map Suspended.task).Nodup)
    {x y : Suspended} (hx : x ∈ l) (hy : y ∈ l) (e : x.task = y.task) : x = y :=
  List.inj_on_of_nodup_map hnd hx hy e

theorem mem_values_of_mem {l : List esp_pthread_t} {t : esp_pthread_t} (h : t ∈ l) :
    t.value ∈ values l :=
  List.mem_map_of_mem _ h

theorem mem_values_uxListRemove {l : List esp_pthread_t} {p : pthread_t} {v : TaskHandle_t}
    (h : v ∈ values (uxListRemove l p)) : v ∈ values l :=
  ((uxListRemove_sublist l p).map _).subset h

theorem Sys.Inv.exit {c : Sys} (hi : c.Inv) (h : TaskHandle_t) (hr : h ∈ c.running)
    (hb : h ∉ c.blocked.map Suspended.task) :
    Sys.Inv { c with
      mem := pthread_task_func_exit c.mem h
      running := c.running.filter (fun x => decide (x ≠ h)) } := by
  have hrun : ∀ x, x ∈ c.running.filter (fun x => decide (x ≠ h)) ↔ x ∈ c.running ∧ x ≠ h := by
    intro x; simp [List.mem_filter]
  have hbl : ∀ b ∈ c.blocked, b.task ≠ h := by
    intro b hb1 e
    exact hb (e ▸ List.mem_map_of_mem _ hb1)
  cases hf : pthread_find c.mem.s_threads_list h with
  | none =>
    rw [pthread_task_func_exit_absent c.mem h hf]
    refine ⟨hi.owners_nodup, hi.values_nodup, hi.values_ne, hi.state_range, ?_,
      hi.blocked_nodup, ?_, hi.waiter, ?_, ?_⟩
    · intro t ht hs
      exact ⟨(hi.exited t ht hs).1, fun hx => (hi.exited t ht hs).2 ((hrun _).1 hx).1⟩
    · intro b hb1 hbv
      exact (hrun _).2 ⟨hi.blocked_alive b hb1 hbv, hbl b hb1⟩
    · intro x hx
      obtain ⟨h0, t, ht, htj, htr⟩ := hi.notified x hx
      exact ⟨h0, t, ht, htj, fun hx => htr ((hrun _).1 hx).1⟩
    · intro p
      simp only [List.mem_append, not_or]
      exact ⟨hi.deletes_live p, by simp⟩
  | some t =>
    obtain ⟨htm, htv⟩ := pthread_find_some_mem hf
    have hlk : lookup c.mem.s_threads_list t.owner = some t :=
      lookup_of_mem_nodup hi.owners_nodup htm
    have hreg : registered c.mem.s_threads_list t.owner = true := by
      simp [registered, hlk]
    by_cases hd : t.detached = true
    · rw [pthread_task_func_exit_detached c.mem h t hf hd, hreg]
      have hmem : ∀ x, x ∈ uxListRemove c.mem.s_threads_list t.owner ↔
          x ∈ c.mem.s_threads_list ∧ x.owner ≠ t.owner :=
        fun x => mem_uxListRemove_iff hi.owners_nodup
      refine ⟨owners_uxListRemove_nodup _ hi.owners_nodup,
        values_uxListRemove_nodup _ hi.values_nodup, ?_, ?_, ?_, hi.blocked_nodup, ?_, ?_, ?_,
        ?_⟩
      · intro x hx
        exact hi.values_ne x ((hmem x).1 hx).1
      · intro x hx
        exact hi.state_range x ((hmem x).1 hx).1
      · intro x hx hs
        have := hi.exited x ((hmem x).1 hx).1 hs
        exact ⟨this.1, fun hx => this.2 ((hrun _).1 hx).1⟩
      · intro b hb1 hbv
        exact (hrun _).2 ⟨hi.blocked_alive b hb1 (mem_values_uxListRemove hbv), hbl b hb1⟩
      · intro x hx hj
        exact hi.waiter x ((hmem x).1 hx).1 hj
      · intro x hx
        obtain ⟨h0, u, hu, huj, hur⟩ := hi.notified x hx
        refine ⟨h0, u, (hmem u).2 ⟨hu, ?_⟩, huj, fun hx => hur ((hrun _).1 hx).1⟩
        intro e
        have := eq_of_owner_eq hi.owners_nodup hu htm e
        subst this
        exact hur (htv ▸ hr)
      · intro p
        simp only [List.mem_append, not_or]
        exact ⟨hi.deletes_live p, by simp⟩
    · have hd : t.detached = false := by simpa using hd
      by_cases hj : t.join_task = 0
      · rw [pthread_task_func_exit_mark c.mem h t hf hd hj]
        have hmem : ∀ x, x ∈ update c.mem.s_threads_list t.owner
              (fun x => { x with state := PTHREAD_TASK_STATE_EXIT }) ↔
            (x ∈ c.mem.s_threads_list ∧ x.owner ≠ t.owner) ∨
              x = { t with state := PTHREAD_TASK_STATE_EXIT } := by
          intro x
          rw [mem_update_iff _ hi.owners_nodup, hlk]
          simp
        refine ⟨?_, ?_, ?_, ?_, ?_, hi.blocked_nodup, ?_, ?_, ?_, ?_⟩
        · show (owners (update _ _ _)).Nodup
          rw [owners_update]
          · exact hi.owners_nodup
          · intro _; rfl
        · show (values (update _ _ _)).Nodup
          rw [values_update]
          · exact hi.values_nodup
          · intro _; rfl
        · intro x hx
          rcases (hmem x).1 hx with h1 | h1
          · exact hi.values_ne x h1.1
          · subst h1
            exact hi.values_ne t htm
        · intro x hx
          rcases (hmem x).1 hx with h1 | h1
          · exact hi.state_range x h1.1
          · subst h1
            exact Or.inr rfl
        · intro x hx hs
          rcases (hmem x).1 hx with h1 | h1
          · have := hi.exited x h1.1 hs
            exact ⟨this.1, fun hx => this.2 ((hrun _).1 hx).1⟩
          · subst h1
            exact ⟨hj, fun hx => ((hrun _).1 hx).2 htv⟩
        · intro b hb1 hbv
          have hbv' : b.task ∈ values c.mem.s_threads_list := by
            have := values_update c.mem.s_threads_list t.owner
              (fun x => { x with state := PTHREAD_TASK_STATE_EXIT }) (fun _ => rfl)
            rw [← this]
            exact hbv
          exact (hrun _).2 ⟨hi.blocked_alive b hb1 hbv', hbl b hb1⟩
        · intro x hx hxj
          rcases (hmem x).1 hx with h1 | h1
          · exact hi.waiter x h1.1 hxj
          · subst h1
            exact absurd hj hxj
        · intro x hx
          obtain ⟨h0, u, hu, huj, hur⟩ := hi.notified x hx
          refine ⟨h0, u, (hmem u).2 (Or.inl ⟨hu, ?_⟩), huj, fun hx => hur ((hrun _).1 hx).1⟩
          intro e
          have := eq_of_owner_eq hi.owners_nodup hu htm e
          subst this
          exact hur (htv ▸ hr)
        · intro p
          simp only [List.mem_append, not_or]
          exact ⟨hi.deletes_live p, by simp⟩
      · rw [pthread_task_func_exit_notify c.mem h t hf hd hj]
        refine ⟨hi.owners_nodup, hi.values_nodup, hi.values_ne, hi.state_range, ?_,
          hi.blocked_nodup, ?_, hi.waiter, ?_, ?_⟩
        · intro u hu hs
          exact ⟨(hi.exited u hu hs).1, fun hx => (hi.exited u hu hs).2 ((hrun _).1 hx).1⟩
        · intro b hb1 hbv
          exact (hrun _).2 ⟨hi.blocked_alive b hb1 hbv, hbl b hb1⟩
        · intro x hx
          have hx' : x ∈ c.mem.notified ∨ x = t.join_task := by
            dsimp only at hx
            split_ifs at hx
            · exact Or.inl hx
            · rcases List.mem_append.1 hx with h3 | h3
              · exact Or.inl h3
              · exact Or.inr (by simpa using h3)
          rcases hx' with h1 | h1
          · obtain ⟨h0, u, hu, huj, hur⟩ := hi.notified x h1
            exact ⟨h0, u, hu, huj, fun hx => hur ((hrun _).1 hx).1⟩
          · subst h1
            exact ⟨hj, t, htm, rfl, fun hx => ((hrun _).1 hx).2 htv⟩
        · intro p
          simp only [List.mem_append, not_or]
          exact ⟨hi.deletes_live p, by simp⟩

theorem Sys.canRun_iff (c : Sys) (h : TaskHandle_t) :
    c.canRun h = true ↔ h ≠ 0 ∧ h ∉ c.blocked.map Suspended.task ∧
      (h ∈ values c.mem.s_threads_list → h ∈ c.running) := by
  simp only [Sys.canRun, values, Bool.and_eq_true, Bool.or_eq_true, decide_eq_true_eq]
  constructor
  · rintro ⟨⟨h1, h2⟩, h3⟩
    exact ⟨h1, h2, fun hv => h3.resolve_left (fun hn => hn hv)⟩
  · rintro ⟨h1, h2, h3⟩
    refine ⟨⟨h1, h2⟩, ?_⟩
    by_cases hv : h ∈ List.map esp_pthread_t.value c.mem.s_threads_list
    · exact Or.inr (h3 hv)
    · exact Or.inl hv

theorem Sys.Inv.join {c : Sys} (hi : c.Inv) (cur : TaskHandle_t) (thread : pthread_t)
    (retval : Bool) (stale : esp_pthread_t) (hc : c.canRun cur = true) :
    Sys.Inv (match (pthread_join c.mem cur thread retval stale).2 with
      | .waiting => { c with mem := (pthread_join c.mem cur thread retval stale).1
                             blocked := c.blocked ++ [⟨cur, thread, retval⟩] }
      | .returned _ => { c with mem := (pthread_join c.mem cur thread retval stale).1 }) := by
  obtain ⟨hc0, hcb, hcv⟩ := (Sys.canRun_iff c cur).1 hc
  obtain ⟨evs, hev, _, hcase⟩ := pthread_join_cases c.mem cur thread retval stale
    hi.owners_nodup hi.values_ne hc0
  have hdel : ∀ p, Event.delete p false ∉ c.mem.trace ++ evs := by
    intro p
    simp only [List.mem_append, not_or]
    exact ⟨hi.deletes_live p, hev p⟩
  have hbn : (List.map Suspended.task (c.blocked ++ [⟨cur, thread, retval⟩])).Nodup := by
    simp only [List.map_append, List.map_cons, List.map_nil]
    rw [List.nodup_append]
    refine ⟨hi.blocked_nodup, by simp, ?_⟩
    intro a ha1 ha2
    simp only [List.mem_singleton] at ha2
    subst ha2
    exact hcb ha1
  rcases hcase with ⟨v, _, hpj⟩ | ⟨t, hl, hj, hst, hpj⟩ | ⟨t, hl, hj, hst, hpj⟩
  · rw [hpj]
    exact ⟨hi.owners_nodup, hi.values_nodup, hi.values_ne, hi.state_range, hi.exited,
      hi.blocked_nodup, hi.blocked_alive, hi.waiter, hi.notified, hdel⟩
  · rw [hpj]
    obtain ⟨htm, hto⟩ := lookup_some_mem hl
    have hmem : ∀ x, x ∈ update c.mem.s_threads_list thread
          (fun x => { x with join_task := cur }) ↔
        (x ∈ c.mem.s_threads_list ∧ x.owner ≠ thread) ∨ x = { t with join_task := cur } := by
      intro x
      rw [mem_update_iff _ hi.owners_nodup, hl]
      simp
    have hvals : values (update c.mem.s_threads_list thread
        (fun x => { x with join_task := cur })) = values c.mem.s_threads_list :=
      values_update _ _ _ (fun _ => rfl)
    refine ⟨?_, ?_, ?_, ?_, ?_, hbn, ?_, ?_, ?_, hdel⟩
    · show (owners (update _ _ _)).Nodup
      rw [owners_update]
      · exact hi.owners_nodup
      · intro _; rfl
    · show (values (update _ _ _)).Nodup
      rw [hvals]
      exact hi.values_nodup
    · intro x hx
      rcases (hmem x).1 hx with h1 | h1
      · exact hi.values_ne x h1.1
      · subst h1
        exact hi.values_ne t htm
    · intro x hx
      rcases (hmem x).1 hx with h1 | h1
      · exact hi.state_range x h1.1
      · subst h1
        exact Or.inl hst
    · intro x hx hs
      rcases (hmem x).1 hx with h1 | h1
      · exact hi.exited x h1.1 hs
      · subst h1
        rw [show ({ t with join_task := cur } : esp_pthread_t).state = t.state from rfl, hst] at hs
        exact absurd hs (by decide)
    · intro b hb1 hbv
      have hbv' : b.task ∈ values c.mem.s_threads_list := hvals ▸ hbv
      rcases List.mem_append.1 hb1 with h1 | h1
      · exact hi.blocked_alive b h1 hbv'
      · simp only [List.mem_singleton] at h1
        subst h1
        exact hcv hbv'
    · intro x hx hxj
      rcases (hmem x).1 hx with h1 | h1
      · obtain ⟨b, hb1, hb2, hb3⟩ := hi.waiter x h1.1 hxj
        exact ⟨b, List.mem_append_left _ hb1, hb2, hb3⟩
      · subst h1
        exact ⟨⟨cur, thread, retval⟩, by simp, rfl, hto.symm⟩
    · intro x hx
      obtain ⟨h0, u, hu, huj, hur⟩ := hi.notified x hx
      refine ⟨h0, u, (hmem u).2 (Or.inl ⟨hu, ?_⟩), huj, hur⟩
      intro e
      have := eq_of_owner_eq hi.owners_nodup hu htm (e.trans hto.symm)
      subst this
      exact h0 (huj ▸ hj)
  · obtain ⟨htm, hto⟩ := lookup_some_mem hl
    have hmem : ∀ x, x ∈ uxListRemove c.mem.s_threads_list thread ↔
        x ∈ c.mem.s_threads_list ∧ x.owner ≠ thread :=
      fun x => mem_uxListRemove_iff hi.owners_nodup
    have hnot : ∀ h ∈ c.mem.notified, h ≠ 0 ∧
        ∃ u ∈ uxListRemove c.mem.s_threads_list thread, u.join_task = h ∧ u.value ∉ c.running := by
      intro x hx
      obtain ⟨h0, u, hu, huj, hur⟩ := hi.notified x hx
      refine ⟨h0, u, (hmem u).2 ⟨hu, ?_⟩, huj, hur⟩
      intro e
      have := eq_of_owner_eq hi.owners_nodup hu htm (e.trans hto.symm)
      subst this
      exact h0 (huj ▸ hj)
    rcases hpj with hpj | hpj
    · rw [hpj]
      refine ⟨owners_uxListRemove_nodup _ hi.owners_nodup,
        values_uxListRemove_nodup _ hi.values_nodup, ?_, ?_, ?_, hbn, ?_, ?_, hnot, hdel⟩
      · intro x hx
        exact hi.values_ne x ((hmem x).1 hx).1
      · intro x hx
        exact hi.state_range x ((hmem x).1 hx).1
      · intro x hx hs
        exact hi.exited x ((hmem x).1 hx).1 hs
      · intro b hb1 hbv
        have hbv' := mem_values_uxListRemove hbv
        rcases List.mem_append.1 hb1 with h1 | h1
        · exact hi.blocked_alive b h1 hbv'
        · simp only [List.mem_singleton] at h1
          subst h1
          exact hcv hbv'
      · intro x hx hxj
        obtain ⟨b, hb1, hb2, hb3⟩ := hi.waiter x ((hmem x).1 hx).1 hxj
        exact ⟨b, List.mem_append_left _ hb1, hb2, hb3⟩
    · rw [hpj]
      refine ⟨owners_uxListRemove_nodup _ hi.owners_nodup,
        values_uxListRemove_nodup _ hi.values_nodup, ?_, ?_, ?_, hi.blocked_nodup, ?_, ?_, hnot,
        hdel⟩
      · intro x hx
        exact hi.values_ne x ((hmem x).1 hx).1
      · intro x hx
        exact hi.state_range x ((hmem x).1 hx).1
      · intro x hx hs
        exact hi.exited x ((hmem x).1 hx).1 hs
      · intro b hb1 hbv
        exact hi.blocked_alive b hb1 (mem_values_uxListRemove hbv)
      · intro x hx hxj
        exact hi.waiter x ((hmem x).1 hx).1 hxj

theorem Sys.Inv.detach {c : Sys} (hi : c.Inv) (thread : pthread_t) :
    Sys.Inv { c with mem := (pthread_detach c.mem thread).1 } := by
  cases hl : lookup c.mem.s_threads_list thread with
  | none =>
    rw [pthread_detach_absent c.mem thread hl]
    exact hi.trace_only _ (by simp)
  | some t =>
    obtain ⟨htm, hto⟩ := lookup_some_mem hl
    rw [pthread_detach_present c.mem thread t hl (hi.values_ne t htm)]
    have hmem : ∀ x, x ∈ update c.mem.s_threads_list thread
          (fun x => { x with detached := true }) ↔
        (x ∈ c.mem.s_threads_list ∧ x.owner ≠ thread) ∨ x = { t with detached := true } := by
      intro x
      rw [mem_update_iff _ hi.owners_nodup, hl]
      simp
    have hvals : values (update c.mem.s_threads_list thread
        (fun x => { x with detached := true })) = values c.mem.s_threads_list :=
      values_update _ _ _ (fun _ => rfl)
    refine ⟨?_, ?_, ?_, ?_, ?_, hi.blocked_nodup, ?_, ?_, ?_, ?_⟩
    · show (owners (update _ _ _)).Nodup
      rw [owners_update]
      · exact hi.owners_nodup
      · intro _; rfl
    · show (values (update _ _ _)).Nodup
      rw [hvals]
      exact hi.values_nodup
    · intro x hx
      rcases (hmem x).1 hx with h1 | h1
      · exact hi.values_ne x h1.1
      · subst h1
        exact hi.values_ne t htm
    · intro x hx
      rcases (hmem x).1 hx with h1 | h1
      · exact hi.state_range x h1.1
      · subst h1
        exact hi.state_range t htm
    · intro x hx hs
      rcases (hmem x).1 hx with h1 | h1
      · exact hi.exited x h1.1 hs
      · subst h1
        exact hi.exited t htm hs
    · intro b hb1 hbv
      exact hi.blocked_alive b hb1 (hvals ▸ hbv)
    · intro x hx hxj
      rcases (hmem x).1 hx with h1 | h1
      · exact hi.waiter x h1.1 hxj
      · subst h1
        exact hi.waiter t htm hxj
    · intro x hx
      obtain ⟨h0, u, hu, huj, hur⟩ := hi.notified x hx
      by_cases e : u.owner = thread
      · have := eq_of_owner_eq hi.owners_nodup hu htm (e.trans hto.symm)
        subst this
        exact ⟨h0, { u with detached := true }, (hmem _).2 (Or.inr rfl), huj, hur⟩
      · exact ⟨h0, u, (hmem u).2 (Or.inl ⟨hu, e⟩), huj, hur⟩
    · intro p
      simp only [List.mem_append, not_or]
      exact ⟨hi.deletes_live p, by simp⟩

theorem Sys.suspended_some {c : Sys} {cur : TaskHandle_t} {b : Suspended}
    (h : c.suspended cur = some b) : b ∈ c.blocked ∧ b.task = cur := by
  unfold Sys.suspended at h
  exact ⟨List.mem_of_find?_eq_some h, by simpa using List.find?_some h⟩

/-- In a configuration satisfying the invariant, a suspended task with a pending
notification is the recorded join-waiter of a registered object, and that
object is the one its suspended call points to. -/
theorem Sys.Inv.wake_target {c : Sys} (hi : c.Inv) {cur : TaskHandle_t} {b : Suspended}
    (hs : c.suspended cur = some b) (hn : cur ∈ c.mem.notified) :
    ∃ t, lookup c.mem.s_threads_list b.pthread = some t ∧ t.join_task = cur ∧
      t.value ∉ c.running := by
  obtain ⟨hb, hbt⟩ := Sys.suspended_some hs
  obtain ⟨_, t, ht, htj, htr⟩ := hi.notified cur hn
  have hj : t.join_task ≠ 0 := by rw [htj]; exact (hi.notified cur hn).1
  obtain ⟨b1, hb1, hb2, hb3⟩ := hi.waiter t ht hj
  have : b1 = b := eq_of_task_eq hi.blocked_nodup hb1 hb (by rw [hb2, htj, hbt])
  subst this
  exact ⟨t, hb3 ▸ lookup_of_mem_nodup hi.owners_nodup ht, htj, htr⟩

theorem Sys.Inv.wake {c : Sys} (hi : c.Inv) (cur : TaskHandle_t) (b : Suspended)
    (hs : c.suspended cur = some b) (hn : cur ∈ c.mem.notified) :
    Sys.Inv { c with
      mem := (pthread_join_wake (xTaskNotifyWait_return c.mem cur) b.pthread b.retval).1
      blocked := c.blocked.filter (fun x => decide (x.task ≠ cur)) } := by
  obtain ⟨hb, hbt⟩ := Sys.suspended_some hs
  obtain ⟨t, hl, htj, htr⟩ := hi.wake_target hs hn
  obtain ⟨htm, hto⟩ := lookup_some_mem hl
  rw [pthread_join_wake_eq]
  have hreg : registered (xTaskNotifyWait_return c.mem cur).s_threads_list b.pthread = true := by
    simp [registered, xTaskNotifyWait_return, hl]
  rw [hreg]
  have hmem : ∀ x, x ∈ uxListRemove c.mem.s_threads_list b.pthread ↔
      x ∈ c.mem.s_threads_list ∧ x.owner ≠ b.pthread :=
    fun x => mem_uxListRemove_iff hi.owners_nodup
  have hbl : ∀ x, x ∈ c.blocked.filter (fun x => decide (x.task ≠ cur)) ↔
      x ∈ c.blocked ∧ x.task ≠ cur := by
    intro x; simp [List.mem_filter]
  constructor <;> dsimp only [xTaskNotifyWait_return]
  · exact owners_uxListRemove_nodup _ hi.owners_nodup
  · exact values_uxListRemove_nodup _ hi.values_nodup
  · intro x hx
    exact hi.values_ne x ((hmem x).1 hx).1
  · intro x hx
    exact hi.state_range x ((hmem x).1 hx).1
  · intro x hx hs
    exact hi.exited x ((hmem x).1 hx).1 hs
  · exact hi.blocked_nodup.sublist ((List.filter_sublist _).map _)
  · intro x hx hxv
    exact hi.blocked_alive x ((hbl x).1 hx).1 (mem_values_uxListRemove hxv)
  · intro x hx hxj
    obtain ⟨hx1, hx2⟩ := (hmem x).1 hx
    obtain ⟨b1, hb1, hb2, hb3⟩ := hi.waiter x hx1 hxj
    refine ⟨b1, (hbl b1).2 ⟨hb1, ?_⟩, hb2, hb3⟩
    intro e
    have : b1 = b := eq_of_task_eq hi.blocked_nodup hb1 hb (by rw [e, hbt])
    subst this
    exact hx2 hb3.symm
  · intro x hx
    simp only [List.mem_filter, decide_eq_true_eq] at hx
    obtain ⟨h0, u, hu, huj, hur⟩ := hi.notified x hx.1
    refine ⟨h0, u, (hmem u).2 ⟨hu, ?_⟩, huj, hur⟩
    intro e
    have := eq_of_owner_eq hi.owners_nodup hu htm (e.trans hto.symm)
    subst this
    exact hx.2 (huj.symm.trans htj)
  · intro p
    simp only [List.mem_append, not_or]
    refine ⟨hi.deletes_live p, ?_⟩
    cases b.retval <;> simp

/-- Every turn preserves the invariant. -/
theorem Sys.Inv.inv_step {c c1 : Sys} (hi : c.Inv) (st : Step) (hf : c.fresh st = true)
    (h : c.step st = some c1) : c1.Inv := by
  cases st with
  | create cur attr task_arg pthread res xHandle =>
    simp only [Sys.step] at h
    split_ifs at h with h1 h2
    · simp only [Option.some.injEq] at h
      subst h
      obtain ⟨ha, hta, hp, hres⟩ := pthread_create_ret_zero h2
      subst ha hres
      simp only [Bool.and_eq_true, Sys.createEnv, Bool.or_eq_true, decide_eq_true_eq] at h1
      simp only [Sys.fresh, Bool.or_eq_true, decide_eq_true_eq] at hf
      obtain ⟨_, hfresh, henv⟩ := h1
      rcases henv with henv | henv
      · exact absurd rfl henv
      · rcases hf with hf | hf
        · exact absurd rfl hf
        · exact hi.create_ok task_arg pthread xHandle hta hp hfresh henv.1.1.1 henv.2 hf
    · simp only [Option.some.injEq] at h
      subst h
      obtain ⟨evs, he, hev, _⟩ := pthread_create_fail_trace c.mem attr task_arg pthread res
        xHandle h2
      rw [he]
      exact hi.trace_only evs (fun p => hev p false)
  | exit x =>
    simp only [Sys.step] at h
    split_ifs at h with h1
    simp only [Option.some.injEq] at h
    subst h
    simp only [Bool.and_eq_true, decide_eq_true_eq] at h1
    exact hi.exit x h1.1 h1.2
  | join cur thread retval stale =>
    simp only [Sys.step] at h
    split_ifs at h with h1
    have := hi.join cur thread retval stale h1
    split at h <;> simp only [Option.some.injEq] at h <;> subst h
    · rename_i heq
      rw [heq] at this
      exact this
    · rename_i heq
      rw [heq] at this
      exact this
  | wake cur =>
    simp only [Sys.step] at h
    split at h
    · rename_i b hb
      split_ifs at h with h1
      simp only [Option.some.injEq] at h
      subst h
      exact hi.wake cur b hb h1
    · exact absurd h (by simp)
  | detach cur thread =>
    simp only [Sys.step] at h
    split_ifs at h with h1
    simp only [Option.some.injEq] at h
    subst h
    exact hi.detach thread

/-- Every configuration reached by a sequence of turns with fresh handles
satisfies the invariant. -/
theorem Sys.Inv.inv_exec {c c1 : Sys} (hi : c.Inv) (steps : List Step)
    (h : c.execFresh steps = some c1) : c1.Inv := by
  induction steps generalizing c with
  | nil =>
    simp only [Sys.execFresh, Option.some.injEq] at h
    exact h ▸ hi
  | cons st rest ih =>
    simp only [Sys.execFresh] at h
    split_ifs at h with hf
    cases hs : c.step st with
    | none => simp [hs] at h
    | some c2 =>
      rw [hs] at h
      exact ih (hi.inv_step st hf hs) h

/-! ## Insertions and deletions are balanced -/

theorem Sys.Ledger.of_append {c : Sys} (hl : c.Ledger) (l : List esp_pthread_t)
    (n : List TaskHandle_t) (evs : List Event) (b : List Suspended) (r : List TaskHandle_t)
    (h : replay evs (owners c.mem.s_threads_list) = some (owners l)) :
    Sys.Ledger { mem := { s_threads_list := l, notified := n, trace := c.mem.trace ++ evs },
                 blocked := b, running := r } := by
  unfold Sys.Ledger at hl ⊢
  simp only [replay_append, hl, Option.some_bind, h]

theorem Sys.Ledger.ledger_init : Sys.init.Ledger := by
  simp [Sys.Ledger, Sys.init, replay, owners]

theorem mem_owners_of_lookup {l : List esp_pthread_t} {p : pthread_t} {t : esp_pthread_t}
    (h : lookup l p = some t) : p ∈ owners l := by
  obtain ⟨h1, h2⟩ := lookup_some_mem h
  exact h2 ▸ List.mem_map_of_mem _ h1

theorem Sys.Ledger.ledger_step {c c1 : Sys} (hi : c.Inv) (hl : c.Ledger) (st : Step)
    (h : c.step st = some c1) : c1.Ledger := by
  cases st with
  | create cur attr task_arg pthread res xHandle =>
    simp only [Sys.step] at h
    split_ifs at h with h1 h2
    · simp only [Option.some.injEq] at h
      subst h
      obtain ⟨ha, hta, hp, hres⟩ := pthread_create_ret_zero h2
      subst ha hres
      rw [pthread_create_ok c.mem task_arg pthread xHandle hta hp]
      exact hl.of_append _ _ _ _ _ (by simp [replay, owners, new_pthread])
    · simp only [Option.some.injEq] at h
      subst h
      obtain ⟨evs, he, _, hrp⟩ := pthread_create_fail_trace c.mem attr task_arg pthread res
        xHandle h2
      rw [he]
      exact hl.of_append _ _ _ _ _ (hrp _)
  | exit x =>
    simp only [Sys.step] at h
    split_ifs at h with h1
    simp only [Option.some.injEq] at h
    subst h
    cases hf : pthread_find c.mem.s_threads_list x with
    | none =>
      rw [pthread_task_func_exit_absent c.mem x hf]
      exact hl.of_append _ _ _ _ _ (by simp [replay])
    | some t =>
      have htm := (pthread_find_some_mem hf).1
      have hlk := lookup_of_mem_nodup hi.owners_nodup htm
      have hmo := mem_owners_of_lookup hlk
      by_cases hd : t.detached = true
      · rw [pthread_task_func_exit_detached c.mem x t hf hd]
        exact hl.of_append _ _ _ _ _ (by simp [replay, hmo, owners_uxListRemove])
      · have hd : t.detached = false := by simpa using hd
        by_cases hj : t.join_task = 0
        · rw [pthread_task_func_exit_mark c.mem x t hf hd hj]
          have ho := owners_update c.mem.s_threads_list t.owner
            (fun x => { x with state := PTHREAD_TASK_STATE_EXIT }) (fun _ => rfl)
          exact hl.of_append _ _ _ _ _ (by simp [replay, ho])
        · rw [pthread_task_func_exit_notify c.mem x t hf hd hj]
          exact hl.of_append _ _ _ _ _ (by simp [replay])
  | join cur thread retval stale =>
    simp only [Sys.step] at h
    split_ifs at h with h1
    obtain ⟨hc0, _, _⟩ := (Sys.canRun_iff c cur).1 h1
    obtain ⟨evs, _, hrp, hcase⟩ := pthread_join_cases c.mem cur thread retval stale
      hi.owners_nodup hi.values_ne hc0
    rcases hcase with ⟨v, _, hpj⟩ | ⟨t, _, _, _, hpj⟩ | ⟨t, _, _, _, hpj | hpj⟩ <;>
      rw [hpj] at h hrp <;> simp only [Option.some.injEq] at h <;> subst h <;>
      exact hl.of_append _ _ _ _ _ hrp
  | wake cur =>
    simp only [Sys.step] at h
    split at h
    · rename_i b hb
      split_ifs at h with h1
      simp only [Option.some.injEq] at h
      subst h
      obtain ⟨t, hlk, _, _⟩ := hi.wake_target hb h1
      have hmo := mem_owners_of_lookup hlk
      rw [pthread_join_wake_eq]
      refine hl.of_append _ _ _ _ _ ?_
      cases b.retval <;>
        simp [replay, xTaskNotifyWait_return, hmo, owners_uxListRemove]
    · exact absurd h (by simp)
  | detach cur thread =>
    simp only [Sys.step] at h
    split_ifs at h with h1
    simp only [Option.some.injEq] at h
    subst h
    cases hlk : lookup c.mem.s_threads_list thread with
    | none =>
      rw [pthread_detach_absent c.mem thread hlk]
      exact hl.of_append _ _ _ _ _ (by simp [replay])
    | some t =>
      rw [pthread_detach_present c.mem thread t hlk (hi.values_ne t (lookup_some_mem hlk).1)]
      have ho := owners_update c.mem.s_threads_list thread
        (fun x => { x with detached := true }) (fun _ => rfl)
      exact hl.of_append _ _ _ _ _ (by simp [replay, ho])

theorem Sys.Ledger.ledger_exec {c c1 : Sys} (hi : c.Inv) (hl : c.Ledger) (steps : List Step)
    (h : c.execFresh steps = some c1) : c1.Ledger := by
  induction steps generalizing c with
  | nil =>
    simp only [Sys.execFresh, Option.some.injEq] at h
    exact h ▸ hl
  | cons st rest ih =>
    simp only [Sys.execFresh] at h
    split_ifs at h with hf
    cases hs : c.step st with
    | none => simp [hs] at h
    | some c2 =>
      rw [hs] at h
      exact ih (hi.inv_step st hf hs) (hl.ledger_step hi st hs) h

/-! ## Who frees an object -/

theorem owner_eq_of_removed {l : List esp_pthread_t} {p : pthread_t} {t : esp_pthread_t}
    (ht : t ∈ l) (hgone : t.owner ∉ owners (uxListRemove l p)) : t.owner = p := by
  by_contra hne
  exact hgone (List.mem_map_of_mem _ (mem_uxListRemove_of_ne ht hne))

theorem mem_owners_of_mem {l : List esp_pthread_t} {t : esp_pthread_t} (h : t ∈ l) :
    t.owner ∈ owners l :=
  List.mem_map_of_mem _ h

theorem Sys.Inv.freed_by {c c1 : Sys} (hi : c.Inv) (st : Step) (h : c.step st = some c1)
    (t : esp_pthread_t) (ht : t ∈ c.mem.s_threads_list)
    (hgone : t.owner ∉ owners c1.mem.s_threads_list) : c.mayFree st t := by
  have hto := mem_owners_of_mem ht
  cases st with
  | create cur attr task_arg pthread res xHandle =>
    exfalso
    simp only [Sys.step] at h
    split_ifs at h with h1 h2
    · simp only [Option.some.injEq] at h
      subst h
      obtain ⟨ha, hta, hp, hres⟩ := pthread_create_ret_zero h2
      subst ha hres
      rw [pthread_create_ok c.mem task_arg pthread xHandle hta hp] at hgone
      apply hgone
      simp only [xTaskNotifyWait_return, owners, List.map_append, List.mem_append]
      exact Or.inl hto
    · simp only [Option.some.injEq] at h
      subst h
      obtain ⟨evs, he, _, _⟩ := pthread_create_fail_trace c.mem attr task_arg pthread res
        xHandle h2
      rw [he] at hgone
      exact hgone hto
  | exit x =>
    simp only [Sys.step] at h
    split_ifs at h with h1
    simp only [Option.some.injEq] at h
    subst h
    cases hf : pthread_find c.mem.s_threads_list x with
    | none =>
      rw [pthread_task_func_exit_absent c.mem x hf] at hgone
      exact absurd hto hgone
    | some u =>
      obtain ⟨hum, huv⟩ := pthread_find_some_mem hf
      by_cases hd : u.detached = true
      · rw [pthread_task_func_exit_detached c.mem x u hf hd] at hgone
        have := eq_of_owner_eq hi.owners_nodup ht hum (owner_eq_of_removed ht hgone)
        subst this
        exact ⟨huv, hd⟩
      · have hd : u.detached = false := by simpa using hd
        by_cases hj : u.join_task = 0
        · rw [pthread_task_func_exit_mark c.mem x u hf hd hj] at hgone
          exfalso
          apply hgone
          show t.owner ∈ owners (update _ _ _)
          rw [owners_update]
          · exact hto
          · intro _; rfl
        · rw [pthread_task_func_exit_notify c.mem x u hf hd hj] at hgone
          exact absurd hto hgone
  | join cur thread retval stale =>
    simp only [Sys.step] at h
    split_ifs at h with h1
    obtain ⟨hc0, _, _⟩ := (Sys.canRun_iff c cur).1 h1
    obtain ⟨evs, _, _, hcase⟩ := pthread_join_cases c.mem cur thread retval stale
      hi.owners_nodup hi.values_ne hc0
    rcases hcase with ⟨v, _, hpj⟩ | ⟨u, _, _, _, hpj⟩ | ⟨u, hlk, huj, hus, hpj⟩
    · rw [hpj] at h
      simp only [Option.some.injEq] at h
      subst h
      exact absurd hto hgone
    · rw [hpj] at h
      simp only [Option.some.injEq] at h
      subst h
      exfalso
      apply hgone
      show t.owner ∈ owners (update _ _ _)
      rw [owners_update]
      · exact hto
      · intro _; rfl
    · have hrem : t.owner ∉ owners (uxListRemove c.mem.s_threads_list thread) := by
        rcases hpj with hpj | hpj <;> rw [hpj] at h <;>
          simp only [Option.some.injEq] at h <;> subst h <;> exact hgone
      have hown := owner_eq_of_removed ht hrem
      have : u = t := by
        have := lookup_of_mem_nodup hi.owners_nodup ht
        rw [hown, hlk] at this
        exact Option.some.inj this
      subst this
      exact ⟨hown.symm, (hi.state_range u ht).resolve_left hus, huj⟩
  | wake cur =>
    simp only [Sys.step] at h
    split at h
    · rename_i b hb
      split_ifs at h with h1
      simp only [Option.some.injEq] at h
      subst h
      obtain ⟨u, hlk, huj, _⟩ := hi.wake_target hb h1
      rw [pthread_join_wake_eq] at hgone
      have hown : t.owner = b.pthread := owner_eq_of_removed ht hgone
      have : u = t := by
        have := lookup_of_mem_nodup hi.owners_nodup ht
        rw [hown] at this
        rw [hlk] at this
        exact Option.some.inj this
      subst this
      exact ⟨huj, h1, b, hb, hown.symm⟩
    · exact absurd h (by simp)
  | detach cur thread =>
    exfalso
    simp only [Sys.step] at h
    split_ifs at h with h1
    simp only [Option.some.injEq] at h
    subst h
    cases hlk : lookup c.mem.s_threads_list thread with
    | none =>
      rw [pthread_detach_absent c.mem thread hlk] at hgone
      exact hgone hto
    | some u =>
      rw [pthread_detach_present c.mem thread u hlk
        (hi.values_ne u (lookup_some_mem hlk).1)] at hgone
      apply hgone
      show t.owner ∈ owners (update _ _ _)
      rw [owners_update]
      · exact hto
      · intro _; rfl

/-- C6 (as amended): in every configuration `c` reached from the empty registry
by turns of `pthread_create`, the exit section, `pthread_join` (up to its
return or suspension, and its resumption after the wake-up) and
`pthread_detach`, in which no spawned task gets a native handle that a
registered object still carries: no `pthread_delete` performed so far was
applied to an address that was not registered at that moment; the insertions
and deletions of the trace are balanced, every deletion removes an address
inserted before and not removed since, and what remains is the registry; and
whenever a further turn removes a registered object, it is the exit section of
that detached thread, a join that finds the object exited without join-waiter,
or the resumption of its recorded and notified join-waiter. -/
theorem no_double_free (steps : List Step) (c : Sys) (h : Sys.init.execFresh steps = some c) :
    (∀ p, Event.delete p false ∉ c.mem.trace) ∧
      replay c.mem.trace [] = some (owners c.mem.s_threads_list) ∧
      (owners c.mem.s_threads_list).Nodup ∧
      (∀ st c1, c.step st = some c1 → ∀ t ∈ c.mem.s_threads_list,
        t.owner ∉ owners c1.mem.s_threads_list → c.mayFree st t) := by
  have hi : c.Inv := Sys.Inv.inv_init.inv_exec steps h
  have hl : c.Ledger := Sys.Ledger.ledger_init.ledger_exec Sys.Inv.inv_init steps h
  exact ⟨hi.deletes_live, hl, hi.owners_nodup, fun st c1 hs t ht hg => hi.freed_by st hs t ht hg⟩

/-- Witness for `no_double_free`: a run in which each of the three ways of
freeing an object occurs once. -/
theorem no_double_free_witness :
    Sys.init.execFresh run_all = some cfg_all ∧
      ((∀ p, Event.delete p false ∉ cfg_all.mem.trace) ∧
        replay cfg_all.mem.trace [] = some (owners cfg_all.mem.s_threads_list) ∧
        (owners cfg_all.mem.s_threads_list).Nodup ∧
        (∀ st c1, cfg_all.step st = some c1 → ∀ t ∈ cfg_all.mem.s_threads_list,
          t.owner ∉ owners c1.mem.s_threads_list → cfg_all.mayFree st t)) :=
  ⟨by decide, no_double_free run_all cfg_all (by decide)⟩

/-- C6 (counterexample): task 9 joins A and is suspended; A exits and notifies
task 9; before task 9 resumes, A is detached and thread B is created, whose
task gets the handle 7 of the finished task of A.  The exit section of B looks
up handle 7, finds the object of A first, sees it detached and deletes it; the
resumption of task 9 then applies `pthread_delete` to the same address, which
is no longer registered: the object of A is freed twice, and the object of B
stays registered for ever. -/
theorem double_free_with_reused_handle :
    (Sys.init.exec run_reuse).map
        (fun c => (c.mem.s_threads_list,
          c.mem.trace.filter (fun e => decide (e = .insert 200 ∨ e = .insert 300 ∨
            e = .delete 200 true ∨ e = .delete 200 false)),
          replay c.mem.trace [])) =
      some ([new_pthread 300 7],
        [.insert 200, .insert 300, .delete 200 true, .delete 200 false], none) ∧
      (Sys.init.execFresh run_reuse).isSome = false := by
  decide

/-! ## Joining a thread that has exited -/

/-- In a reachable configuration, a join on a registered object in state
`PTHREAD_TASK_STATE_EXIT` by a task other than the one of that object deletes
the object; whether the call then returns `0` or suspends in the wait of line
237 is decided by the word that the test of line 236 loads from the freed
block. -/
theorem pthread_join_exited (c : Sys) (hi : c.Inv) (cur : TaskHandle_t) (thread : pthread_t)
    (retval : Bool) (stale t : esp_pthread_t)
    (hl : lookup c.mem.s_threads_list thread = some t)
    (hs : t.state = PTHREAD_TASK_STATE_EXIT) (hne : t.value ≠ cur) :
    (pthread_join c.mem cur thread retval stale).1.s_threads_list =
        uxListRemove c.mem.s_threads_list thread ∧
      (pthread_join c.mem cur thread retval stale).1.notified = c.mem.notified ∧
      Event.load thread .join_task false ∈
        (pthread_join c.mem cur thread retval stale).1.since c.mem ∧
      (stale.join_task = 0 →
        (pthread_join c.mem cur thread retval stale).2 = .returned 0 ∧
        Event.wait ∉ (pthread_join c.mem cur thread retval stale).1.since c.mem) ∧
      (stale.join_task ≠ 0 →
        (pthread_join c.mem cur thread retval stale).2 = .waiting ∧
        Event.wait ∈ (pthread_join c.mem cur thread retval stale).1.since c.mem) := by
  obtain ⟨htm, _⟩ := lookup_some_mem hl
  obtain ⟨hj, hnr⟩ := hi.exited t htm hs
  have hv := hi.values_ne t htm
  have hm : ∀ a, pthread_find c.mem.s_threads_list cur = some a → a.join_task ≠ t.value := by
    intro a ha e
    obtain ⟨ham, _⟩ := pthread_find_some_mem ha
    obtain ⟨b, hb, hbt, _⟩ := hi.waiter a ham (by rw [e]; exact hv)
    apply hnr
    have := hi.blocked_alive b hb (by rw [hbt, e]; exact mem_values_of_mem htm)
    rw [hbt, e] at this
    exact this
  have hst : t.state ≠ PTHREAD_TASK_STATE_RUN := by rw [hs]; decide
  rw [pthread_join_reclaim c.mem cur thread retval stale t hi.owners_nodup hl hv hj hne hm hst]
  by_cases hz : stale.join_task = 0
  · rw [if_neg (not_not.mpr hz)]
    refine ⟨rfl, rfl, ?_, ?_, fun h => absurd hz h⟩
    · simp [Mem.since]
    · intro _
      refine ⟨rfl, ?_⟩
      unfold mutual_check_events
      cases pthread_find c.mem.s_threads_list cur <;> cases retval <;> simp [Mem.since]
  · rw [if_pos hz]
    refine ⟨rfl, rfl, ?_, fun h => absurd h hz, ?_⟩
    · simp [Mem.since]
    · intro _
      exact ⟨rfl, by simp [Mem.since]⟩

/-- C4 (the code at the failing input): thread A has exited and is not detached
(the configuration is reached by `create` and the exit section of A); task 9
joins A.  The object is removed from the registry, every load and the delete
before the unlock are on the registered object, but the load of line 236 is on
the freed block, and with the block filled by the allocator the call is
suspended in the wait of line 237 instead of returning `0`. -/
theorem pthread_join_exited_reads_freed_block :
    (Sys.init.execFresh [.create 9 false 100 200 pdPASS 7, .exit 7]).map
        (fun c => c.mem.s_threads_list) = some [tcbA_exited] ∧
      pthread_join (memOf [tcbA_exited]) 9 200 false poisoned =
        ({ s_threads_list := [], notified := [],
           trace := [.take, .scan, .load 200 .join_task true, .scan, .load 200 .state true,
             .delete 200 true, .give, .load 200 .join_task false, .wait] }, .waiting) ∧
      (pthread_join (memOf [tcbA_exited]) 9 200 false zeroed).2 = .returned 0 := by
  decide

/-- C1 (the code at the failing input): from the empty registry, task 9 creates
A without attributes, the exit section of A runs, then task 9 joins A.  When
the freed block reads as zero the join returns `0` and the registry is empty;
when the allocator has filled the freed block, the registry is empty but the
join has not returned: task 9 is suspended in the wait of line 237, nothing is
notified, and its resumption is not possible.  In the other interleaving
(join first, then the exit section, then the resumption) both calls return
`0` and the registry is empty whatever the freed block holds. -/
theorem create_exit_join_depends_on_freed_block :
    (Sys.init.execFresh (run_exit_then_join zeroed)).map
        (fun c => (c.mem.s_threads_list, c.blocked, returns c.mem.trace)) =
        some ([], [], [0, 0]) ∧
      (Sys.init.execFresh (run_exit_then_join poisoned)).map
        (fun c => (c.mem.s_threads_list, c.blocked, c.mem.notified, returns c.mem.trace,
          (c.step (.wake 9)).isSome)) =
        some ([], [⟨9, 200, false⟩], [], [0], false) ∧
      (Sys.init.execFresh (run_join_then_exit zeroed)).map
        (fun c => (c.mem.s_threads_list, c.blocked, returns c.mem.trace)) =
        some ([], [], [0, 0]) ∧
      (Sys.init.execFresh (run_join_then_exit poisoned)).map
        (fun c => (c.mem.s_threads_list, c.blocked, returns c.mem.trace)) =
        some ([], [], [0, 0]) :=
  ⟨by decide, by decide, by decide, by decide⟩

/-- C5 (the code at the failing input): `pthread_detach` never removes an
object, whatever its state: the addresses registered after the call are those
registered before.  After two rounds of create, exit of the new thread and
detach of its handle, starting from the empty registry, both calls of
`pthread_detach` have returned `0` and both objects are still registered, in
state `PTHREAD_TASK_STATE_EXIT` and detached; each further round adds one. -/
theorem pthread_detach_leaks_exited :
    (∀ s thread, owners (pthread_detach s thread).1.s_threads_list = owners s.s_threads_list) ∧
      (pthread_detach (memOf [tcbA_exited]) 200).2 = 0 ∧
      (pthread_detach (memOf [tcbA_exited]) 200).1.s_threads_list =
        [{ tcbA_exited with detached := true }] ∧
      (Sys.init.execFresh (detach_round 200 7 ++ detach_round 300 8)).map
        (fun c => (c.mem.s_threads_list, returns c.mem.trace)) =
        some ([{ owner := 200, value := 7, join_task := 0, state := 1, detached := true },
               { owner := 300, value := 8, join_task := 0, state := 1, detached := true }],
              [0, 0, 0, 0]) ∧
      (Sys.init.execFresh (detach_round 200 7 ++ detach_round 300 8 ++ detach_round 400 6)).map
        (fun c => c.mem.s_threads_list.length) = some 3 := by
  refine ⟨?_, by decide, by decide, by decide, by decide⟩
  intro s thread
  unfold pthread_detach
  simp only [Mem.emit]
  split_ifs
  · rfl
  · exact owners_update _ _ _ (fun _ => rfl)


/-! ## Failing and rejected calls of `pthread_create` -/

/-- C11: when `pthread_create` is called without attributes and the allocation
of the argument box fails, or the allocation of the object fails, or
`xTaskCreate` does not return `pdPASS`, the return value is `ENOMEM` if one of
the allocations failed or `xTaskCreate` returned
`errCOULD_NOT_ALLOCATE_REQUIRED_MEMORY`, and `EAGAIN` for every other result of
`xTaskCreate`; nothing is stored through `thread`, the registry and the
notification flags are unchanged, and the call performs no insertion, no
notification and no store of the handle. -/
theorem pthread_create_failure (s : Mem) (task_arg : Nat) (pthread : pthread_t) (res : Int)
    (xHandle : TaskHandle_t) (h : task_arg = 0 ∨ pthread = 0 ∨ res ≠ pdPASS) :
    (pthread_create s false task_arg pthread res xHandle).2.ret =
        (if task_arg = 0 ∨ pthread = 0 ∨ res = errCOULD_NOT_ALLOCATE_REQUIRED_MEMORY
          then ENOMEM else EAGAIN) ∧
      (pthread_create s false task_arg pthread res xHandle).2.thread = none ∧
      (pthread_create s false task_arg pthread res xHandle).1.s_threads_list =
        s.s_threads_list ∧
      (pthread_create s false task_arg pthread res xHandle).1.notified = s.notified ∧
      (∀ x, Event.notify x ∉ (pthread_create s false task_arg pthread res xHandle).1.since s) ∧
      (∀ p, Event.set_thread p ∉
        (pthread_create s false task_arg pthread res xHandle).1.since s) ∧
      (∀ p, Event.insert p ∉ (pthread_create s false task_arg pthread res xHandle).1.since s) := by
  unfold pthread_create
  by_cases h1 : task_arg = 0
  · simp [h1, Mem.emit, Mem.since]
  · by_cases h2 : pthread = 0
    · simp [h1, h2, Mem.emit, Mem.since]
    · have h3 : res ≠ pdPASS := by
        rcases h with h | h | h
        · exact absurd h h1
        · exact absurd h h2
        · exact h
      by_cases h4 : res = errCOULD_NOT_ALLOCATE_REQUIRED_MEMORY
      · have h5 : ¬ errCOULD_NOT_ALLOCATE_REQUIRED_MEMORY = pdPASS := by decide
        subst h4
        simp [h1, h2, h5, Mem.emit, Mem.since]
      · simp [h1, h2, h3, h4, Mem.emit, Mem.since]

/-- Witness for `pthread_create_failure`: `xTaskCreate` fails with a result that
is not the out-of-memory code. -/
theorem pthread_create_failure_witness :
    ((100 : Nat) = 0 ∨ (300 : pthread_t) = 0 ∨ (0 : Int) ≠ pdPASS) ∧
      ((pthread_create (memOf [tcbA]) false 100 300 0 0).2.ret = EAGAIN ∧
        (pthread_create (memOf [tcbA]) false 100 300 0 0).2.thread = none ∧
        (pthread_create (memOf [tcbA]) false 100 300 0 0).1.s_threads_list = [tcbA] ∧
        (pthread_create (memOf [tcbA]) false 100 300 0 0).1.notified = [] ∧
        (∀ x, Event.notify x ∉
          (pthread_create (memOf [tcbA]) false 100 300 0 0).1.since (memOf [tcbA])) ∧
        (∀ p, Event.set_thread p ∉
          (pthread_create (memOf [tcbA]) false 100 300 0 0).1.since (memOf [tcbA])) ∧
        (∀ p, Event.insert p ∉
          (pthread_create (memOf [tcbA]) false 100 300 0 0).1.since (memOf [tcbA]))) :=
  ⟨by decide, pthread_create_failure (memOf [tcbA]) 100 300 0 0 (by decide)⟩

/-- C12: a call of `pthread_create` with a non-null attribute pointer returns
`EINVAL`; its only effect is the return: no allocation, no task spawned,
nothing stored through `thread`, registry and notification flags unchanged. -/
theorem pthread_create_attr_rejected (s : Mem) (task_arg : Nat) (pthread : pthread_t)
    (res : Int) (xHandle : TaskHandle_t) :
    (pthread_create s true task_arg pthread res xHandle).2 = ⟨EINVAL, none⟩ ∧
      (pthread_create s true task_arg pthread res xHandle).1.since s = [.ret EINVAL] ∧
      (∀ p, Event.alloc p ∉ (pthread_create s true task_arg pthread res xHandle).1.since s) ∧
      (∀ x, Event.spawn x ∉ (pthread_create s true task_arg pthread res xHandle).1.since s) ∧
      (pthread_create s true task_arg pthread res xHandle).1.s_threads_list =
        s.s_threads_list ∧
      (pthread_create s true task_arg pthread res xHandle).1.notified = s.notified := by
  simp [pthread_create, Mem.emit, Mem.since]

/-! ## `pthread_cancel` -/

/-- C13 (as amended): for every handle, `pthread_cancel` changes neither the
registry nor the notification flags; with assertions compiled in it fails its
assertion and does not return, and only with assertions compiled out does it
return, with the value `-1`. -/
theorem pthread_cancel_spec (s : Mem) (asserts : Bool) (thread : pthread_t) :
    (pthread_cancel s asserts thread).1.s_threads_list = s.s_threads_list ∧
      (pthread_cancel s asserts thread).1.notified = s.notified ∧
      (pthread_cancel s asserts thread).2 = (if asserts then none else some (-1)) ∧
      (pthread_cancel s asserts thread).1.since s =
        (if asserts then [Event.abort] else [Event.ret (-1)]) := by
  cases asserts <;> simp [pthread_cancel, Mem.emit, Mem.since]

/-- C13 (counterexample): with assertions compiled in, `pthread_cancel` on the
handle of the registered thread A reaches the failed assertion and returns
nothing to its caller. -/
theorem pthread_cancel_aborts :
    pthread_cancel (memOf [tcbA]) true 200 =
      ({ s_threads_list := [tcbA], notified := [], trace := [.abort] }, none) := by
  decide

/-! ## Keys -/

theorem pthread_key_create_calls_created (s_created : Int) (h : s_created ≠ 0)
    (ds : List Nat) :
    pthread_key_create_calls s_created ds = ds.map (fun _ => ⟨ENOMEM, none⟩) := by
  induction ds with
  | nil => rfl
  | cons d rest ih =>
    simp only [pthread_key_create_calls, pthread_key_create, h, ne_eq, not_false_eq_true,
      if_true, List.map_cons, ih]

/-- C19: in a sequence of calls of `pthread_key_create` that starts with the
static `s_created` still zero, the first call returns `0` and stores the key
`1`, and every later call returns `ENOMEM` and stores nothing, whatever the
destructor arguments are. -/
theorem pthread_key_create_once (d : Nat) (ds : List Nat) :
    pthread_key_create_calls 0 [] = [] ∧
      pthread_key_create_calls 0 (d :: ds) =
        ⟨0, some 1⟩ :: ds.map (fun _ => ⟨ENOMEM, none⟩) := by
  refine ⟨rfl, ?_⟩
  simp only [pthread_key_create_calls, pthread_key_create, ne_eq, not_true_eq_false, if_false]
  rw [pthread_key_create_calls_created 1 (by decide)]


/-! ## One-time execution -/

/-- A call of `pthread_once` on a valid gate whose initializer has already run:
the initializer is not called, the gate is unchanged and the call returns `0`. -/
theorem pthread_once_executed (g : pthread_once_t) (cur_task : TaskHandle_t)
    (hi : g.is_initialized ≠ 0) (he : g.init_executed ≠ 0) :
    (pthread_once (some g) true cur_task true).gate = some g ∧
      (pthread_once (some g) true cur_task true).ret = 0 ∧
      (pthread_once (some g) true cur_task true).trace.count .init = 0 := by
  by_cases hc : cur_task = 0 <;> simp [pthread_once, hi, he, hc]

/-- A call of `pthread_once` on a valid gate whose initializer has not run: the
initializer is called once, the flag is set and the call returns `0`. -/
theorem pthread_once_first (g : pthread_once_t) (cur_task : TaskHandle_t)
    (hi : g.is_initialized ≠ 0) (he : g.init_executed = 0) :
    (pthread_once (some g) true cur_task true).gate = some { g with init_executed := 1 } ∧
      (pthread_once (some g) true cur_task true).ret = 0 ∧
      (pthread_once (some g) true cur_task true).trace.count .init = 1 := by
  by_cases hc : cur_task = 0 <;> simp [pthread_once, hi, he, hc]

theorem pthread_once_calls_executed (g : pthread_once_t) (calls : List TaskHandle_t)
    (hi : g.is_initialized ≠ 0) (he : g.init_executed ≠ 0) :
    (pthread_once_calls g calls).map (fun r => (r.ret, r.gate, r.trace.count .init)) =
      calls.map (fun _ => (0, some g, 0)) := by
  induction calls with
  | nil => rfl
  | cons c rest ih =>
    obtain ⟨h1, h2, h3⟩ := pthread_once_executed g c hi he
    simp only [pthread_once_calls, List.map_cons, h1, h2, h3, Option.getD_some, ih]

/-- C17: on a gate whose initialized flag is set and whose executed flag is
clear, in every finite sequence of calls of `pthread_once` with non-null
initializers, made one after the other by tasks or without a current task and
each getting the lock when it asks for it: every call returns `0` and leaves
the executed flag set; the first call invokes the initializer once and no
later call invokes it, so that it is invoked exactly once in total. -/
theorem pthread_once_exactly_once (g : pthread_once_t) (c : TaskHandle_t)
    (rest : List TaskHandle_t) (hi : g.is_initialized ≠ 0) (he : g.init_executed = 0) :
    (pthread_once_calls g (c :: rest)).map (fun r => (r.ret, r.gate, r.trace.count .init)) =
        (0, some { g with init_executed := 1 }, 1) ::
          rest.map (fun _ => (0, some { g with init_executed := 1 }, 0)) ∧
      init_count (pthread_once_calls g (c :: rest)) = 1 ∧
      (∀ r ∈ pthread_once_calls g (c :: rest), r.ret = 0 ∧
        ∃ g1, r.gate = some g1 ∧ g1.init_executed ≠ 0) := by
  have hmain : (pthread_once_calls g (c :: rest)).map
      (fun r => (r.ret, r.gate, r.trace.count .init)) =
      (0, some { g with init_executed := 1 }, 1) ::
        rest.map (fun _ => (0, some { g with init_executed := 1 }, 0)) := by
    obtain ⟨h1, h2, h3⟩ := pthread_once_first g c hi he
    simp only [pthread_once_calls, List.map_cons, h1, h2, h3, Option.getD_some]
    rw [pthread_once_calls_executed { g with init_executed := 1 } rest hi (by simp)]
  refine ⟨hmain, ?_, ?_⟩
  · have hc : (pthread_once_calls g (c :: rest)).map (fun r => r.trace.count .init) =
        ((pthread_once_calls g (c :: rest)).map
          (fun r => (r.ret, r.gate, r.trace.count .init))).map (fun x => x.2.2) := by
      simp [List.map_map, Function.comp_def]
    unfold init_count
    rw [hc, hmain]
    simp
  · intro r hr
    have hm : (r.ret, r.gate, r.trace.count .init) ∈
        (pthread_once_calls g (c :: rest)).map (fun r => (r.ret, r.gate, r.trace.count .init)) :=
      List.mem_map_of_mem _ hr
    rw [hmain] at hm
    simp only [List.mem_cons, List.mem_map, Prod.mk.injEq] at hm
    rcases hm with ⟨h1, h2, _⟩ | ⟨_, _, h1, h2, _⟩
    · exact ⟨h1, _, h2, by simp⟩
    · exact ⟨h1.symm, _, h2.symm, by simp⟩

/-- Witness for `pthread_once_exactly_once`: three calls on `PTHREAD_ONCE_INIT`,
the first without a current task, then by tasks 7 and 8. -/
theorem pthread_once_exactly_once_witness :
    PTHREAD_ONCE_INIT.is_initialized ≠ 0 ∧ PTHREAD_ONCE_INIT.init_executed = 0 ∧
      ((pthread_once_calls PTHREAD_ONCE_INIT (0 :: [7, 8])).map
          (fun r => (r.ret, r.gate, r.trace.count .init)) =
          (0, some { PTHREAD_ONCE_INIT with init_executed := 1 }, 1) ::
            [7, 8].map (fun _ => (0, some { PTHREAD_ONCE_INIT with init_executed := 1 }, 0)) ∧
        init_count (pthread_once_calls PTHREAD_ONCE_INIT (0 :: [7, 8])) = 1 ∧
        (∀ r ∈ pthread_once_calls PTHREAD_ONCE_INIT (0 :: [7, 8]), r.ret = 0 ∧
          ∃ g1, r.gate = some g1 ∧ g1.init_executed ≠ 0)) :=
  ⟨by decide, rfl, pthread_once_exactly_once PTHREAD_ONCE_INIT 0 [7, 8] (by decide) rfl⟩

/-- C18: `pthread_once` returns `EINVAL` exactly when the gate pointer is null,
the initializer is null, or the initialized flag of the gate is zero; it then
performs nothing but the return (no call of the initializer, no take of the
lock) and leaves the gate as it is.  A gate holding `PTHREAD_ONCE_INIT`, and
more generally any gate whose initialized flag is set, is not rejected when the
initializer is not null. -/
theorem pthread_once_einval_iff (once_control : Option pthread_once_t) (init_routine : Bool)
    (cur_task : TaskHandle_t) (taken : Bool) :
    ((pthread_once once_control init_routine cur_task taken).ret = EINVAL ↔
        (once_control = none ∨ init_routine = false ∨
          ∃ g, once_control = some g ∧ g.is_initialized = 0)) ∧
      ((pthread_once once_control init_routine cur_task taken).ret ≠ EINVAL ∨
        ((pthread_once once_control init_routine cur_task taken).trace = [.ret EINVAL] ∧
          (pthread_once once_control init_routine cur_task taken).gate = once_control)) ∧
      (pthread_once (some PTHREAD_ONCE_INIT) true cur_task taken).ret ≠ EINVAL := by
  have hb : EBUSY ≠ EINVAL := by decide
  have hz : (0 : Int) ≠ EINVAL := by decide
  refine ⟨?_, ?_, ?_⟩
  · cases once_control with
    | none => simp [pthread_once]
    | some g =>
      by_cases h1 : init_routine = false
      · simp [pthread_once, h1]
      · by_cases h2 : g.is_initialized = 0
        · simp [pthread_once, h2]
        · by_cases h3 : cur_task = 0 ∨ taken = true
          · simp only [pthread_once, h1, h2, h3, or_self, if_false, if_true]
            simp [h1, h2, hz]
          · simp only [pthread_once, h1, h2, h3, or_self, if_false]
            simp [h1, h2, hb]
  · cases once_control with
    | none => simp [pthread_once]
    | some g =>
      by_cases h1 : init_routine = false
      · simp [pthread_once, h1]
      · by_cases h2 : g.is_initialized = 0
        · simp [pthread_once, h2]
        · by_cases h3 : cur_task = 0 ∨ taken = true
          · left
            simp only [pthread_once, h1, h2, h3, or_self, if_false, if_true]
            exact hz
          · left
            simp only [pthread_once, h1, h2, h3, or_self, if_false]
            exact hb
  · by_cases h3 : cur_task = 0 ∨ taken = true
    · simp only [pthread_once, PTHREAD_ONCE_INIT, h3, if_true]
      simp [hz]
    · simp only [pthread_once, PTHREAD_ONCE_INIT, h3, if_false]
      simp [hb]


/-! ## Mutexes -/

theorem pthread_mutex_init_recursive (mux sem : Nat) (hmux : mux ≠ 0) (hsem : sem ≠ 0) :
    pthread_mutex_init true (some (mutexattr PTHREAD_MUTEX_RECURSIVE)) mux sem =
      ⟨0, some mux, some (mutex_unlocked PTHREAD_MUTEX_RECURSIVE),
        [.alloc mux, .create true sem, .set_mutex mux, .ret 0]⟩ := by
  simp [pthread_mutex_init, pthread_mutex_init_alloc, mutexattr, mutexattr_check,
    mutex_unlocked, hmux, hsem, PTHREAD_MUTEX_RECURSIVE, PTHREAD_MUTEX_NORMAL]

theorem pthread_mutex_lock_unlocked (t : TaskHandle_t) :
    pthread_mutex_lock (some (mutex_unlocked PTHREAD_MUTEX_RECURSIVE)) t =
      ⟨some (recursive_held t 1), some 0⟩ := by
  simp [pthread_mutex_lock, pthread_mutex_lock_internal, xSemaphoreTakeRecursive,
    mutex_unlocked, recursive_held, Semaphore.unlocked]

theorem pthread_mutex_lock_held (t : TaskHandle_t) (d : Nat) (ht : t ≠ 0) :
    pthread_mutex_lock (some (recursive_held t d)) t =
      ⟨some (recursive_held t (d + 1)), some 0⟩ := by
  simp [pthread_mutex_lock, pthread_mutex_lock_internal, xSemaphoreTakeRecursive,
    recursive_held, ht]

theorem pthread_mutex_trylock_held_other (t u : TaskHandle_t) (d : Nat) (ht : t ≠ 0)
    (htu : t ≠ u) :
    pthread_mutex_trylock (some (recursive_held t d)) u =
      ⟨some (recursive_held t d), some EBUSY⟩ := by
  have hp : ¬ (0 : Nat) = portMAX_DELAY := by decide
  simp [pthread_mutex_trylock, pthread_mutex_lock_internal, xSemaphoreTakeRecursive,
    recursive_held, ht, htu, hp]

theorem pthread_mutex_unlock_held (t : TaskHandle_t) (d : Nat) :
    pthread_mutex_unlock (some (recursive_held t (d + 2))) t =
      ⟨some (recursive_held t (d + 1)), some 0⟩ := by
  simp [pthread_mutex_unlock, xSemaphoreGiveRecursive, recursive_held]

theorem pthread_mutex_unlock_last (t : TaskHandle_t) :
    pthread_mutex_unlock (some (recursive_held t 1)) t =
      ⟨some (mutex_unlocked PTHREAD_MUTEX_RECURSIVE), some 0⟩ := by
  simp [pthread_mutex_unlock, xSemaphoreGiveRecursive, recursive_held, mutex_unlocked]

theorem lock_times_held (t : TaskHandle_t) (ht : t ≠ 0) (d n : Nat) :
    lock_times (some (recursive_held t d)) t n =
      (List.replicate n (some 0), some (recursive_held t (d + n))) := by
  induction n generalizing d with
  | zero => rfl
  | succ n ih =>
    simp only [lock_times, pthread_mutex_lock_held t d ht, ih (d + 1), List.replicate_succ]
    rw [Nat.add_assoc, Nat.add_comm 1 n]

theorem lock_times_unlocked (t : TaskHandle_t) (ht : t ≠ 0) (n : Nat) :
    lock_times (some (mutex_unlocked PTHREAD_MUTEX_RECURSIVE)) t (n + 1) =
      (List.replicate (n + 1) (some 0), some (recursive_held t (n + 1))) := by
  simp only [lock_times, pthread_mutex_lock_unlocked, lock_times_held t ht 1 n,
    List.replicate_succ]
  rw [Nat.add_comm 1 n]

theorem unlock_times_held (t : TaskHandle_t) (d j : Nat) :
    unlock_times (some (recursive_held t (d + 1 + j))) t j = some (recursive_held t (d + 1)) := by
  induction j with
  | zero => rfl
  | succ j ih =>
    have : d + 1 + (j + 1) = (d + j) + 2 := by omega
    rw [this]
    simp only [unlock_times, pthread_mutex_unlock_held]
    have : d + j + 1 = d + 1 + j := by omega
    rw [this]
    exact ih

theorem unlock_times_all (t : TaskHandle_t) (k : Nat) :
    unlock_times (some (recursive_held t (k + 1))) t (k + 1) =
      some (mutex_unlocked PTHREAD_MUTEX_RECURSIVE) := by
  induction k with
  | zero => simp only [unlock_times, Nat.zero_add, pthread_mutex_unlock_last]
  | succ k ih =>
    simp only [unlock_times, pthread_mutex_unlock_held] at ih ⊢
    exact ih


/-- C15: for a mutex created by `pthread_mutex_init` with an attribute of type
`PTHREAD_MUTEX_RECURSIVE`, and every `K ≥ 1`: `K` consecutive calls of
`pthread_mutex_lock` by task `t` all return `0`; after `j < K` calls of
`pthread_mutex_unlock` by `t` the mutex is held by `t` at depth `K - j`, and
`pthread_mutex_trylock` by another task `u` returns `EBUSY` and leaves holder
and depth as they are; after `K` unlocks `pthread_mutex_trylock` by `u` returns
`0` and `u` holds the mutex. -/
theorem recursive_mutex_lock_count (mux sem : Nat) (t u : TaskHandle_t) (K : Nat)
    (hmux : mux ≠ 0) (hsem : sem ≠ 0) (ht : t ≠ 0) (htu : t ≠ u) (hK : 1 ≤ K) :
    (pthread_mutex_init true (some (mutexattr PTHREAD_MUTEX_RECURSIVE)) mux sem).ret = 0 ∧
      (lock_times (pthread_mutex_init true (some (mutexattr PTHREAD_MUTEX_RECURSIVE))
        mux sem).object t K).1 = List.replicate K (some 0) ∧
      (∀ j, j < K →
        unlock_times (lock_times (pthread_mutex_init true
            (some (mutexattr PTHREAD_MUTEX_RECURSIVE)) mux sem).object t K).2 t j =
          some (recursive_held t (K - j)) ∧
        pthread_mutex_trylock (unlock_times (lock_times (pthread_mutex_init true
            (some (mutexattr PTHREAD_MUTEX_RECURSIVE)) mux sem).object t K).2 t j) u =
          ⟨some (recursive_held t (K - j)), some EBUSY⟩) ∧
      pthread_mutex_trylock (unlock_times (lock_times (pthread_mutex_init true
          (some (mutexattr PTHREAD_MUTEX_RECURSIVE)) mux sem).object t K).2 t K) u =
        ⟨some (recursive_held u 1), some 0⟩ := by
  obtain ⟨k, rfl⟩ : ∃ k, K = k + 1 := ⟨K - 1, by omega⟩
  rw [pthread_mutex_init_recursive mux sem hmux hsem]
  simp only [lock_times_unlocked t ht k]
  refine ⟨trivial, trivial, ?_, ?_⟩
  · intro j hj
    have h1 : k + 1 = (k - j) + 1 + j := by omega
    have h2 : k + 1 - j = (k - j) + 1 := by omega
    have hu : unlock_times (some (recursive_held t (k + 1))) t j =
        some (recursive_held t (k + 1 - j)) := by
      rw [h2]
      conv_lhs => rw [h1]
      exact unlock_times_held t (k - j) j
    rw [hu]
    exact ⟨rfl, pthread_mutex_trylock_held_other t u _ ht htu⟩
  · rw [unlock_times_all]
    simp [pthread_mutex_trylock, pthread_mutex_lock_internal, xSemaphoreTakeRecursive,
      mutex_unlocked, recursive_held, Semaphore.unlocked]

/-- Witness for `recursive_mutex_lock_count`: task 7 locks three times, task 8
tries. -/
theorem recursive_mutex_lock_count_witness :
    (500 : Nat) ≠ 0 ∧ (600 : Nat) ≠ 0 ∧ (7 : TaskHandle_t) ≠ 0 ∧ (7 : TaskHandle_t) ≠ 8 ∧
      1 ≤ 3 ∧
      ((pthread_mutex_init true (some (mutexattr PTHREAD_MUTEX_RECURSIVE)) 500 600).ret = 0 ∧
        (lock_times (pthread_mutex_init true (some (mutexattr PTHREAD_MUTEX_RECURSIVE))
          500 600).object 7 3).1 = List.replicate 3 (some 0) ∧
        (∀ j, j < 3 →
          unlock_times (lock_times (pthread_mutex_init true
              (some (mutexattr PTHREAD_MUTEX_RECURSIVE)) 500 600).object 7 3).2 7 j =
            some (recursive_held 7 (3 - j)) ∧
          pthread_mutex_trylock (unlock_times (lock_times (pthread_mutex_init true
              (some (mutexattr PTHREAD_MUTEX_RECURSIVE)) 500 600).object 7 3).2 7 j) 8 =
            ⟨some (recursive_held 7 (3 - j)), some EBUSY⟩) ∧
        pthread_mutex_trylock (unlock_times (lock_times (pthread_mutex_init true
            (some (mutexattr PTHREAD_MUTEX_RECURSIVE)) 500 600).object 7 3).2 7 3) 8 =
          ⟨some (recursive_held 8 1), some 0⟩) :=
  ⟨by decide, by decide, by decide, by decide, by decide,
    recursive_mutex_lock_count 500 600 7 8 3 (by decide) (by decide) (by decide) (by decide)
      (by decide)⟩

/-- The outcome of `pthread_mutex_destroy` called by task `cur`: the mutex is
left alone and `EBUSY` is returned when it is held, unless it is a recursive
mutex held by `cur` itself; in every other case it is destroyed. -/
theorem pthread_mutex_destroy_cases (mux : esp_pthread_mutex_t) (cur : TaskHandle_t) :
    pthread_mutex_destroy (some mux) cur =
      if mux.sem.holder ≠ 0 ∧ ¬ (mux.type = PTHREAD_MUTEX_RECURSIVE ∧ mux.sem.holder = cur)
      then ⟨some mux, some EBUSY⟩ else ⟨none, some 0⟩ := by
  have hp : ¬ (0 : Nat) = portMAX_DELAY := by decide
  have hb : ¬ (0 : Int) = EBUSY := by decide
  by_cases hr : mux.type = PTHREAD_MUTEX_RECURSIVE
  · by_cases h0 : mux.sem.holder = 0
    · simp [pthread_mutex_destroy, pthread_mutex_lock_internal, xSemaphoreTakeRecursive, hr,
        h0, hb]
    · by_cases hc : mux.sem.holder = cur
      · subst hc
        simp [pthread_mutex_destroy, pthread_mutex_lock_internal, xSemaphoreTakeRecursive,
          hr, h0, hb]
      · simp [pthread_mutex_destroy, pthread_mutex_lock_internal, xSemaphoreTakeRecursive,
          hr, h0, hc, hp]
  · by_cases h0 : mux.sem.holder = 0
    · simp [pthread_mutex_destroy, pthread_mutex_lock_internal, xSemaphoreTake, hr, h0, hb]
    · simp [pthread_mutex_destroy, pthread_mutex_lock_internal, xSemaphoreTake, hr, h0, hp]

/-- C14 (the code at the failing input): task 7 creates a recursive mutex and
locks it once, so that it holds it at depth 1; `pthread_mutex_destroy` called
by task 7 takes the semaphore once more, which a recursive semaphore grants to
its holder, and goes on to delete the semaphore and free the object: it
returns `0` and no object is left, although the mutex is held.  A normal mutex
held by the caller, and a recursive mutex held by another task, are refused
with `EBUSY` and left as they are; a mutex that is not held is destroyed. -/
theorem pthread_mutex_destroy_held_by_caller :
    (pthread_mutex_lock (pthread_mutex_init true (some (mutexattr PTHREAD_MUTEX_RECURSIVE))
        500 600).object 7).mutex = some (recursive_held 7 1) ∧
      pthread_mutex_destroy (some (recursive_held 7 1)) 7 = ⟨none, some 0⟩ ∧
      pthread_mutex_destroy (some (recursive_held 7 1)) 8 =
        ⟨some (recursive_held 7 1), some EBUSY⟩ ∧
      pthread_mutex_destroy
          (some { sem := { holder := 7, depth := 1 }, type := PTHREAD_MUTEX_NORMAL }) 7 =
        ⟨some { sem := { holder := 7, depth := 1 }, type := PTHREAD_MUTEX_NORMAL },
          some EBUSY⟩ ∧
      pthread_mutex_destroy (some (mutex_unlocked PTHREAD_MUTEX_RECURSIVE)) 7 =
        ⟨none, some 0⟩ ∧
      pthread_mutex_destroy (some (mutex_unlocked PTHREAD_MUTEX_NORMAL)) 7 = ⟨none, some 0⟩ := by
  decide

/-- C16 (as amended): when `pthread_mutex_init` is called with a non-null
`mutex` and a null or valid attribute object, a failed allocation of the mutex
object is reported as `ENOMEM` and a failed creation of the semaphore as
`EAGAIN`; in both cases nothing is stored through `mutex`, no object is left
and no block or semaphore is leaked. -/
theorem pthread_mutex_init_alloc_failure (attr : Option pthread_mutexattr_t) (mux sem : Nat)
    (hattr : ∀ a, attr = some a → a.is_initialized ≠ 0 ∧ mutexattr_check a = 0)
    (hfail : mux = 0 ∨ sem = 0) :
    (pthread_mutex_init true attr mux sem).ret = (if mux = 0 then ENOMEM else EAGAIN) ∧
      (pthread_mutex_init true attr mux sem).mutex = none ∧
      (pthread_mutex_init true attr mux sem).object = none ∧
      leaked (pthread_mutex_init true attr mux sem).trace = [] ∧
      (∀ p, MutexEvent.set_mutex p ∉ (pthread_mutex_init true attr mux sem).trace) := by
  have hbody : ∀ type, (pthread_mutex_init_alloc type mux sem).ret =
        (if mux = 0 then ENOMEM else EAGAIN) ∧
      (pthread_mutex_init_alloc type mux sem).mutex = none ∧
      (pthread_mutex_init_alloc type mux sem).object = none ∧
      leaked (pthread_mutex_init_alloc type mux sem).trace = [] ∧
      (∀ p, MutexEvent.set_mutex p ∉ (pthread_mutex_init_alloc type mux sem).trace) := by
    intro type
    by_cases h1 : mux = 0
    · simp [pthread_mutex_init_alloc, h1, leaked]
    · have h2 : sem = 0 := hfail.resolve_left h1
      simp [pthread_mutex_init_alloc, h1, h2, leaked]
  cases attr with
  | none => exact hbody _
  | some a =>
    obtain ⟨ha1, ha2⟩ := hattr a rfl
    simp only [pthread_mutex_init, ha1, ha2, ne_eq, not_true_eq_false, if_false,
      Bool.true_eq_false]
    exact hbody _

/-- Witness for `pthread_mutex_init_alloc_failure`: the creation of the semaphore of a
recursive mutex fails. -/
theorem pthread_mutex_init_alloc_failure_witness :
    (∀ a, some (mutexattr PTHREAD_MUTEX_RECURSIVE) = some a →
        a.is_initialized ≠ 0 ∧ mutexattr_check a = 0) ∧
      ((500 : Nat) = 0 ∨ (0 : Nat) = 0) ∧
      ((pthread_mutex_init true (some (mutexattr PTHREAD_MUTEX_RECURSIVE)) 500 0).ret =
          EAGAIN ∧
        (pthread_mutex_init true (some (mutexattr PTHREAD_MUTEX_RECURSIVE)) 500 0).mutex =
          none ∧
        (pthread_mutex_init true (some (mutexattr PTHREAD_MUTEX_RECURSIVE)) 500 0).object =
          none ∧
        leaked (pthread_mutex_init true (some (mutexattr PTHREAD_MUTEX_RECURSIVE)) 500
          0).trace = [] ∧
        (∀ p, MutexEvent.set_mutex p ∉
          (pthread_mutex_init true (some (mutexattr PTHREAD_MUTEX_RECURSIVE)) 500 0).trace)) :=
  ⟨by intro a h; cases h; decide, by decide,
    pthread_mutex_init_alloc_failure (some (mutexattr PTHREAD_MUTEX_RECURSIVE)) 500 0
      (by intro a h; cases h; decide) (by decide)⟩

/-- C16 (counterexample): the mutex object is allocated (block 500) and the
creation of the semaphore fails: `pthread_mutex_init` returns `EAGAIN`, not
`ENOMEM`. -/
theorem pthread_mutex_init_semaphore_failure_is_eagain :
    pthread_mutex_init true none 500 0 =
        ⟨EAGAIN, none, none, [.alloc 500, .create false 0, .dealloc 500, .ret EAGAIN]⟩ ∧
      EAGAIN ≠ ENOMEM := by
  decide


/-- C20: the exit section of `pthread_task_func`, run by task `cur` whose
registered object (the result of `pthread_find`) is `t`, does exactly one of
three things.  If `t` is detached it removes `t` from the registry and sends
no notification.  Otherwise, if `t` records a join-waiter, it sends one
notification, to that waiter, and leaves the registry as it is, so `t` stays
registered with the state it had.  Otherwise it stores
`PTHREAD_TASK_STATE_EXIT` in the state of `t` and leaves `t` registered.  In
every case the objects at all other addresses are unchanged. -/
theorem pthread_task_func_exit_spec (s : Mem) (cur : TaskHandle_t) (t : esp_pthread_t)
    (hnd : (owners s.s_threads_list).Nodup)
    (hf : pthread_find s.s_threads_list cur = some t) :
    (pthread_task_func_exit s cur).s_threads_list =
        (if t.detached then uxListRemove s.s_threads_list t.owner
          else if t.join_task ≠ 0 then s.s_threads_list
          else update s.s_threads_list t.owner
            (fun x => { x with state := PTHREAD_TASK_STATE_EXIT })) ∧
      lookup (pthread_task_func_exit s cur).s_threads_list t.owner =
        (if t.detached then none
          else if t.join_task ≠ 0 then some t
          else some { t with state := PTHREAD_TASK_STATE_EXIT }) ∧
      (∀ q, q ≠ t.owner →
        lookup (pthread_task_func_exit s cur).s_threads_list q = lookup s.s_threads_list q) ∧
      owners (pthread_task_func_exit s cur).s_threads_list =
        (if t.detached then (owners s.s_threads_list).erase t.owner
          else owners s.s_threads_list) ∧
      (pthread_task_func_exit s cur).since s =
        [.take, .scan, .load t.owner .detached true] ++
          (if t.detached then [Event.delete t.owner true]
            else if t.join_task ≠ 0 then
              [.load t.owner .join_task true, .notify t.join_task]
            else [.load t.owner .join_task true, .store t.owner .state true]) ++
          [.give, .task_delete] ∧
      (pthread_task_func_exit s cur).notified =
        (if t.detached = false ∧ t.join_task ≠ 0 ∧ t.join_task ∉ s.notified
          then s.notified ++ [t.join_task] else s.notified) := by
  have hl : lookup s.s_threads_list t.owner = some t :=
    lookup_of_mem_nodup hnd (pthread_find_some_mem hf).1
  have hreg : registered s.s_threads_list t.owner = true := by
    simp [registered, hl]
  by_cases hd : t.detached = true
  · rw [pthread_task_func_exit_detached s cur t hf hd, hreg]
    refine ⟨?_, ?_, fun q hq => lookup_uxListRemove_other hq, ?_, ?_, ?_⟩
    · rw [if_pos hd]
    · rw [if_pos hd]
      exact lookup_uxListRemove_self hnd
    · rw [if_pos hd]
      exact owners_uxListRemove _ _
    · rw [if_pos hd]
      simp [Mem.since]
    · simp [hd]
  · have hd0 : t.detached = false := by simpa using hd
    by_cases hj : t.join_task = 0
    · have hj2 : ¬ t.join_task ≠ 0 := fun h => h hj
      rw [pthread_task_func_exit_mark s cur t hf hd0 hj, hreg]
      refine ⟨?_, ?_, fun q hq => lookup_update_other _ (fun _ => rfl) hq, ?_, ?_, ?_⟩
      · rw [if_neg hd, if_neg hj2]
      · rw [if_neg hd, if_neg hj2]
        exact lookup_update_self _ (fun _ => rfl) hl
      · rw [if_neg hd]
        show owners (update _ _ _) = _
        rw [owners_update]
        intro x
        rfl
      · rw [if_neg hd, if_neg hj2]
        simp [Mem.since]
      · simp [hj]
    · rw [pthread_task_func_exit_notify s cur t hf hd0 hj]
      refine ⟨?_, ?_, fun q _ => rfl, ?_, ?_, ?_⟩
      · rw [if_neg hd, if_pos hj]
      · rw [if_neg hd, if_pos hj]
        exact hl
      · rw [if_neg hd]
      · rw [if_neg hd, if_pos hj]
        simp [Mem.since]
      · by_cases hm : t.join_task ∈ s.notified <;> simp [hm, hd0, hj]

/-- Witness for `pthread_task_func_exit_spec`: threads A and B are registered and task 8,
the task of B, runs its exit section. -/
theorem pthread_task_func_exit_spec_witness :
    (owners (memOf [tcbA, tcbB]).s_threads_list).Nodup ∧
      pthread_find (memOf [tcbA, tcbB]).s_threads_list 8 = some tcbB ∧
      (pthread_task_func_exit (memOf [tcbA, tcbB]) 8).s_threads_list =
        [tcbA, { tcbB with state := PTHREAD_TASK_STATE_EXIT }] ∧
      (pthread_task_func_exit (memOf [tcbA, tcbB]) 8).notified = [] :=
  ⟨by decide, by decide,
    ((pthread_task_func_exit_spec (memOf [tcbA, tcbB]) 8 tcbB (by decide) (by decide)).1).trans
      (by decide),
    ((pthread_task_func_exit_spec (memOf [tcbA, tcbB]) 8 tcbB (by decide)
      (by decide)).2.2.2.2.2).trans (by decide)⟩


/-! ## Detached threads and join-waiters -/

theorem mem_update {l : List esp_pthread_t} {p : pthread_t} {x : esp_pthread_t}
    (f : esp_pthread_t → esp_pthread_t) (h : x ∈ update l p f) :
    x ∈ l ∨ ∃ t, lookup l p = some t ∧ x = f t := by
  induction l with
  | nil => simp [update] at h
  | cons a l ih =>
    by_cases ha : a.owner = p
    · simp only [update, ha, if_true, List.mem_cons] at h
      rcases h with h | h
      · exact Or.inr ⟨a, by simp [lookup, ha], h⟩
      · exact Or.inl (List.mem_cons_of_mem _ h)
    · simp only [update, ha, if_false, List.mem_cons] at h
      rcases h with h | h
      · exact Or.inl (by simp [h])
      · rcases ih h with h1 | ⟨t, h1, h2⟩
        · exact Or.inl (List.mem_cons_of_mem _ h1)
        · exact Or.inr ⟨t, by simp [lookup, ha, h1], h2⟩

/-- The registry after the locked section of `pthread_join`: unchanged, or the
caller recorded as join-waiter of the object at `thread`, or that object
removed. -/
theorem pthread_join_locked_list (s : Mem) (cur : TaskHandle_t) (thread : pthread_t)
    (stale : esp_pthread_t) :
    (pthread_join_locked s cur thread stale).1.s_threads_list = s.s_threads_list ∨
      (pthread_join_locked s cur thread stale).1.s_threads_list =
        update s.s_threads_list thread (fun t => { t with join_task := cur }) ∨
      (pthread_join_locked s cur thread stale).1.s_threads_list =
        uxListRemove s.s_threads_list thread := by
  unfold pthread_join_locked
  cases hl : lookup s.s_threads_list thread <;>
    cases hf : pthread_find s.s_threads_list cur <;>
    simp only [Mem.emit, load_join_task, load_state, store_join_task, pthread_delete, hl, hf] <;>
    split_ifs <;> simp

/-- The registry after `pthread_join` is the registry after its locked section. -/
theorem pthread_join_list (s : Mem) (cur : TaskHandle_t) (thread : pthread_t) (retval : Bool)
    (stale : esp_pthread_t) :
    (pthread_join s cur thread retval stale).1.s_threads_list =
      (pthread_join_locked s cur thread stale).1.s_threads_list := by
  unfold pthread_join
  cases hl : lookup (pthread_join_locked s cur thread stale).1.s_threads_list thread <;>
    simp only [load_join_task, hl, pthread_join_epilogue_eq, Mem.emit] <;>
    split_ifs <;> rfl

/-- The registry after `pthread_detach`: unchanged, or the object at `thread`
marked as detached. -/
theorem pthread_detach_list (s : Mem) (thread : pthread_t) :
    (pthread_detach s thread).1.s_threads_list = s.s_threads_list ∨
      (pthread_detach s thread).1.s_threads_list =
        update s.s_threads_list thread (fun t => { t with detached := true }) := by
  unfold pthread_detach
  simp only [Mem.emit, store_detached]
  split_ifs <;> simp

/-- The registry after the exit section: unchanged, or an object removed, or
the state of an object changed. -/
theorem pthread_task_func_exit_list (s : Mem) (cur : TaskHandle_t) :
    (pthread_task_func_exit s cur).s_threads_list = s.s_threads_list ∨
      (∃ p, (pthread_task_func_exit s cur).s_threads_list = uxListRemove s.s_threads_list p) ∨
      ∃ p, (pthread_task_func_exit s cur).s_threads_list =
        update s.s_threads_list p (fun x => { x with state := PTHREAD_TASK_STATE_EXIT }) := by
  cases hf : pthread_find s.s_threads_list cur with
  | none => rw [pthread_task_func_exit_absent s cur hf]; exact Or.inl rfl
  | some t =>
    by_cases hd : t.detached = true
    · rw [pthread_task_func_exit_detached s cur t hf hd]
      exact Or.inr (Or.inl ⟨_, rfl⟩)
    · have hd0 : t.detached = false := by simpa using hd
      by_cases hj : t.join_task = 0
      · rw [pthread_task_func_exit_mark s cur t hf hd0 hj]
        exact Or.inr (Or.inr ⟨_, rfl⟩)
      · rw [pthread_task_func_exit_notify s cur t hf hd0 hj]
        exact Or.inl rfl

/-- One turn that joins no detached thread and detaches no thread with a
join-waiter keeps detached objects free of join-waiters. -/
theorem Sys.exclusive_step {c c1 : Sys} {st : Step}
    (hi : ∀ t ∈ c.mem.s_threads_list, t.detached = true → t.join_task = 0)
    (hx : c.exclusive st = true) (hs : c.step st = some c1) :
    ∀ t ∈ c1.mem.s_threads_list, t.detached = true → t.join_task = 0 := by
  cases st with
  | create cur attr task_arg pthread res xHandle =>
    simp only [Sys.step] at hs
    split_ifs at hs with h1 h2
    · obtain ⟨ha, hta, hpa, hr⟩ := pthread_create_ret_zero h2
      subst ha hr
      simp only [Option.some.injEq] at hs
      subst hs
      rw [pthread_create_ok c.mem task_arg pthread xHandle hta hpa]
      intro t ht
      simp only [xTaskNotifyWait_return, List.mem_append, List.mem_singleton] at ht
      rcases ht with ht | ht
      · exact hi t ht
      · subst ht
        intro _
        rfl
    · obtain ⟨evs, he, _⟩ := pthread_create_fail_trace c.mem attr task_arg pthread res xHandle h2
      simp only [Option.some.injEq] at hs
      subst hs
      rw [he]
      exact hi
  | exit h =>
    simp only [Sys.step] at hs
    split_ifs at hs
    simp only [Option.some.injEq] at hs
    subst hs
    intro t ht
    simp only at ht
    rcases pthread_task_func_exit_list c.mem h with e | ⟨p, e⟩ | ⟨p, e⟩
    · rw [e] at ht
      exact hi t ht
    · rw [e] at ht
      exact hi t (mem_uxListRemove ht)
    · rw [e] at ht
      rcases mem_update _ ht with h1 | ⟨u, hu, h1⟩
      · exact hi t h1
      · subst h1
        exact hi u (lookup_some_mem hu).1
  | join cur thread retval stale =>
    simp only [Sys.step] at hs
    split_ifs at hs
    have hlist : ∀ t ∈ (pthread_join c.mem cur thread retval stale).1.s_threads_list,
        t.detached = true → t.join_task = 0 := by
      intro t ht
      rw [pthread_join_list] at ht
      rcases pthread_join_locked_list c.mem cur thread stale with e | e | e
      · rw [e] at ht
        exact hi t ht
      · rw [e] at ht
        rcases mem_update _ ht with h1 | ⟨u, hu, h1⟩
        · exact hi t h1
        · subst h1
          simp only [Sys.exclusive, hu] at hx
          intro hd
          simp only at hd
          simp [hd] at hx
      · rw [e] at ht
        exact hi t (mem_uxListRemove ht)
    cases hr : (pthread_join c.mem cur thread retval stale).2 with
    | waiting =>
      simp only [hr, Option.some.injEq] at hs
      subst hs
      exact hlist
    | returned v =>
      simp only [hr, Option.some.injEq] at hs
      subst hs
      exact hlist
  | wake cur =>
    simp only [Sys.step] at hs
    cases hb : c.suspended cur with
    | none => simp [hb] at hs
    | some b =>
      simp only [hb] at hs
      split_ifs at hs
      simp only [Option.some.injEq] at hs
      subst hs
      rw [pthread_join_wake_eq]
      intro t ht
      exact hi t (mem_uxListRemove ht)
  | detach cur thread =>
    simp only [Sys.step] at hs
    split_ifs at hs
    simp only [Option.some.injEq] at hs
    subst hs
    intro t ht
    simp only at ht
    rcases pthread_detach_list c.mem thread with e | e
    · rw [e] at ht
      exact hi t ht
    · rw [e] at ht
      rcases mem_update _ ht with h1 | ⟨u, hu, h1⟩
      · exact hi t h1
      · subst h1
        simp only [Sys.exclusive, hu, decide_eq_true_eq] at hx
        intro _
        exact hx

/-- Detached objects have no join-waiter after every sequence of turns that
joins no detached thread and detaches no thread with a join-waiter. -/
theorem Sys.exclusive_exec (steps : List Step) (c c1 : Sys)
    (hi : ∀ t ∈ c.mem.s_threads_list, t.detached = true → t.join_task = 0)
    (h : c.execExclusive steps = some c1) :
    ∀ t ∈ c1.mem.s_threads_list, t.detached = true → t.join_task = 0 := by
  induction steps generalizing c with
  | nil =>
    simp only [Sys.execExclusive, Option.some.injEq] at h
    subst h
    exact hi
  | cons st rest ih =>
    simp only [Sys.execExclusive] at h
    split_ifs at h with hx
    cases hs : c.step st with
    | none => simp [hs] at h
    | some c2 =>
      simp only [hs] at h
      exact ih c2 (Sys.exclusive_step hi hx hs) h

/-- C21 (as amended): in every configuration reached from the empty registry
by turns of `pthread_create`, the exit section, `pthread_join` (both phases)
and `pthread_detach` in which `pthread_join` is never applied to a detached
thread and `pthread_detach` is never applied to a thread that has a
join-waiter, no registered object is both detached and has a join-waiter; hence
when the exit section then finds the object of its task detached, that object
has no join-waiter, and the exit section removes it and notifies nobody. -/
theorem detached_has_no_join_waiter (steps : List Step) (c : Sys)
    (h : Sys.init.execExclusive steps = some c) :
    (∀ t ∈ c.mem.s_threads_list, ¬ (t.detached = true ∧ t.join_task ≠ 0)) ∧
      (∀ x t, pthread_find c.mem.s_threads_list x = some t → t.detached = true →
        t.join_task = 0 ∧
        (pthread_task_func_exit c.mem x).s_threads_list =
          uxListRemove c.mem.s_threads_list t.owner ∧
        (∀ y, Event.notify y ∉ (pthread_task_func_exit c.mem x).since c.mem)) := by
  have hi := Sys.exclusive_exec steps Sys.init c (by intro t ht; simp [Sys.init] at ht) h
  refine ⟨fun t ht hh => hh.2 (hi t ht hh.1), ?_⟩
  intro x t hf hd
  refine ⟨hi t (pthread_find_some_mem hf).1 hd, ?_, ?_⟩
  · rw [pthread_task_func_exit_detached c.mem x t hf hd]
  · rw [pthread_task_func_exit_detached c.mem x t hf hd]
    intro y
    simp [Mem.since]

/-- Witness for `detached_has_no_join_waiter`: task 9 creates the threads A, B
and C and detaches B. -/
theorem detached_has_no_join_waiter_witness :
    Sys.init.execExclusive (run_all.take 4) =
        some ((Sys.init.execExclusive (run_all.take 4)).getD Sys.init) ∧
      ((Sys.init.execExclusive (run_all.take 4)).getD Sys.init).mem.s_threads_list =
        [tcbA, { tcbB with detached := true },
          { owner := 400, value := 6, join_task := 0, state := PTHREAD_TASK_STATE_RUN,
            detached := false }] ∧
      (∀ t ∈ ((Sys.init.execExclusive (run_all.take 4)).getD Sys.init).mem.s_threads_list,
        ¬ (t.detached = true ∧ t.join_task ≠ 0)) :=
  ⟨by decide, by decide,
    (detached_has_no_join_waiter (run_all.take 4)
      ((Sys.init.execExclusive (run_all.take 4)).getD Sys.init) (by decide)).1⟩

/-- C21 (counterexample): task 9 creates thread A (object 200, task 7) and
joins it, so that it is recorded as join-waiter and suspended; task 5 then
detaches A.  Neither call tests the flag of the other, and the registered
object is now detached and has the join-waiter 9.  The same object results
when A is detached first and joined afterwards.  When A then runs its exit
section it finds itself detached, removes and frees its object and notifies
nobody: task 9 stays suspended in `pthread_join`, holding the address of the
freed object. -/
theorem detached_with_join_waiter :
    (Sys.init.execFresh [.create 9 false 100 200 pdPASS 7, .join 9 200 false zeroed,
        .detach 5 200]).map (fun c => c.mem.s_threads_list) =
        some [{ owner := 200, value := 7, join_task := 9, state := PTHREAD_TASK_STATE_RUN,
                detached := true }] ∧
      (Sys.init.execFresh [.create 9 false 100 200 pdPASS 7, .detach 9 200,
        .join 9 200 false zeroed]).map (fun c => c.mem.s_threads_list) =
        some [{ owner := 200, value := 7, join_task := 9, state := PTHREAD_TASK_STATE_RUN,
                detached := true }] ∧
      (Sys.init.execFresh [.create 9 false 100 200 pdPASS 7, .join 9 200 false zeroed,
        .detach 5 200, .exit 7]).map
          (fun c => (c.mem.s_threads_list, c.blocked, c.mem.notified)) =
        some ([], [⟨9, 200, false⟩], []) := by
  decide


/-! ## The start of a thread -/

/-- A task spawned in a reachable configuration has no notification pending:
the only notifications pending there are those sent to suspended join-waiters. -/
theorem Sys.Inv.spawn_not_notified {c : Sys} (hi : c.Inv) {xHandle : TaskHandle_t}
    (hx : xHandle ∉ c.blocked.map Suspended.task) : xHandle ∉ c.mem.notified := by
  intro hn
  obtain ⟨h0, t, ht, hj, _⟩ := hi.notified xHandle hn
  obtain ⟨b, hb, hbt, _⟩ := hi.waiter t ht (by rw [hj]; exact h0)
  apply hx
  rw [← hj, ← hbt]
  exact List.mem_map_of_mem _ hb

/-- C22: for every successful `pthread_create` that spawns a task without a
pending notification: the effects of the call are, in this order, the two
allocations, the spawn, the take of the lock, the insertion of the new object,
the release of the lock, the start notification, the store of the handle and
the return, so that insertion and release precede the only notification, and
the notification state of the tasks is as before up to that notification.  In
every state in which the spawned task has no notification pending, with or
without the new object registered, `pthread_task_func` run by that task only
calls `xTaskNotifyWait` and is suspended there: no lookup, no call of the
entry function.  In the state `pthread_create` leaves, where the new object is
registered, it consumes the notification and then calls the entry function. -/
theorem pthread_create_start_order (s : Mem) (task_arg : Nat) (pthread : pthread_t)
    (xHandle : TaskHandle_t) (ha : task_arg ≠ 0) (hp : pthread ≠ 0)
    (hn : xHandle ∉ s.notified) :
    (pthread_create s false task_arg pthread pdPASS xHandle).2 = ⟨0, some pthread⟩ ∧
      (pthread_create s false task_arg pthread pdPASS xHandle).1.since s =
        [.alloc task_arg, .alloc pthread, .spawn xHandle, .take, .insert pthread, .give,
          .notify xHandle, .set_thread pthread, .ret 0] ∧
      (pthread_create s false task_arg pthread pdPASS xHandle).1.notified =
        s.notified ++ [xHandle] ∧
      (pthread_create s false task_arg pthread pdPASS xHandle).1.s_threads_list =
        s.s_threads_list ++ [new_pthread pthread xHandle] ∧
      (∀ s1 : Mem, s1.notified = s.notified →
        pthread_task_func_start s1 xHandle task_arg = (s1.emit .wait, false)) ∧
      (pthread_task_func_start (pthread_create s false task_arg pthread pdPASS xHandle).1
          xHandle task_arg).2 = true ∧
      (pthread_task_func_start (pthread_create s false task_arg pthread pdPASS xHandle).1
          xHandle task_arg).1.since (pthread_create s false task_arg pthread pdPASS xHandle).1 =
        [.wait, .entry task_arg, .dealloc task_arg] ∧
      (pthread_task_func_start (pthread_create s false task_arg pthread pdPASS xHandle).1
          xHandle task_arg).1.notified = s.notified := by
  rw [pthread_create_ok s task_arg pthread xHandle ha hp]
  refine ⟨rfl, ?_, ?_, rfl, ?_, ?_, ?_, ?_⟩
  · simp [Mem.since]
  · simp [hn]
  · intro s1 h1
    simp [pthread_task_func_start, Mem.emit, h1, hn]
  · simp [pthread_task_func_start, Mem.emit, hn]
  · simp [pthread_task_func_start, Mem.emit, hn, Mem.since, xTaskNotifyWait_return]
  · simp only [pthread_task_func_start, Mem.emit, hn, if_false, List.mem_append,
      List.mem_singleton, or_true, if_true, xTaskNotifyWait_return]
    rw [List.filter_append]
    have h1 : s.notified.filter (fun x => decide (x ≠ xHandle)) = s.notified := by
      rw [List.filter_eq_self]
      intro a ha1
      simp only [ne_eq, decide_eq_true_eq]
      intro e
      exact hn (e ▸ ha1)
    rw [h1]
    simp

/-- Witness for `pthread_create_start_order`: thread A is registered and task 9 creates
a thread with object 300 and task 8. -/
theorem pthread_create_start_order_witness :
    (100 : Nat) ≠ 0 ∧ (300 : pthread_t) ≠ 0 ∧ (8 : TaskHandle_t) ∉ (memOf [tcbA]).notified ∧
      (pthread_create (memOf [tcbA]) false 100 300 pdPASS 8).1.since (memOf [tcbA]) =
        [.alloc 100, .alloc 300, .spawn 8, .take, .insert 300, .give, .notify 8,
          .set_thread 300, .ret 0] ∧
      pthread_task_func_start (memOf [tcbA, tcbB]) 8 100 =
        ((memOf [tcbA, tcbB]).emit .wait, false) :=
  ⟨by decide, by decide, by decide,
    (pthread_create_start_order (memOf [tcbA]) 100 300 8 (by decide) (by decide)
      (by decide)).2.1,
    (pthread_create_start_order (memOf [tcbA]) 100 300 8 (by decide) (by decide)
      (by decide)).2.2.2.2.1 (memOf [tcbA, tcbB]) rfl⟩


/-! ## The use of the registry lock -/

/-- Every path through `pthread_create` uses the lock as it should and ends
with the lock released. -/
theorem pthread_create_lock_discipline (s : Mem) (attr : Bool) (task_arg : Nat)
    (pthread : pthread_t) (res : Int) (xHandle : TaskHandle_t) :
    lock_discipline false ((pthread_create s attr task_arg pthread res xHandle).1.since s) =
      some false := by
  unfold pthread_create
  split_ifs <;> simp [Mem.emit, Mem.since, xTaskNotify, lock_discipline]

/-- Every path through the exit section of `pthread_task_func` on which the
object of the task is found uses the lock as it should and ends with the lock
released; so does the section before it, which waits while the lock is not
held. -/
theorem pthread_task_func_lock_discipline (s : Mem) (cur : TaskHandle_t) (task_arg : Nat)
    (t : esp_pthread_t) (hf : pthread_find s.s_threads_list cur = some t) :
    lock_discipline false ((pthread_task_func_exit s cur).since s) = some false ∧
      lock_discipline false ((pthread_task_func_start s cur task_arg).1.since s) =
        some false := by
  constructor
  · by_cases hd : t.detached = true
    · rw [pthread_task_func_exit_detached s cur t hf hd]
      simp [Mem.since, lock_discipline]
    · have hd0 : t.detached = false := by simpa using hd
      by_cases hj : t.join_task = 0
      · rw [pthread_task_func_exit_mark s cur t hf hd0 hj]
        simp [Mem.since, lock_discipline]
      · rw [pthread_task_func_exit_notify s cur t hf hd0 hj]
        simp [Mem.since, lock_discipline]
  · unfold pthread_task_func_start
    simp only [Mem.emit]
    split_ifs <;> simp [Mem.since, xTaskNotifyWait_return, lock_discipline]

/-- Every path through `pthread_detach` uses the lock as it should and ends
with the lock released. -/
theorem pthread_detach_lock_discipline (s : Mem) (thread : pthread_t) :
    lock_discipline false ((pthread_detach s thread).1.since s) = some false := by
  unfold pthread_detach
  simp only [Mem.emit, store_detached]
  split_ifs <;> simp [Mem.since, lock_discipline]

/-- The path through `pthread_self` on which the object of the task is found
uses the lock as it should and ends with the lock released. -/
theorem pthread_self_lock_discipline (s : Mem) (cur : TaskHandle_t) (t : esp_pthread_t)
    (hf : pthread_find s.s_threads_list cur = some t) :
    pthread_self s cur = ({ s with trace := s.trace ++ [.take, .scan, .give, .ret t.owner] },
        some t.owner) ∧
      lock_discipline false ((pthread_self s cur).1.since s) = some false := by
  simp [pthread_self, Mem.emit, Mem.since, hf, lock_discipline]

/-- The second phase of `pthread_join`, after the wait, uses the lock as it
should and ends with the lock released. -/
theorem pthread_join_wake_lock_discipline (s : Mem) (thread : pthread_t) (retval : Bool) :
    lock_discipline false ((pthread_join_wake s thread retval).1.since s) = some false := by
  rw [pthread_join_wake_eq]
  cases retval <;> simp [Mem.since, lock_discipline]

/-- The locked section of `pthread_join` (lines 208-234) uses the lock as it
should and ends with the lock released. -/
theorem pthread_join_locked_lock_discipline (s : Mem) (cur : TaskHandle_t)
    (thread : pthread_t) (stale : esp_pthread_t) :
    lock_discipline false ((pthread_join_locked s cur thread stale).1.since s) =
      some false := by
  unfold pthread_join_locked
  cases hl : lookup s.s_threads_list thread <;>
    cases hf : pthread_find s.s_threads_list cur <;>
    simp only [Mem.emit, load_join_task, load_state, store_join_task, pthread_delete, hl, hf] <;>
    split_ifs <;> simp [Mem.since, lock_discipline]

/-- C23 (the code at the failing input): thread A (object 200, task 7) is
registered and running, and task 9 calls `pthread_join(200, NULL)`.  The locked
section of lines 208-234 is in order: every access is made between the take
and the release.  After the release, line 236 loads `pthread->join_task` once
more to decide whether to wait: a member of the registered object is read
while the lock is not held, and the sequence of effects of the call fails the
check of the lock discipline.  The wait itself is made with the lock
released. -/
theorem pthread_join_reads_outside_lock :
    (pthread_join (memOf [tcbA]) 9 200 false zeroed).1.since (memOf [tcbA]) =
        [.take, .scan, .load 200 .join_task true, .scan, .load 200 .state true,
          .store 200 .join_task true, .give, .load 200 .join_task true, .wait] ∧
      lock_discipline false
        ((pthread_join_locked (memOf [tcbA]) 9 200 zeroed).1.since (memOf [tcbA])) =
        some false ∧
      lock_discipline false
        ((pthread_join (memOf [tcbA]) 9 200 false zeroed).1.since (memOf [tcbA])) = none ∧
      lock_discipline false
        ((pthread_join (memOf [tcbA_exited]) 9 200 false zeroed).1.since
          (memOf [tcbA_exited])) = none ∧
      lock_discipline false
        ((pthread_join (memOf [tcbA]) 9 300 false zeroed).1.since (memOf [tcbA])) =
        some false := by
  decide

/-! ## Reads of the object in `pthread_join` -/

/-- C24 (the code at the failing input): thread A (object 200, task 7) has
been created and has run its exit section without join-waiter, so that its
object is registered with state `PTHREAD_TASK_STATE_EXIT`; task 9 calls
`pthread_join(200, NULL)`.  The loads of `join_task` and `state` in the locked
section are made on the registered object; the call then removes and frees the
object (`pthread_delete`, line 230), releases the lock, and at line 236 loads
`pthread->join_task` from the block it has just freed.  On a handle that is not
registered (`300`) no member is read. -/
theorem pthread_join_reads_removed_object :
    (Sys.init.execFresh [.create 9 false 100 200 pdPASS 7, .exit 7]).map
        (fun c => c.mem.s_threads_list) = some [tcbA_exited] ∧
      (pthread_join (memOf [tcbA_exited]) 9 200 false zeroed).1.since (memOf [tcbA_exited]) =
        [.take, .scan, .load 200 .join_task true, .scan, .load 200 .state true,
          .delete 200 true, .give, .load 200 .join_task false, .ret 0] ∧
      (pthread_join (memOf [tcbA_exited]) 9 200 false zeroed).1.s_threads_list = [] ∧
      (pthread_join (memOf [tcbA_exited]) 9 300 false zeroed).1.since (memOf [tcbA_exited]) =
        [.take, .scan, .give, .ret ESRCH] := by
  decide


/-! ## The LED PWM driver -/

theorem ledc_precision_eq (b : Nat) (hb : b < 32) : ledc_precision b = 2 ^ b := by
  unfold ledc_precision
  rw [Nat.shiftLeft_eq, Nat.one_mul]
  exact Nat.mod_eq_of_lt (Nat.pow_lt_pow_right (by norm_num) hb)

/-- The divider expression of the code, for a non-zero frequency and a shift
below 32, is the quantity `d(clk)`: no division by zero is executed. -/
theorem ledc_div_eq (clk f b : Nat) (hclk : clk < 2 ^ 56) (hf : f ≠ 0) (hb : b < 32) :
    ledc_div clk f (ledc_precision b) = some (ledc_divider_spec clk f b) := by
  have hp : (2 : Nat) ^ b ≠ 0 := by positivity
  have hs : (clk <<< 8) % 2 ^ 64 = clk * 2 ^ 8 := by
    rw [Nat.shiftLeft_eq]
    apply Nat.mod_eq_of_lt
    norm_num at hclk ⊢
    omega
  unfold ledc_div
  rw [hs, ledc_precision_eq b hb]
  simp only [udiv, hf, hp, if_false, ledc_divider_spec]

/-- The 32-bit truncation of the divider computed from the APB clock of
80 MHz: a truncated value in the accepted range is the exact quotient. -/
theorem ledc_divider_apb_exact (f p : Nat) (hf : 1 ≤ f) (hp : 2 ≤ p)
    (h : 256 < (80000000 * 2 ^ 8 / f / p) % 2 ^ 32 ∧
      (80000000 * 2 ^ 8 / f / p) % 2 ^ 32 ≤ 0x3FFFF) :
    80000000 * 2 ^ 8 / f / p = (80000000 * 2 ^ 8 / f / p) % 2 ^ 32 := by
  by_cases hq : 80000000 * 2 ^ 8 / f / p < 2 ^ 32
  · exact (Nat.mod_eq_of_lt hq).symm
  · exfalso
    have h1 : 2 ^ 32 ≤ 80000000 * 2 ^ 8 / f / p := Nat.le_of_not_lt hq
    have h2 : 2 ^ 32 * p ≤ 80000000 * 2 ^ 8 / f := (Nat.le_div_iff_mul_le (by omega)).1 h1
    have h3 : 2 ^ 32 * p * f ≤ 80000000 * 2 ^ 8 := (Nat.le_div_iff_mul_le (by omega)).1 h2
    have h4 : p * f ≤ 4 := by
      by_contra hc
      have h5 : 5 ≤ p * f := by omega
      have h6 : 2 ^ 32 * 5 ≤ 2 ^ 32 * (p * f) := Nat.mul_le_mul_left _ h5
      rw [← Nat.mul_assoc] at h6
      norm_num at h3 h6
      omega
    have h7 : p ≤ 4 := by nlinarith
    have h8 : f ≤ 2 := by nlinarith
    interval_cases p <;> interval_cases f <;> simp_all


/-- Lines 243-259 of `ledc_config` for a non-zero frequency and a shift below
32: the APB clock is taken when its divider is in the accepted range, the
reference tick otherwise, and `ret` is `ESP_FAIL` when both dividers are out of
range. -/
theorem ledc_config_divider_eq (K : ledc_hw) (f b : Nat) (hA : K.LEDC_APB_CLK_HZ < 2 ^ 56)
    (hR : K.LEDC_REF_CLK_HZ < 2 ^ 56) (hf : f ≠ 0) (hb : b < 32) :
    ledc_config_divider K f b =
      some
        (if 256 < ledc_divider_spec K.LEDC_APB_CLK_HZ f b ∧
            ledc_divider_spec K.LEDC_APB_CLK_HZ f b ≤ K.LEDC_DIV_NUM_HSTIMER0_V then
          (ledc_divider_spec K.LEDC_APB_CLK_HZ f b, K.LEDC_APB_CLK, .ESP_OK)
        else if 256 < ledc_divider_spec K.LEDC_REF_CLK_HZ f b ∧
            ledc_divider_spec K.LEDC_REF_CLK_HZ f b ≤ K.LEDC_DIV_NUM_HSTIMER0_V then
          (ledc_divider_spec K.LEDC_REF_CLK_HZ f b, K.LEDC_REF_TICK, .ESP_OK)
        else (ledc_divider_spec K.LEDC_REF_CLK_HZ f b, K.LEDC_REF_TICK, .ESP_FAIL)) := by
  unfold ledc_config_divider
  rw [ledc_div_eq _ f b hA hf hb, ledc_div_eq _ f b hR hf hb]
  simp only
  split_ifs <;> first | (exfalso; omega) | rfl

theorem to_int_small (n : Nat) (h : n < 2 ^ 31) : to_int n = (n : Int) := by
  have h1 : n % 2 ^ 32 = n := Nat.mod_eq_of_lt (by omega)
  unfold to_int
  rw [h1, if_pos h]

/-- The timer registers after `ledc_timer_config` and `ledc_timer_rst` with a
valid mode and a valid timer. -/
theorem ledc_timer_config_rst (K : ledc_hw) (LEDC : ledc_dev) (speed_mode timer_sel div_num
    bit_num clk_src : Nat) (hm : speed_mode < K.LEDC_SPEED_MODE_MAX)
    (ht : timer_sel ≤ K.LEDC_TIMER3) (h3 : K.LEDC_TIMER3 < 2 ^ 31) :
    (ledc_timer_rst K (ledc_timer_config K LEDC speed_mode timer_sel div_num bit_num clk_src).1
        speed_mode timer_sel).1 =
      fun m t =>
        if m = speed_mode ∧ t = timer_sel then
          { LEDC speed_mode timer_sel with
            div_num := div_num
            tick_sel := clk_src
            bit_num := bit_num
            low_speed_update :=
              if speed_mode = K.LEDC_HIGH_SPEED_MODE then 1
              else (LEDC speed_mode timer_sel).low_speed_update
            rst := 0 }
        else LEDC m t := by
  have h1 : ledc_is_valid_mode K speed_mode = true := by
    simp [ledc_is_valid_mode, hm]
  have h2 : ledc_is_valid_timer K (to_int timer_sel) = true := by
    rw [to_int_small timer_sel (by omega)]
    simp only [ledc_is_valid_timer, gt_iff_lt, Nat.cast_lt, ite_eq_right_iff]
    intro h
    omega
  funext m t
  simp only [ledc_timer_rst, ledc_timer_config, h1, h2, Bool.true_eq_false, if_false,
    ledc_dev.set]
  by_cases hmt : m = speed_mode ∧ t = timer_sel
  · simp [hmt]
  · simp [hmt]


/-- C25: with the header values of the ESP32 (APB clock 80 MHz, reference tick
1 MHz, `LEDC_DIV_NUM_HSTIMER0_V = 0x3FFFF`, `LEDC_TIMER_15_BIT = 15`,
`LEDC_TIMER3 = 3`), for every configuration that passes the argument checks of
`ledc_config`, and with `d(clk)` the quantity `ledc_divider_spec clk freq_hz
bit_num`: no division by zero is executed; the return value is `ESP_FAIL` when
both `d(LEDC_APB_CLK_HZ)` and `d(LEDC_REF_CLK_HZ)` are outside
`(256, LEDC_DIV_NUM_HSTIMER0_V]` and `ESP_OK` otherwise; the timer is programmed
with `LEDC_APB_CLK` and `d(LEDC_APB_CLK_HZ)` when that divider is in the range,
and with `LEDC_REF_TICK` and `d(LEDC_REF_CLK_HZ)` otherwise, and with `bit_num`;
the other timers are untouched; and a truncated APB divider in the range is the
exact quotient, while the reference-tick divider is never truncated. -/
theorem ledc_config_divider_choice (K : ledc_hw) (LEDC : ledc_dev)
    (ledc_conf : ledc_config_t)
    (hapb : K.LEDC_APB_CLK_HZ = 80000000) (href : K.LEDC_REF_CLK_HZ = 1000000)
    (hv : K.LEDC_DIV_NUM_HSTIMER0_V = 0x3FFFF) (h15 : K.LEDC_TIMER_15_BIT = 15)
    (h3 : K.LEDC_TIMER3 = 3)
    (hch : ledc_conf.channel ≤ K.LEDC_CHANNEL_7)
    (hmode : ledc_conf.speed_mode < K.LEDC_SPEED_MODE_MAX)
    (hgpio : K.is_valid_output_gpio ledc_conf.gpio_num = true)
    (hf : ledc_conf.freq_hz ≠ 0) (hb1 : 1 ≤ ledc_conf.bit_num)
    (hb2 : ledc_conf.bit_num ≤ K.LEDC_TIMER_15_BIT)
    (ht : ledc_conf.timer_sel ≤ K.LEDC_TIMER3) :
    (ledc_config K LEDC ledc_conf).map Prod.snd =
        some
          (if (256 < ledc_divider_spec K.LEDC_APB_CLK_HZ ledc_conf.freq_hz ledc_conf.bit_num ∧
                ledc_divider_spec K.LEDC_APB_CLK_HZ ledc_conf.freq_hz ledc_conf.bit_num ≤
                  K.LEDC_DIV_NUM_HSTIMER0_V) ∨
              (256 < ledc_divider_spec K.LEDC_REF_CLK_HZ ledc_conf.freq_hz ledc_conf.bit_num ∧
                ledc_divider_spec K.LEDC_REF_CLK_HZ ledc_conf.freq_hz ledc_conf.bit_num ≤
                  K.LEDC_DIV_NUM_HSTIMER0_V)
            then esp_err_t.ESP_OK else esp_err_t.ESP_FAIL) ∧
      (ledc_config K LEDC ledc_conf).map
          (fun r =>
            ((r.1 ledc_conf.speed_mode ledc_conf.timer_sel).tick_sel,
              (r.1 ledc_conf.speed_mode ledc_conf.timer_sel).div_num,
              (r.1 ledc_conf.speed_mode ledc_conf.timer_sel).bit_num)) =
        some
          (if 256 < ledc_divider_spec K.LEDC_APB_CLK_HZ ledc_conf.freq_hz ledc_conf.bit_num ∧
              ledc_divider_spec K.LEDC_APB_CLK_HZ ledc_conf.freq_hz ledc_conf.bit_num ≤
                K.LEDC_DIV_NUM_HSTIMER0_V
            then
              (K.LEDC_APB_CLK,
                ledc_divider_spec K.LEDC_APB_CLK_HZ ledc_conf.freq_hz ledc_conf.bit_num,
                ledc_conf.bit_num)
            else
              (K.LEDC_REF_TICK,
                ledc_divider_spec K.LEDC_REF_CLK_HZ ledc_conf.freq_hz ledc_conf.bit_num,
                ledc_conf.bit_num)) ∧
      (∀ m t, ¬ (m = ledc_conf.speed_mode ∧ t = ledc_conf.timer_sel) →
        (ledc_config K LEDC ledc_conf).map (fun r => r.1 m t) = some (LEDC m t)) ∧
      (256 < ledc_divider_spec K.LEDC_APB_CLK_HZ ledc_conf.freq_hz ledc_conf.bit_num ∧
          ledc_divider_spec K.LEDC_APB_CLK_HZ ledc_conf.freq_hz ledc_conf.bit_num ≤
            K.LEDC_DIV_NUM_HSTIMER0_V →
        K.LEDC_APB_CLK_HZ * 2 ^ 8 / ledc_conf.freq_hz / 2 ^ ledc_conf.bit_num =
          ledc_divider_spec K.LEDC_APB_CLK_HZ ledc_conf.freq_hz ledc_conf.bit_num) ∧
      K.LEDC_REF_CLK_HZ * 2 ^ 8 / ledc_conf.freq_hz / 2 ^ ledc_conf.bit_num =
        ledc_divider_spec K.LEDC_REF_CLK_HZ ledc_conf.freq_hz ledc_conf.bit_num := by
  have hbit : ledc_conf.bit_num < 32 := by omega
  have hdiv := ledc_config_divider_eq K ledc_conf.freq_hz ledc_conf.bit_num
    (by rw [hapb]; norm_num) (by rw [href]; norm_num) hf hbit
  have hc1 : ledc_is_valid_channel K ledc_conf.channel = true := by
    simp [ledc_is_valid_channel, hch]
  have hc2 : ledc_is_valid_mode K ledc_conf.speed_mode = true := by
    simp [ledc_is_valid_mode, hmode]
  have hc4 : ¬ (ledc_conf.freq_hz = 0 ∨ ledc_conf.bit_num = 0 ∨
      ledc_conf.bit_num > K.LEDC_TIMER_15_BIT) := by
    intro h
    rcases h with h | h | h
    · exact hf h
    · omega
    · omega
  have hc5 : ¬ ledc_conf.timer_sel > K.LEDC_TIMER3 := by omega
  have hreg := fun d c => ledc_timer_config_rst K LEDC ledc_conf.speed_mode ledc_conf.timer_sel d
    ledc_conf.bit_num c hmode ht (by rw [h3]; norm_num)
  have hcfg : ∀ d c r, ledc_config_divider K ledc_conf.freq_hz ledc_conf.bit_num =
      some (d, c, r) →
      ledc_config K LEDC ledc_conf =
        some ((ledc_timer_rst K (ledc_timer_config K LEDC ledc_conf.speed_mode
          ledc_conf.timer_sel d ledc_conf.bit_num c).1 ledc_conf.speed_mode
          ledc_conf.timer_sel).1, r) := by
    intro d c r h
    unfold ledc_config
    rw [if_neg (by simp [hc1]), if_neg (by simp [hc2]), if_neg (by simp [hgpio]), if_neg hc4,
      if_neg hc5, h]
  refine ⟨?_, ?_, ?_, ?_, ?_⟩
  · by_cases hA : 256 < ledc_divider_spec K.LEDC_APB_CLK_HZ ledc_conf.freq_hz
        ledc_conf.bit_num ∧
        ledc_divider_spec K.LEDC_APB_CLK_HZ ledc_conf.freq_hz ledc_conf.bit_num ≤
          K.LEDC_DIV_NUM_HSTIMER0_V
    · rw [if_pos hA] at hdiv
      rw [hcfg _ _ _ hdiv, if_pos (Or.inl hA)]
      rfl
    · rw [if_neg hA] at hdiv
      by_cases hR : 256 < ledc_divider_spec K.LEDC_REF_CLK_HZ ledc_conf.freq_hz
          ledc_conf.bit_num ∧
          ledc_divider_spec K.LEDC_REF_CLK_HZ ledc_conf.freq_hz ledc_conf.bit_num ≤
            K.LEDC_DIV_NUM_HSTIMER0_V
      · rw [if_pos hR] at hdiv
        rw [hcfg _ _ _ hdiv, if_pos (Or.inr hR)]
        rfl
      · rw [if_neg hR] at hdiv
        rw [hcfg _ _ _ hdiv, if_neg (fun h => h.elim hA hR)]
        rfl
  · by_cases hA : 256 < ledc_divider_spec K.LEDC_APB_CLK_HZ ledc_conf.freq_hz
        ledc_conf.bit_num ∧
        ledc_divider_spec K.LEDC_APB_CLK_HZ ledc_conf.freq_hz ledc_conf.bit_num ≤
          K.LEDC_DIV_NUM_HSTIMER0_V
    · rw [if_pos hA] at hdiv
      rw [hcfg _ _ _ hdiv, if_pos hA, hreg]
      simp
    · rw [if_neg hA] at hdiv
      by_cases hR : 256 < ledc_divider_spec K.LEDC_REF_CLK_HZ ledc_conf.freq_hz
          ledc_conf.bit_num ∧
          ledc_divider_spec K.LEDC_REF_CLK_HZ ledc_conf.freq_hz ledc_conf.bit_num ≤
            K.LEDC_DIV_NUM_HSTIMER0_V
      · rw [if_pos hR] at hdiv
        rw [hcfg _ _ _ hdiv, if_neg hA, hreg]
        simp
      · rw [if_neg hR] at hdiv
        rw [hcfg _ _ _ hdiv, if_neg hA, hreg]
        simp
  · intro m t hmt
    cases hd : ledc_config_divider K ledc_conf.freq_hz ledc_conf.bit_num with
    | none => rw [hd] at hdiv; cases hdiv
    | some x =>
      obtain ⟨d, c, r⟩ := x
      rw [hcfg d c r hd, hreg]
      simp [hmt]
  · intro hA
    rw [hapb, hv] at hA
    rw [hapb]
    unfold ledc_divider_spec at hA ⊢
    exact ledc_divider_apb_exact ledc_conf.freq_hz (2 ^ ledc_conf.bit_num)
      (Nat.pos_of_ne_zero hf)
      (by
        calc 2 = 2 ^ 1 := by norm_num
          _ ≤ 2 ^ ledc_conf.bit_num := Nat.pow_le_pow_right (by norm_num) hb1)
      hA
  · rw [href]
    unfold ledc_divider_spec
    symm
    apply Nat.mod_eq_of_lt
    calc 1000000 * 2 ^ 8 / ledc_conf.freq_hz / 2 ^ ledc_conf.bit_num
        ≤ 1000000 * 2 ^ 8 / ledc_conf.freq_hz := Nat.div_le_self _ _
      _ ≤ 1000000 * 2 ^ 8 := Nat.div_le_self _ _
      _ < 2 ^ 32 := by norm_num


/-- Witness for `ledc_config_divider_choice`: 5 kHz with 13 bits on the ESP32 is
generated from the APB clock with divider 500; 1 Hz with 1 bit, whose exact APB
quotient does not fit in 32 bits, is refused. -/
theorem ledc_config_divider_choice_witness :
    esp32_hw.LEDC_APB_CLK_HZ = 80000000 ∧ esp32_hw.LEDC_REF_CLK_HZ = 1000000 ∧
      esp32_hw.LEDC_DIV_NUM_HSTIMER0_V = 0x3FFFF ∧ esp32_hw.LEDC_TIMER_15_BIT = 15 ∧
      esp32_hw.LEDC_TIMER3 = 3 ∧ ledc_conf_5k.channel ≤ esp32_hw.LEDC_CHANNEL_7 ∧
      ledc_conf_5k.speed_mode < esp32_hw.LEDC_SPEED_MODE_MAX ∧
      esp32_hw.is_valid_output_gpio ledc_conf_5k.gpio_num = true ∧
      ledc_conf_5k.freq_hz ≠ 0 ∧ 1 ≤ ledc_conf_5k.bit_num ∧
      ledc_conf_5k.bit_num ≤ esp32_hw.LEDC_TIMER_15_BIT ∧
      ledc_conf_5k.timer_sel ≤ esp32_hw.LEDC_TIMER3 ∧
      (ledc_config esp32_hw ledc_reset ledc_conf_5k).map Prod.snd = some esp_err_t.ESP_OK ∧
      (ledc_config esp32_hw ledc_reset ledc_conf_5k).map
          (fun r => ((r.1 0 0).tick_sel, (r.1 0 0).div_num, (r.1 0 0).bit_num)) =
        some (1, 500, 13) ∧
      (ledc_config esp32_hw ledc_reset { ledc_conf_5k with freq_hz := 1, bit_num := 1 }).map
          Prod.snd = some esp_err_t.ESP_FAIL :=
  ⟨rfl, rfl, rfl, rfl, rfl, by decide, by decide, by decide, by decide, by decide, by decide,
    by decide,
    (ledc_config_divider_choice esp32_hw ledc_reset ledc_conf_5k rfl rfl rfl rfl rfl
      (by decide) (by decide) (by decide) (by decide) (by decide) (by decide)
      (by decide)).1.trans (by decide),
    (ledc_config_divider_choice esp32_hw ledc_reset ledc_conf_5k rfl rfl rfl rfl rfl
      (by decide) (by decide) (by decide) (by decide) (by decide) (by decide)
      (by decide)).2.1.trans (by decide),
    (ledc_config_divider_choice esp32_hw ledc_reset
      { ledc_conf_5k with freq_hz := 1, bit_num := 1 } rfl rfl rfl rfl rfl
      (by decide) (by decide) (by decide) (by decide) (by decide) (by decide)
      (by decide)).1.trans (by decide)⟩

/-- The divisions of `ledc_config` never have a zero divisor when
`LEDC_TIMER_15_BIT` is below 32: the frequency is tested before, and the
precision is a power of two. -/
theorem ledc_config_no_division_by_zero (K : ledc_hw) (LEDC : ledc_dev)
    (ledc_conf : ledc_config_t) (hA : K.LEDC_APB_CLK_HZ < 2 ^ 56)
    (hR : K.LEDC_REF_CLK_HZ < 2 ^ 56) (h15 : K.LEDC_TIMER_15_BIT < 32) :
    (ledc_config K LEDC ledc_conf).isSome = true := by
  unfold ledc_config
  split_ifs with h1 h2 h3 h4 h5
  · rfl
  · rfl
  · rfl
  · rfl
  · rfl
  · have hf : ledc_conf.freq_hz ≠ 0 := fun h => h4 (Or.inl h)
    have hb : ledc_conf.bit_num < 32 := by
      have : ¬ ledc_conf.bit_num > K.LEDC_TIMER_15_BIT := fun h => h4 (Or.inr (Or.inr h))
      omega
    rw [ledc_config_divider_eq K _ _ hA hR hf hb]
    rfl

/-- C26 (the code at the failing inputs): on the ESP32, `ledc_set_freq` with
`freq_hz = 0` divides by the frequency without any test and executes a division
by zero, whether the timer has been configured or not; `ledc_get_freq` divides
by the stored divider without any test and executes a division by zero on a
timer whose `div_num` is zero, as it is after reset, and also after
`ledc_set_freq` has stored a zero divider while returning `ESP_FAIL`.
`ledc_config` tests `freq_hz == 0` before it divides and returns
`ESP_ERR_INVALID_ARG`. -/
theorem ledc_freq_division_by_zero :
    (ledc_set_freq esp32_hw ledc_reset 0 0 0).isNone = true ∧
      (ledc_config esp32_hw ledc_reset ledc_conf_5k).map
          (fun r => (ledc_set_freq esp32_hw r.1 0 0 0).isNone) = some true ∧
      ledc_get_freq esp32_hw ledc_reset 0 0 = none ∧
      (ledc_config esp32_hw ledc_reset ledc_conf_5k).map
          (fun r => (ledc_set_freq esp32_hw r.1 0 0 4000000000).map
            (fun q => (q.2, (q.1 0 0).div_num, ledc_get_freq esp32_hw q.1 0 0))) =
        some (some (esp_err_t.ESP_FAIL, 0, none)) ∧
      (ledc_config esp32_hw ledc_reset { ledc_conf_5k with freq_hz := 0 }).map Prod.snd =
        some esp_err_t.ESP_ERR_INVALID_ARG ∧
      (ledc_config esp32_hw ledc_reset ledc_conf_5k).map
          (fun r => ledc_get_freq esp32_hw r.1 0 0) = some (some 5000) := by
  decide

end EspPthread
